import Mathlib

/-!
# Snek: a shallow embedding of `src/snek.c`

The game keeps one heap-allocated `struct snek` (the global pointer `snek`) and
mutates it from `snek_loop`.  The embedding passes that struct explicitly as a
value of type `snek` and passes everything the program reads from outside
(`malloc`, `rand`, `SDL_GetTicks`, `SDL_PollEvent`) as a `World` of pending
answers.

Conventions of the embedding:

* a `struct snek_entity*` is a `List snek_entity`: `NULL` is `[]`, and a
  non-NULL pointer is the list of the nodes reached through `next`;
* the global pointer `snek` is non-NULL once `snek_init` succeeded, so the
  `snek == NULL` guards that open every function are never taken;
* `int32_t` values are `Int`; signed overflow is undefined in C and no
  arithmetic of the program is reduced modulo `2^32` here;
* the rendering functions write no field of `struct snek` and are left out;
* reading the uninitialised pointer `new_snek_entity` (a `direction` outside
  `UP .. RIGHT` in `snek_update`) is undefined behaviour: `none`.
-/

namespace Snek

/-! ## Constants (lines 17-49) -/

abbrev SCREEN_WIDTH : Int := 1280
abbrev SCREEN_HEIGHT : Int := 720
abbrev MAP_ROWS : Int := 30
abbrev MAP_COLUMNS : Int := 53

abbrev START_MENU : Int := 0
abbrev MID_GAME : Int := 1
abbrev GAME_OVER : Int := 2
abbrev QUIT_LOOP : Int := 3
abbrev PAUSE : Int := 4

abbrev UP : Int := 0
abbrev DOWN : Int := 1
abbrev LEFT : Int := 2
abbrev RIGHT : Int := 3

abbrev BLACK : Int := 0
abbrev GREEN : Int := 1
abbrev RED : Int := 2
abbrev GREY : Int := 3
abbrev HEAD : Int := 4

abbrev EASY : Int := 100
abbrev REGULAR : Int := 50
abbrev HARD : Int := 30

/-! ## SDL2 constants used by the program (`SDL_events.h`, `SDL_keycode.h`) -/

abbrev SDL_QUIT : Nat := 0x100
abbrev SDL_KEYDOWN : Nat := 0x300

abbrev SDLK_a : Int := 97
abbrev SDLK_d : Int := 100
abbrev SDLK_e : Int := 101
abbrev SDLK_p : Int := 112
abbrev SDLK_q : Int := 113
abbrev SDLK_r : Int := 114
abbrev SDLK_s : Int := 115
abbrev SDLK_w : Int := 119
abbrev SDLK_RIGHT : Int := 1073741903
abbrev SDLK_LEFT : Int := 1073741904
abbrev SDLK_DOWN : Int := 1073741905
abbrev SDLK_UP : Int := 1073741906

/-! ## Data model (lines 51-93) -/

/-- One node of the linked list `struct snek_entity`; the `next` pointer is the
rest of the list that holds the node. -/
structure snek_entity where
  row : Int
  column : Int
deriving DecidableEq, Repr

/-- The part of `SDL_Event` the program reads: `event.type` and
`event.key.keysym.sym`. -/
structure SDL_Event where
  type : Nat
  sym : Int
deriving DecidableEq, Repr

/-- The `struct snek` of the program, without the SDL handles (`window`,
`renderer`, `font`).  `map` is the `int32_t map[MAP_ROWS][MAP_COLUMNS]` array,
a list of rows. -/
structure snek where
  event : SDL_Event
  head : List snek_entity
  direction : Int
  score : Int
  food_row : Int
  food_column : Int
  map : List (List Int)
  status : Int
  current_time : Int
  last_time : Int
  difficulty : Int
deriving DecidableEq, Repr

/-- What the program reads from outside, as queues of pending answers:
`mallocs` are the outcomes of the next calls of `malloc` (`false` is `NULL`),
`rands` the next results of `rand()`, `ticks` the next readings of
`SDL_GetTicks()`, `events` the SDL event queue. -/
structure World where
  mallocs : List Bool
  rands : List Nat
  ticks : List Int
  events : List SDL_Event
deriving DecidableEq, Repr

/-- The call `malloc(...)`: an exhausted queue of outcomes means the call
succeeds. -/
def malloc (w : World) : Bool × World :=
  (w.mallocs.headD true, { w with mallocs := w.mallocs.tail })

/-- The call `rand()`: a non-negative integer. -/
def rand (w : World) : Nat × World :=
  (w.rands.headD 0, { w with rands := w.rands.tail })

/-- The value an `int32_t` holds once `x` has been stored in it or computed
in it: `x` wrapped into -2^31 .. 2^31 - 1 (two's complement).  Signed overflow
is undefined in C; this is what the compiled program does. -/
def wrap_int32 (x : Int) : Int :=
  (x + 2147483648) % 4294967296 - 2147483648

/-- The call `SDL_GetTicks()`, as the `int32_t` that each of its call sites
(lines 214, 239, 891) stores the `Uint32` reading in. -/
def SDL_GetTicks (w : World) : Int × World :=
  (wrap_int32 (w.ticks.headD 0), { w with ticks := w.ticks.tail })

/-- The call `SDL_PollEvent(&snek->event)`: with an empty queue it returns 0
and leaves `snek->event` alone, otherwise it removes the first event, stores
it in `snek->event` and returns 1. -/
def SDL_PollEvent (s : snek) (w : World) : Bool × snek × World :=
  match w.events with
  | [] => (false, s, w)
  | e :: es => (true, { s with event := e }, { w with events := es })

/-! ## Entity chain (lines 95-143) -/

/-- Lines 97-115: a fresh node with `next = NULL`, or `NULL` when `malloc`
fails. -/
def snek_entity_new (row column : Int) (w : World) : List snek_entity × World :=
  match malloc w with
  | (false, w1) => ([], w1)
  | (true, w1) => ([⟨row, column⟩], w1)

/-- Lines 120-143: walk to the tail node and hang a fresh node on it.  Returns
the result of the call, the chain the pointer now leads to, and the world. -/
def snek_entity_append (e : List snek_entity) (row column : Int) (w : World) :
    Bool × List snek_entity × World :=
  match e with
  | [] => (false, [], w)
  | _ :: _ =>
    match snek_entity_new row column w with
    | ([], w1) => (false, e, w1)
    | (n, w1) => (true, e ++ n, w1)

/-! ## Food placement (lines 194-248) -/

/-- One pass through the body of `while (food_is_inside_snek == 1)` (lines
219-242) with the scan pointer `temp` as it stands on entry.  Returns whether
the pass ended in `return false` (time budget exceeded), the flag
`food_is_inside_snek` at the end of the pass, and the new struct and world.
The sum `last_time + 10000` of line 240 is taken in `int32_t`. -/
def spawn_pass (temp : List snek_entity) (last_time : Int) (s : snek) (w : World) :
    Bool × Bool × snek × World :=
  let (r1, w1) := rand w
  let s1 := { s with food_row := (r1 : Int) % ((MAP_ROWS - 2) + 1 - 2) + 2 }
  let (r2, w2) := rand w1
  let s2 := { s1 with food_column := (r2 : Int) % ((MAP_COLUMNS - 2) + 1 - 1) + 1 }
  let food_is_inside_snek :=
    temp.any (fun t => decide (t.row = s2.food_row ∧ t.column = s2.food_column))
  let (current_time, w3) := SDL_GetTicks w2
  (decide (current_time > wrap_int32 (last_time + 10000)), food_is_inside_snek, s2, w3)

/-- Lines 196-248.  `temp` is set to `snek->head` once, before the sampling
loop, and the scan leaves it `NULL`: the first pass scans the whole chain, a
second pass scans nothing, keeps `food_is_inside_snek` at 0 and so ends the
loop.  `srand(time(0))` only chooses the sequence `rand()` goes through, which
is `World.rands` here. -/
def snek_food_entity_spawn (s : snek) (w : World) : Bool × snek × World :=
  let (current_time, w0) := SDL_GetTicks w
  let last_time := current_time
  match spawn_pass s.head last_time s w0 with
  | (true, _, s1, w1) => (false, s1, w1)
  | (false, false, s1, w1) => (true, s1, w1)
  | (false, true, s1, w1) =>
    match spawn_pass [] last_time s1 w1 with
    | (true, _, s2, w2) => (false, s2, w2)
    | (false, _, s2, w2) => (true, s2, w2)

/-! ## Tile map (lines 283-315) -/

/-- The assignment `snek->map[i][j] = v`.  An index outside the array is
undefined behaviour in C; the embedding leaves the map as it is there. -/
def set_tile (map : List (List Int)) (i j : Int) (v : Int) : List (List Int) :=
  if 0 ≤ i ∧ i < MAP_ROWS ∧ 0 ≤ j ∧ j < MAP_COLUMNS then
    map.set i.toNat ((map.getD i.toNat []).set j.toNat v)
  else map

/-- The value of `snek->map[i][j]`, as `snek_render` reads it (lines 499-504);
`none` for an index outside the array. -/
def get_tile (map : List (List Int)) (i j : Int) : Option Int :=
  if 0 ≤ i ∧ i < MAP_ROWS ∧ 0 ≤ j ∧ j < MAP_COLUMNS then
    (map.getD i.toNat []).get? j.toNat
  else none

/-- The map the three loops of lines 291-310 leave behind: every tile black,
then the wall tiles: rows 0, 1 and `MAP_ROWS-1`, columns 0 and
`MAP_COLUMNS-1`.  The loops write every cell, so the result does not depend on
what the array held before. -/
@[irreducible] def initial_map : List (List Int) :=
  let m0 := List.replicate MAP_ROWS.toNat (List.replicate MAP_COLUMNS.toNat BLACK)
  let m1 := (List.range MAP_COLUMNS.toNat).foldl
    (fun m i => set_tile (set_tile (set_tile m 0 i GREY) 1 i GREY) (MAP_ROWS - 1) i GREY) m0
  (List.range MAP_ROWS.toNat).foldl
    (fun m i => set_tile (set_tile m i 0 GREY) i (MAP_COLUMNS - 1) GREY) m1

/-- Lines 284-315. -/
def snek_map_init (s : snek) : snek :=
  { s with map := initial_map }

/-! ## The tick (lines 621-746) -/

/-- What the `switch (snek->direction)` of lines 644-672 does: leave the
function through one of its four `return false`, call `snek_entity_new` with
the moved head position, or (no case matches) fall through with
`new_snek_entity` never assigned. -/
inductive head_move where
  | unassigned
  | out_of_bounds
  | moved (row column : Int)
deriving DecidableEq, Repr

/-- Lines 644-672, up to the call of `snek_entity_new`. -/
def switch_direction (direction : Int) (head : snek_entity) : head_move :=
  if direction = UP then
    if head.row - 1 ≤ 1 then .out_of_bounds else .moved (head.row - 1) head.column
  else if direction = DOWN then
    if head.row + 1 ≥ MAP_ROWS - 1 then .out_of_bounds else .moved (head.row + 1) head.column
  else if direction = LEFT then
    if head.column - 1 < 1 then .out_of_bounds else .moved head.row (head.column - 1)
  else if direction = RIGHT then
    if head.column + 1 ≥ MAP_COLUMNS - 1 then .out_of_bounds
    else .moved head.row (head.column + 1)
  else .unassigned

/-- The `return` statement through which a call of `snek_update` ends. -/
inductive update_exit where
  | null_entity
  | out_of_bounds
  | head_alloc
  | append_alloc
  | self_collision
  | food_spawn
  | success
deriving DecidableEq, Repr

/-- The `bool` a call of `snek_update` returns: `true` only at line 745. -/
def update_exit.result : update_exit → Bool
  | .success => true
  | _ => false

/-- Lines 691-707: copy the nodes of the old chain (`temp` onwards) to the end
of `new_snek_entity`, stopping before the tail node unless food was consumed.
`none` is the `return false` of line 702. -/
def copy_nodes (food_consumed : Bool) :
    List snek_entity → List snek_entity → World → Option (List snek_entity) × World
  | [], new_snek_entity, w => (some new_snek_entity, w)
  | temp :: next, new_snek_entity, w =>
    if next = [] ∧ food_consumed = false then (some new_snek_entity, w)
    else
      match snek_entity_append new_snek_entity temp.row temp.column w with
      | (false, _, w1) => (none, w1)
      | (true, e, w1) => copy_nodes food_consumed next e w1

/-- Lines 716-722: some node other than the first holds the position of the
first node. -/
def head_hits_body (e : List snek_entity) : Bool :=
  match e with
  | [] => false
  | h :: rest => rest.any (fun temp => decide (temp.row = h.row ∧ temp.column = h.column))

/-- Lines 735-742: stamp the chain in green, then its head, then the food. -/
def stamp_entities (s : snek) : snek :=
  let m1 := s.head.foldl (fun m temp => set_tile m temp.row temp.column GREEN) s.map
  let m2 := match s.head with
    | [] => m1
    | h :: _ => set_tile m1 h.row h.column HEAD
  { s with map := set_tile m2 s.food_row s.food_column RED }

/-- Lines 735-742 again: the assignments `snek->map[i][j] = v` of the stamping
in the order in which they are executed, each as the triple (i, j, v). -/
def stamp_writes (s : snek) : List (Int × Int × Int) :=
  s.head.map (fun temp => (temp.row, temp.column, GREEN)) ++
    (match s.head with
      | [] => []
      | h :: _ => [(h.row, h.column, HEAD)]) ++
    [(s.food_row, s.food_column, RED)]

/-- Lines 713-745, entered with the new chain already stored in `snek->head`. -/
def update_tail (food_consumed : Bool) (s : snek) (w : World) :
    update_exit × snek × World :=
  if head_hits_body s.head then (.self_collision, s, w)
  else if food_consumed then
    match snek_food_entity_spawn s w with
    | (false, s1, w1) => (.food_spawn, s1, w1)
    | (true, s1, w1) => (.success, stamp_entities { s1 with score := s1.score + 1 }, w1)
  else (.success, stamp_entities s, w)

/-- Lines 624-746. -/
def snek_update (s : snek) (w : World) : Option (update_exit × snek × World) :=
  match s.head with
  | [] => some (.null_entity, s, w)
  | h :: _ =>
    let s0 := snek_map_init s
    match switch_direction s0.direction h with
    | .unassigned => none
    | .out_of_bounds => some (.out_of_bounds, s0, w)
    | .moved row column =>
      match snek_entity_new row column w with
      | ([], w1) => some (.head_alloc, s0, w1)
      | (new_snek_entity, w1) =>
        let food_consumed := decide (row = s0.food_row ∧ column = s0.food_column)
        match copy_nodes food_consumed s0.head new_snek_entity w1 with
        | (none, w2) => some (.append_alloc, s0, w2)
        | (some e, w2) => some (update_tail food_consumed { s0 with head := e } w2)

/-! ## Input (lines 748-810) -/

/-- Lines 750-810: the `switch` on `snek->event.key.keysym.sym`. -/
def snek_input (s : snek) : Bool × snek :=
  let sym := s.event.sym
  if sym = SDLK_w ∨ sym = SDLK_UP then
    (true, if s.direction ≠ DOWN ∨ s.status = START_MENU then { s with direction := UP } else s)
  else if sym = SDLK_s ∨ sym = SDLK_DOWN then
    (true, if s.direction ≠ UP ∨ s.status = START_MENU then { s with direction := DOWN } else s)
  else if sym = SDLK_d ∨ sym = SDLK_RIGHT then
    (true, if s.direction ≠ LEFT ∨ s.status = START_MENU then { s with direction := RIGHT }
      else s)
  else if sym = SDLK_a ∨ sym = SDLK_LEFT then
    (true, if s.direction ≠ RIGHT ∨ s.status = START_MENU then { s with direction := LEFT }
      else s)
  else (true, s)

/-! ## The loop (lines 812-950)

Each block below is one `if (snek->status == ...)` of `snek_loop`.  A block
returns whether it left `snek_loop` through `return` (a quit event), and the
struct and world it leaves behind.  The `while (SDL_PollEvent(...) != 0)` loops
all end in `break`: at most one event is taken per block. -/

/-- Lines 827-864. -/
def loop_start_menu (s : snek) (w : World) : Bool × snek × World :=
  match SDL_PollEvent s w with
  | (false, s1, w1) => (false, s1, w1)
  | (true, s1, w1) =>
    if s1.event.type = SDL_QUIT then (true, { s1 with status := QUIT_LOOP }, w1)
    else if s1.event.type = SDL_KEYDOWN then
      let s2 := (snek_input s1).2
      let s3 := { s2 with status := MID_GAME }
      if s3.event.sym = SDLK_e then
        (false, { s3 with difficulty := EASY, status := START_MENU }, w1)
      else if s3.event.sym = SDLK_r then
        (false, { s3 with difficulty := REGULAR, status := START_MENU }, w1)
      else if s3.event.sym = SDLK_q then
        (false, { s3 with difficulty := HARD, status := START_MENU }, w1)
      else (false, s3, w1)
    else (false, s1, w1)

/-- Lines 891-904: the timed call of `snek_update`.  The sum `snek->last_time +
snek->difficulty` of line 892 is taken in `int32_t`. -/
def tick_gate (s : snek) (w : World) : Option (snek × World) :=
  let (now, w1) := SDL_GetTicks w
  let s1 := { s with current_time := now }
  if s1.current_time > wrap_int32 (s1.last_time + s1.difficulty) then
    match snek_update s1 w1 with
    | none => none
    | some (e, s2, w2) =>
      let s3 := if e.result = false then { s2 with status := GAME_OVER } else s2
      some ({ s3 with last_time := s3.current_time }, w2)
  else some (s1, w1)

/-- Lines 867-905.  The `break` after `snek->status = PAUSE` leaves the polling
loop only: the timed update below it still runs. -/
def loop_mid_game (s : snek) (w : World) : Option (Bool × snek × World) :=
  match SDL_PollEvent s w with
  | (false, s1, w1) => (tick_gate s1 w1).map (fun r => (false, r))
  | (true, s1, w1) =>
    if s1.event.type = SDL_QUIT then some (true, { s1 with status := QUIT_LOOP }, w1)
    else if s1.event.type = SDL_KEYDOWN then
      if s1.event.sym = SDLK_p then
        (tick_gate { s1 with status := PAUSE } w1).map (fun r => (false, r))
      else (tick_gate (snek_input s1).2 w1).map (fun r => (false, r))
    else (tick_gate s1 w1).map (fun r => (false, r))

/-- Lines 908-930.  Neither the result of `snek_entity_new` nor that of
`snek_food_entity_spawn` is looked at. -/
def loop_game_over (s : snek) (w : World) : Bool × snek × World :=
  match SDL_PollEvent s w with
  | (false, s1, w1) => (false, s1, w1)
  | (true, s1, w1) =>
    if s1.event.type = SDL_QUIT then (true, { s1 with status := QUIT_LOOP }, w1)
    else if s1.event.type = SDL_KEYDOWN then
      let (n, w2) := snek_entity_new (MAP_ROWS / 2) (MAP_COLUMNS / 2) w1
      let s2 := { s1 with head := n }
      let (_, s3, w3) := snek_food_entity_spawn s2 w2
      let s4 := snek_map_init s3
      (false, { s4 with score := 1, status := START_MENU }, w3)
    else (false, s1, w1)

/-- Lines 932-948. -/
def loop_pause (s : snek) (w : World) : Bool × snek × World :=
  match SDL_PollEvent s w with
  | (false, s1, w1) => (false, s1, w1)
  | (true, s1, w1) =>
    if s1.event.type = SDL_QUIT then (true, { s1 with status := QUIT_LOOP }, w1)
    else if s1.event.type = SDL_KEYDOWN then
      if s1.event.sym = SDLK_p then (false, { s1 with status := MID_GAME }, w1)
      else (false, s1, w1)
    else (false, s1, w1)

/-- Lines 814-950: the four blocks in the order of the source, each tested
against the status the blocks before it left. -/
def snek_loop (s : snek) (w : World) : Option (snek × World) :=
  let r1 := if s.status = START_MENU then loop_start_menu s w else (false, s, w)
  if r1.1 then some r1.2
  else
    let r2 := if r1.2.1.status = MID_GAME then loop_mid_game r1.2.1 r1.2.2
      else some (false, r1.2)
    match r2 with
    | none => none
    | some (true, s2, w2) => some (s2, w2)
    | some (false, s2, w2) =>
      let r3 := if s2.status = GAME_OVER then loop_game_over s2 w2 else (false, s2, w2)
      if r3.1 then some r3.2
      else
        let r4 := if r3.2.1.status = PAUSE then loop_pause r3.2.1 r3.2.2 else (false, r3.2)
        some r4.2

/-! ## Start-up and main loop (lines 317-446, 952-972) -/

/-- The outcomes of the set-up calls of `snek_init` into SDL and SDL_ttf:
`SDL_Init`, `SDL_CreateWindow`, `SDL_CreateRenderer`, `TTF_Init`,
`TTF_OpenFont`; `true` is success. -/
structure SDL_setup where
  sdl : Bool
  window : Bool
  renderer : Bool
  ttf : Bool
  font : Bool
deriving DecidableEq, Repr

/-- Lines 319-446.  `fresh` is what the memory `malloc` returns for the struct
happens to hold: `snek_init` never writes `event` and `current_time`.  `none`
is `return false`, after which `main` returns without running the loop. -/
def snek_init (fresh : snek) (sdl : SDL_setup) (w : World) : Option snek × World :=
  match malloc w with
  | (false, w1) => (none, w1)
  | (true, w1) =>
    if sdl.sdl = false then (none, w1)
    else if sdl.window = false then (none, w1)
    else if sdl.renderer = false then (none, w1)
    else
      match snek_entity_new (MAP_ROWS / 2) (MAP_COLUMNS / 2) w1 with
      | ([], w2) => (none, w2)
      | (head, w2) =>
        let s1 := snek_map_init { fresh with head := head }
        match snek_food_entity_spawn s1 w2 with
        | (false, _, w3) => (none, w3)
        | (true, s2, w3) =>
          if sdl.ttf = false then (none, w3)
          else if sdl.font = false then (none, w3)
          else
            (some { s2 with direction := UP, status := START_MENU, last_time := 0,
                            score := 1, difficulty := REGULAR }, w3)

/-- Lines 966-968, `while (snek->status != QUIT_LOOP) snek_loop();`, run for as
many iterations as the list is long.  Events arrive and the clock moves on
between two iterations, so each iteration is given the world it meets. -/
def main_loop : List World → snek → Option snek
  | [], s => some s
  | w :: ws, s =>
    if s.status = QUIT_LOOP then some s
    else
      match snek_loop s w with
      | none => none
      | some (s1, _) => main_loop ws s1

/-! ## Vocabulary of the specification -/

/-- The spec's head delta (tick algorithm, step 1): "Up: row-1, Down: row+1,
Left: col-1, Right: col+1", applied to the old head. -/
def moved_head (direction : Int) (h : snek_entity) : snek_entity :=
  if direction = UP then ⟨h.row - 1, h.column⟩
  else if direction = DOWN then ⟨h.row + 1, h.column⟩
  else if direction = LEFT then ⟨h.row, h.column - 1⟩
  else if direction = RIGHT then ⟨h.row, h.column + 1⟩
  else h

/-- "Allocation succeeds": none of the next `n` calls of `malloc` returns
`NULL`. -/
def mallocs_succeed (n : Nat) (w : World) : Prop :=
  ∀ b ∈ w.mallocs.take n, b = true

instance (n : Nat) (w : World) : Decidable (mallocs_succeed n w) :=
  inferInstanceAs (Decidable (∀ b ∈ w.mallocs.take n, b = true))

/-- The direction a key asks for, in the words of the spec's input mapper: W or
Up asks for Up, S or Down for Down, A or Left for Left, D or Right for Right;
any other key asks for none. -/
def key_direction (sym : Int) : Option Int :=
  if sym = SDLK_w ∨ sym = SDLK_UP then some UP
  else if sym = SDLK_s ∨ sym = SDLK_DOWN then some DOWN
  else if sym = SDLK_a ∨ sym = SDLK_LEFT then some LEFT
  else if sym = SDLK_d ∨ sym = SDLK_RIGHT then some RIGHT
  else none

/-- "The exact opposite": Up against Down, Left against Right. -/
def opposite (a b : Int) : Prop :=
  (a = UP ∧ b = DOWN) ∨ (a = DOWN ∧ b = UP) ∨ (a = LEFT ∧ b = RIGHT) ∨
    (a = RIGHT ∧ b = LEFT)

instance (a b : Int) : Decidable (opposite a b) :=
  inferInstanceAs (Decidable ((a = UP ∧ b = DOWN) ∨ (a = DOWN ∧ b = UP) ∨
    (a = LEFT ∧ b = RIGHT) ∨ (a = RIGHT ∧ b = LEFT)))

/-- The spec's static wall layout: "rows 0,1 and last row entirely Wall; first
and last column Wall", Empty elsewhere. -/
def static_tile (i j : Int) : Int :=
  if i = 0 ∨ i = 1 ∨ i = MAP_ROWS - 1 ∨ j = 0 ∨ j = MAP_COLUMNS - 1 then GREY else BLACK

/-- The spec's tile map derivation (section 4.3) for one cell: the static
layout, then "Body for every chain node", then "Head for the chain's head
node", then "Food at the food position", each stamp over the ones before. -/
def derived_tile (chain : List snek_entity) (food_row food_column : Int) (i j : Int) : Int :=
  if food_row = i ∧ food_column = j then RED
  else if chain.head? = some ⟨i, j⟩ then HEAD
  else if (⟨i, j⟩ : snek_entity) ∈ chain then GREEN
  else static_tile i j

/-- The spec's playable region: "row in [2, ROWS-2] and column in [1,
COLUMNS-2]". -/
def interior (row column : Int) : Prop :=
  2 ≤ row ∧ row ≤ MAP_ROWS - 2 ∧ 1 ≤ column ∧ column ≤ MAP_COLUMNS - 2

instance (row column : Int) : Decidable (interior row column) := by
  unfold interior
  infer_instance

/-- The spec's bounds of the tile map: "0 <= row < ROWS, 0 <= column <
COLUMNS". -/
def in_bounds (row column : Int) : Prop :=
  0 ≤ row ∧ row < MAP_ROWS ∧ 0 ≤ column ∧ column < MAP_COLUMNS

instance (row column : Int) : Decidable (in_bounds row column) := by
  unfold in_bounds
  infer_instance

/-- Every node of the chain and the food position lie in the playable
region. -/
def grid_safe (s : snek) : Prop :=
  (∀ p ∈ s.head, interior p.row p.column) ∧ interior s.food_row s.food_column

/-- "Reached through successful ticks": the struct after the ticks of the
list, run one after the other, each with the direction the input left and in
the world it meets; `none` as soon as one of them does not return success. -/
def successful_ticks : List (Int × World) → snek → Option snek
  | [], s => some s
  | (d, w) :: l, s =>
    match snek_update { s with direction := d } w with
    | some (.success, s1, _) => successful_ticks l s1
    | _ => none

/-- The clock reading that the `i`-th call of `SDL_GetTicks()` from now (counted
from 0) returns, as stored in an `int32_t`. -/
def clock_reading (w : World) (i : Nat) : Int :=
  wrap_int32 (w.ticks.getD i 0)

/-! ## Concrete states -/

/-- A struct in the middle of a game: the given chain, direction and food
position, the map as `snek_map_init` leaves it, and the score, timer and
difficulty `snek_init` sets. -/
def example_state (head : List snek_entity) (direction food_row food_column : Int) : snek :=
  { event := ⟨0, 0⟩, head := head, direction := direction, score := 1,
    food_row := food_row, food_column := food_column, map := initial_map,
    status := MID_GAME, current_time := 0, last_time := 0, difficulty := REGULAR }

/-- A world in which every `malloc` succeeds and no event is pending. -/
def quiet_world : World := ⟨[], [], [], []⟩

/-- Scenario 2 of the spec before the tick: the head at (15,26) heads Right
towards the food at (15,27). -/
def scenario2 : snek := example_state [⟨15, 26⟩] RIGHT 15 27

/-- Scenario 2 after the tick, when `rand()` answered 3 and 4: the chain has
grown, the food is at (5,5), the score is 2, and the map is stamped. -/
def scenario2_after : snek :=
  stamp_entities { example_state [⟨15, 27⟩, ⟨15, 26⟩] RIGHT 5 5 with score := 2 }

/-- Scenario 2 after the tick, when `rand()` answered 13, 26, 13, 26: both
samples of the food placement are the new head (15,27). -/
def scenario2_food_on_head : snek :=
  stamp_entities { example_state [⟨15, 27⟩, ⟨15, 26⟩] RIGHT 15 27 with score := 2 }

/-- A straight chain of three nodes in the middle of a game, its head at
(10,12), the last move made to the Right. -/
def reversal_start : snek := example_state [⟨10, 12⟩, ⟨10, 11⟩, ⟨10, 10⟩] RIGHT 5 5

/-! ## Lemmas on the building blocks -/

/-- A value inside the range of `int32_t` is stored as it is. -/
theorem wrap_int32_of_range (x : Int) (h : -2147483648 ≤ x ∧ x ≤ 2147483647) :
    wrap_int32 x = x := by
  unfold wrap_int32
  omega

theorem wrap_int32_range (x : Int) :
    -2147483648 ≤ wrap_int32 x ∧ wrap_int32 x ≤ 2147483647 := by
  unfold wrap_int32
  omega

/-- With last_time + difficulty within the range of `int32_t`, the test of
line 892 is the comparison of the clock reading with the sum itself. -/
theorem gate_test_of_range (now : Int) (s : snek)
    (h : -2147483648 ≤ s.last_time + s.difficulty ∧ s.last_time + s.difficulty ≤ 2147483647) :
    now > wrap_int32 (s.last_time + s.difficulty) ↔ now - s.last_time > s.difficulty := by
  rw [wrap_int32_of_range _ h]
  constructor <;> intro hg <;> omega

/-- A clock reading above last_time + difficulty opens the gate of line 892,
unless the sum is below the range of `int32_t`. -/
theorem gate_opens_of_difference (s : snek) (w : World)
    (h : -2147483648 ≤ s.last_time + s.difficulty)
    (hg : (SDL_GetTicks w).1 > s.last_time + s.difficulty) :
    (SDL_GetTicks w).1 > wrap_int32 (s.last_time + s.difficulty) := by
  have hr := (wrap_int32_range (w.ticks.headD 0)).2
  have hn : (SDL_GetTicks w).1 = wrap_int32 (w.ticks.headD 0) := rfl
  rw [wrap_int32_of_range _ ⟨h, by omega⟩]
  exact hg

/-- A clock reading, as stored, lies in the range of `int32_t`. -/
theorem ticks_range (w : World) :
    -2147483648 ≤ (SDL_GetTicks w).1 ∧ (SDL_GetTicks w).1 ≤ 2147483647 :=
  wrap_int32_range _

theorem map_init_head (s : snek) : (snek_map_init s).head = s.head := by cases s; rfl
theorem map_init_direction (s : snek) : (snek_map_init s).direction = s.direction := by cases s; rfl
theorem map_init_score (s : snek) : (snek_map_init s).score = s.score := by cases s; rfl
theorem map_init_food_row (s : snek) : (snek_map_init s).food_row = s.food_row := by cases s; rfl
theorem map_init_food_column (s : snek) : (snek_map_init s).food_column = s.food_column := by cases s; rfl
theorem map_init_status (s : snek) : (snek_map_init s).status = s.status := by cases s; rfl

theorem mallocs_succeed_zero (w : World) : mallocs_succeed 0 w := by
  simp [mallocs_succeed]

theorem malloc_of_succeed {n : Nat} {w : World} (h : mallocs_succeed (n + 1) w) :
    (malloc w).1 = true ∧ mallocs_succeed n (malloc w).2 := by
  unfold mallocs_succeed at *
  unfold malloc
  cases hm : w.mallocs with
  | nil => simp
  | cons b l =>
    rw [hm] at h
    simp only [List.take_succ_cons, List.mem_cons, forall_eq_or_imp] at h
    simpa using h

theorem entity_new_of_succeed {n : Nat} {w : World} (row column : Int)
    (h : mallocs_succeed (n + 1) w) :
    snek_entity_new row column w = ([⟨row, column⟩], (malloc w).2) ∧
      mallocs_succeed n (malloc w).2 := by
  obtain ⟨h1, h2⟩ := malloc_of_succeed h
  refine ⟨?_, h2⟩
  unfold snek_entity_new
  rcases hm : malloc w with ⟨b, w1⟩
  rw [hm] at h1
  simp at h1
  subst h1
  rfl

theorem mallocs_succeed_mono {m n : Nat} {w : World} (hmn : m ≤ n)
    (h : mallocs_succeed n w) : mallocs_succeed m w := by
  intro b hb
  apply h b
  have : (w.mallocs.take m) = (w.mallocs.take n).take m := by
    rw [List.take_take]; simp [hmn]
  rw [this] at hb
  exact List.mem_of_mem_take hb

theorem copy_nodes_some (fc : Bool) :
    ∀ (old acc : List snek_entity) (w : World) (e : List snek_entity) (w' : World),
      copy_nodes fc old acc w = (some e, w') →
      e = acc ++ (if fc = true then old else old.dropLast) := by
  intro old
  induction old with
  | nil =>
    intro acc w e w' h
    simp [copy_nodes] at h
    simp [h.1]
  | cons t next ih =>
    intro acc w e w' h
    unfold copy_nodes at h
    split at h
    · rename_i hc
      obtain ⟨h1, h2⟩ := hc
      simp at h
      subst h1
      simp [h2, h.1]
    · rename_i hc
      cases acc with
      | nil => simp [snek_entity_append] at h
      | cons a as =>
        unfold snek_entity_append snek_entity_new at h
        rcases hm : malloc w with ⟨b, w1⟩
        rw [hm] at h
        cases b with
        | false => simp at h
        | true =>
          simp at h
          have := ih _ _ _ _ h
          rw [this]
          cases fc with
          | true => simp
          | false =>
            have hne : next ≠ [] := by
              intro hn; exact hc ⟨hn, rfl⟩
            simp [List.dropLast_cons_of_ne_nil hne]

theorem copy_nodes_ok (fc : Bool) :
    ∀ (old acc : List snek_entity) (w : World), acc ≠ [] →
      mallocs_succeed (if fc = true then old.length else old.length - 1) w →
      ∃ w', copy_nodes fc old acc w =
        (some (acc ++ (if fc = true then old else old.dropLast)), w') := by
  intro old
  induction old with
  | nil =>
    intro acc w _ _
    exact ⟨w, by simp [copy_nodes]⟩
  | cons t next ih =>
    intro acc w hacc hm
    unfold copy_nodes
    split
    · rename_i hc
      obtain ⟨h1, h2⟩ := hc
      subst h1
      exact ⟨w, by simp [h2]⟩
    · rename_i hc
      have hm1 : mallocs_succeed
          ((if fc = true then next.length else next.length - 1) + 1) w := by
        cases fc with
        | true => simpa using hm
        | false =>
          have hne : next ≠ [] := by
            intro hn; exact hc ⟨hn, rfl⟩
          have hpos : 0 < next.length := List.length_pos.mpr hne
          have e : next.length - 1 + 1 = (t :: next).length - 1 := by
            simp only [List.length_cons]; omega
          simpa [e] using hm
      obtain ⟨hn, hm'⟩ := entity_new_of_succeed t.row t.column hm1
      cases acc with
      | nil => exact absurd rfl hacc
      | cons a as =>
        simp only [snek_entity_append, hn]
        obtain ⟨w', hw'⟩ := ih (a :: as ++ [⟨t.row, t.column⟩]) (malloc w).2 (by simp) hm'
        refine ⟨w', ?_⟩
        rw [hw']
        cases fc with
        | true => simp
        | false =>
          have hne : next ≠ [] := by
            intro hn; exact hc ⟨hn, rfl⟩
          simp [List.dropLast_cons_of_ne_nil hne]

theorem spawn_pass_fields (temp : List snek_entity) (t : Int) (s : snek) (w : World) :
    (spawn_pass temp t s w).2.2.1.head = s.head ∧
    (spawn_pass temp t s w).2.2.1.score = s.score ∧
    (spawn_pass temp t s w).2.2.1.direction = s.direction ∧
    (spawn_pass temp t s w).2.2.1.status = s.status ∧
    (spawn_pass temp t s w).2.2.1.map = s.map ∧
    (spawn_pass temp t s w).2.2.1.difficulty = s.difficulty ∧
    (spawn_pass temp t s w).2.2.1.last_time = s.last_time ∧
    (spawn_pass temp t s w).2.2.1.current_time = s.current_time ∧
    (spawn_pass temp t s w).2.2.1.event = s.event := by
  simp [spawn_pass]

theorem food_spawn_fields (s : snek) (w : World) :
    (snek_food_entity_spawn s w).2.1.head = s.head ∧
    (snek_food_entity_spawn s w).2.1.score = s.score ∧
    (snek_food_entity_spawn s w).2.1.direction = s.direction ∧
    (snek_food_entity_spawn s w).2.1.status = s.status ∧
    (snek_food_entity_spawn s w).2.1.map = s.map ∧
    (snek_food_entity_spawn s w).2.1.difficulty = s.difficulty ∧
    (snek_food_entity_spawn s w).2.1.last_time = s.last_time ∧
    (snek_food_entity_spawn s w).2.1.current_time = s.current_time ∧
    (snek_food_entity_spawn s w).2.1.event = s.event := by
  unfold snek_food_entity_spawn
  simp only []
  have h1 := spawn_pass_fields s.head (SDL_GetTicks w).1 s (SDL_GetTicks w).2
  rcases hp : spawn_pass s.head (SDL_GetTicks w).1 s (SDL_GetTicks w).2 with ⟨b1, b2, s1, w1⟩
  rw [hp] at h1
  simp only [] at h1
  have h2 := spawn_pass_fields [] (SDL_GetTicks w).1 s1 w1
  rcases hq : spawn_pass [] (SDL_GetTicks w).1 s1 w1 with ⟨c1, c2, s2, w2⟩
  rw [hq] at h2
  simp only [] at h2
  cases b1 <;> cases b2 <;> cases c1 <;> simp [hq] <;> simp_all

theorem stamp_fields (s : snek) :
    (stamp_entities s).head = s.head ∧ (stamp_entities s).score = s.score ∧
    (stamp_entities s).direction = s.direction ∧ (stamp_entities s).status = s.status ∧
    (stamp_entities s).food_row = s.food_row ∧
    (stamp_entities s).food_column = s.food_column ∧
    (stamp_entities s).difficulty = s.difficulty ∧
    (stamp_entities s).last_time = s.last_time ∧
    (stamp_entities s).current_time = s.current_time ∧
    (stamp_entities s).event = s.event := by
  simp [stamp_entities]

theorem update_tail_fields (fc : Bool) (s : snek) (w : World) :
    (update_tail fc s w).2.1.head = s.head ∧
    (update_tail fc s w).2.1.direction = s.direction ∧
    (update_tail fc s w).2.1.status = s.status ∧
    (update_tail fc s w).2.1.difficulty = s.difficulty ∧
    (update_tail fc s w).2.1.last_time = s.last_time ∧
    (update_tail fc s w).2.1.current_time = s.current_time ∧
    (update_tail fc s w).2.1.event = s.event := by
  unfold update_tail
  have hf := food_spawn_fields s w
  rcases hs : snek_food_entity_spawn s w with ⟨b, s1, w1⟩
  rw [hs] at hf
  simp only [] at hf
  split
  · simp
  · split
    · cases b <;> simp [stamp_fields, hf]
    · simp [stamp_fields]

theorem update_tail_collision (fc : Bool) (s : snek) (w : World) :
    (update_tail fc s w).1 = update_exit.self_collision ↔ head_hits_body s.head = true := by
  unfold update_tail
  rcases hs : snek_food_entity_spawn s w with ⟨b, s1, w1⟩
  split
  · simp [*]
  · split
    · cases b <;> simp [*]
    · simp [*]

theorem head_hits_body_iff (p : snek_entity) (l : List snek_entity) :
    head_hits_body (p :: l) = true ↔ p ∈ l := by
  simp only [head_hits_body, List.any_eq_true, decide_eq_true_eq]
  constructor
  · rintro ⟨t, ht, h1, h2⟩
    have : t = p := by
      cases t; cases p; simp_all
    exact this ▸ ht
  · intro h
    exact ⟨p, h, rfl, rfl⟩

theorem update_null (s : snek) (w : World) (h : s.head = []) :
    snek_update s w = some (.null_entity, s, w) := by
  simp [snek_update, h]

theorem update_out_of_bounds (s : snek) (w : World) (h : snek_entity)
    (rest : List snek_entity) (hs : s.head = h :: rest)
    (hb : switch_direction s.direction h = .out_of_bounds) :
    snek_update s w = some (.out_of_bounds, snek_map_init s, w) := by
  simp [snek_update, hs, map_init_direction, hb]

theorem update_unassigned (s : snek) (w : World) (h : snek_entity)
    (rest : List snek_entity) (hs : s.head = h :: rest)
    (hb : switch_direction s.direction h = .unassigned) :
    snek_update s w = none := by
  simp [snek_update, hs, map_init_direction, hb]

/-- The chain that lines 691-707 build behind the new head, when the calls of
`malloc` the tick makes succeed: one for the new head and one for each copied
node. -/
theorem update_commit_exact (s : snek) (w : World) (h : snek_entity)
    (rest : List snek_entity) (r c : Int) (hs : s.head = h :: rest)
    (hb : switch_direction s.direction h = .moved r c)
    (ha : mallocs_succeed
      (if r = s.food_row ∧ c = s.food_column then s.head.length + 1 else s.head.length) w) :
    ∃ w2, snek_update s w = some (update_tail (decide (r = s.food_row ∧ c = s.food_column))
      { snek_map_init s with head := ⟨r, c⟩ ::
          (if r = s.food_row ∧ c = s.food_column then h :: rest else (h :: rest).dropLast) }
      w2) := by
  have ha1 : mallocs_succeed
      ((if decide (r = s.food_row ∧ c = s.food_column) = true then s.head.length
        else s.head.length - 1) + 1) w := by
    by_cases hf : r = s.food_row ∧ c = s.food_column
    · simpa [hf] using ha
    · have e : s.head.length - 1 + 1 = s.head.length := by
        rw [hs]; simp
      simpa [hf, e] using ha
  obtain ⟨hn, hm⟩ := entity_new_of_succeed r c ha1
  obtain ⟨w2, hw2⟩ := copy_nodes_ok (decide (r = s.food_row ∧ c = s.food_column))
    s.head [⟨r, c⟩] (malloc w).2 (by simp) hm
  refine ⟨w2, ?_⟩
  simp only [snek_update, hs, map_init_direction, hb, hn, map_init_head,
    map_init_food_row, map_init_food_column]
  rw [hs] at hw2
  rw [hw2]
  simp

theorem update_commit (s : snek) (w : World) (h : snek_entity)
    (rest : List snek_entity) (r c : Int) (hs : s.head = h :: rest)
    (hb : switch_direction s.direction h = .moved r c)
    (ha : mallocs_succeed (s.head.length + 1) w) :
    ∃ w2, snek_update s w = some (update_tail (decide (r = s.food_row ∧ c = s.food_column))
      { snek_map_init s with head := ⟨r, c⟩ ::
          (if r = s.food_row ∧ c = s.food_column then h :: rest else (h :: rest).dropLast) }
      w2) := by
  apply update_commit_exact s w h rest r c hs hb
  apply mallocs_succeed_mono _ ha
  split <;> omega

theorem update_inv (s s' : snek) (w w' : World) (e : update_exit)
    (hu : snek_update s w = some (e, s', w')) :
    (s.head = [] ∧ e = .null_entity ∧ s' = s ∧ w' = w) ∨
    ∃ h rest, s.head = h :: rest ∧
      ((switch_direction s.direction h = .out_of_bounds ∧ e = .out_of_bounds ∧
          s' = snek_map_init s ∧ w' = w) ∨
       ∃ r c, switch_direction s.direction h = .moved r c ∧
        (((e = .head_alloc ∨ e = .append_alloc) ∧ s' = snek_map_init s) ∨
         ∃ w2, (e, s', w') = update_tail (decide (r = s.food_row ∧ c = s.food_column))
          { snek_map_init s with head := ⟨r, c⟩ ::
            (if r = s.food_row ∧ c = s.food_column then h :: rest else (h :: rest).dropLast) }
          w2)) := by
  cases hs : s.head with
  | nil =>
    left
    rw [update_null s w hs] at hu
    simp at hu
    simp [hu]
  | cons h rest =>
    right
    refine ⟨h, rest, rfl, ?_⟩
    cases hb : switch_direction s.direction h with
    | unassigned => rw [update_unassigned s w h rest hs hb] at hu; simp at hu
    | out_of_bounds =>
      left
      rw [update_out_of_bounds s w h rest hs hb] at hu
      simp at hu
      simp [hu]
    | moved r c =>
      right
      refine ⟨r, c, rfl, ?_⟩
      simp only [snek_update, hs, map_init_direction, hb, map_init_head,
        map_init_food_row, map_init_food_column] at hu
      unfold snek_entity_new at hu
      rcases hm : malloc w with ⟨b, w1⟩
      rw [hm] at hu
      cases b with
      | false =>
        left
        simp at hu
        simp [hu]
      | true =>
        simp only [] at hu
        rcases hc : copy_nodes (decide (r = s.food_row ∧ c = s.food_column)) (h :: rest)
          [⟨r, c⟩] w1 with ⟨o, w2⟩
        rw [hc] at hu
        cases o with
        | none =>
          left
          simp at hu
          simp [hu]
        | some e1 =>
          right
          have he := copy_nodes_some _ _ _ _ _ _ hc
          simp only [Option.some.injEq] at hu
          refine ⟨w2, ?_⟩
          rw [← hu, he]
          simp [map_init_direction, map_init_food_row, map_init_food_column]

theorem moved_head_of_switch {d : Int} {h : snek_entity} {r c : Int}
    (hb : switch_direction d h = .moved r c) :
    (d = UP ∨ d = DOWN ∨ d = LEFT ∨ d = RIGHT) ∧ moved_head d h = ⟨r, c⟩ := by
  unfold switch_direction at hb
  unfold moved_head
  split_ifs at hb <;> simp_all

theorem switch_of_valid {d : Int} {h : snek_entity}
    (hd : d = UP ∨ d = DOWN ∨ d = LEFT ∨ d = RIGHT)
    (hb : switch_direction d h ≠ .out_of_bounds) :
    switch_direction d h = .moved (moved_head d h).row (moved_head d h).column := by
  unfold switch_direction at hb ⊢
  unfold moved_head
  rcases hd with hd | hd | hd | hd <;> subst hd <;> simp at hb ⊢ <;> assumption

theorem update_tail_exit (fc : Bool) (s : snek) (w : World) :
    (update_tail fc s w).1 = .self_collision ∨ (update_tail fc s w).1 = .food_spawn ∨
      (update_tail fc s w).1 = .success := by
  unfold update_tail
  rcases hs : snek_food_entity_spawn s w with ⟨b, s1, w1⟩
  split
  · simp
  · split
    · cases b <;> simp
    · simp

theorem update_tail_eta (fc : Bool) (st : snek) (w2 : World) :
    update_tail fc st w2 =
      ((update_tail fc st w2).1, (update_tail fc st w2).2.1, (update_tail fc st w2).2.2) := rfl

/-- C1: for every non-empty chain, direction and food position such that the
tick passes the boundary check and allocation succeeds, the chain stored in
the game state after `snek_update` is the moved head followed by all old
positions when the moved head is on the food, and by all old positions but
the last one otherwise. -/
theorem C1_committed_chain (s : snek) (w : World) (h : snek_entity)
    (rest : List snek_entity) (hs : s.head = h :: rest)
    (hd : s.direction = UP ∨ s.direction = DOWN ∨ s.direction = LEFT ∨ s.direction = RIGHT)
    (hb : switch_direction s.direction h ≠ .out_of_bounds)
    (ha : mallocs_succeed (s.head.length + 1) w) :
    ∃ e s' w', snek_update s w = some (e, s', w') ∧
      s'.head = moved_head s.direction h ::
        (if moved_head s.direction h = ⟨s.food_row, s.food_column⟩ then h :: rest
         else (h :: rest).dropLast) := by
  have hsw := switch_of_valid hd hb
  obtain ⟨w2, hw2⟩ := update_commit s w h rest _ _ hs hsw ha
  rw [update_tail_eta] at hw2
  refine ⟨_, _, _, hw2, ?_⟩
  rw [(update_tail_fields _ _ w2).1]
  cases hp : moved_head s.direction h
  simp

theorem C1_committed_chain_witness :
    (example_state [⟨15, 26⟩, ⟨15, 25⟩] RIGHT 15 27).head = ⟨15, 26⟩ :: [⟨15, 25⟩] ∧
    switch_direction RIGHT ⟨15, 26⟩ ≠ .out_of_bounds ∧
    mallocs_succeed 3 quiet_world ∧
    (∃ e s' w', snek_update (example_state [⟨15, 26⟩, ⟨15, 25⟩] RIGHT 15 27) quiet_world =
        some (e, s', w') ∧ s'.head = [⟨15, 27⟩, ⟨15, 26⟩, ⟨15, 25⟩]) ∧
    (∃ e s' w', snek_update (example_state [⟨15, 26⟩, ⟨15, 25⟩] RIGHT 5 5) quiet_world =
        some (e, s', w') ∧ s'.head = [⟨15, 27⟩, ⟨15, 26⟩]) :=
  ⟨rfl, by decide, by decide,
    C1_committed_chain (example_state [⟨15, 26⟩, ⟨15, 25⟩] RIGHT 15 27) quiet_world
      ⟨15, 26⟩ [⟨15, 25⟩] rfl (by decide) (by decide) (by decide),
    C1_committed_chain (example_state [⟨15, 26⟩, ⟨15, 25⟩] RIGHT 5 5) quiet_world
      ⟨15, 26⟩ [⟨15, 25⟩] rfl (by decide) (by decide) (by decide)⟩

/-- C2, as stated, fails: with the food right of the head the tick passes the
boundary check and `grew` holds, but the first `malloc` returns `NULL`, the
tick ends at line 677 and the chain keeps its length 1. -/
theorem C2_counterexample :
    switch_direction RIGHT ⟨15, 26⟩ = .moved 15 27 ∧
    moved_head RIGHT ⟨15, 26⟩ = ⟨15, 27⟩ ∧
    snek_update (example_state [⟨15, 26⟩] RIGHT 15 27) ⟨[false], [], [], []⟩ =
      some (.head_alloc, example_state [⟨15, 26⟩] RIGHT 15 27, quiet_world) ∧
    (example_state [⟨15, 26⟩] RIGHT 15 27).head.length ≠
      [(⟨15, 26⟩ : snek_entity)].length + 1 := by
  refine ⟨by decide, by decide, ?_, by decide⟩
  rfl

/-- C2, amended: for every tick that passes the boundary check and in which
allocation succeeds, the chain after the tick is one longer than the old chain
when the moved head is on the food, and as long as the old chain otherwise. -/
theorem C2_growth (s : snek) (w : World) (h : snek_entity)
    (rest : List snek_entity) (hs : s.head = h :: rest)
    (hd : s.direction = UP ∨ s.direction = DOWN ∨ s.direction = LEFT ∨ s.direction = RIGHT)
    (hb : switch_direction s.direction h ≠ .out_of_bounds)
    (ha : mallocs_succeed (s.head.length + 1) w) :
    ∃ e s' w', snek_update s w = some (e, s', w') ∧
      s'.head.length =
        (if moved_head s.direction h = ⟨s.food_row, s.food_column⟩ then s.head.length + 1
         else s.head.length) := by
  have hsw := switch_of_valid hd hb
  obtain ⟨w2, hw2⟩ := update_commit s w h rest _ _ hs hsw ha
  rw [update_tail_eta] at hw2
  refine ⟨_, _, _, hw2, ?_⟩
  rw [(update_tail_fields _ _ w2).1, hs]
  cases hp : moved_head s.direction h
  simp only [snek_entity.mk.injEq]
  split <;> simp

theorem C2_growth_witness :
    (example_state [⟨15, 26⟩, ⟨15, 25⟩] RIGHT 15 27).head = ⟨15, 26⟩ :: [⟨15, 25⟩] ∧
    switch_direction RIGHT ⟨15, 26⟩ ≠ .out_of_bounds ∧
    mallocs_succeed 3 quiet_world ∧
    (∃ e s' w', snek_update (example_state [⟨15, 26⟩, ⟨15, 25⟩] RIGHT 15 27) quiet_world =
        some (e, s', w') ∧ s'.head.length = 3) ∧
    (∃ e s' w', snek_update (example_state [⟨15, 26⟩, ⟨15, 25⟩] RIGHT 5 5) quiet_world =
        some (e, s', w') ∧ s'.head.length = 2) :=
  ⟨rfl, by decide, by decide,
    C2_growth (example_state [⟨15, 26⟩, ⟨15, 25⟩] RIGHT 15 27) quiet_world
      ⟨15, 26⟩ [⟨15, 25⟩] rfl (by decide) (by decide) (by decide),
    C2_growth (example_state [⟨15, 26⟩, ⟨15, 25⟩] RIGHT 5 5) quiet_world
      ⟨15, 26⟩ [⟨15, 25⟩] rfl (by decide) (by decide) (by decide)⟩

theorem update_success_inv (s s' : snek) (w w' : World)
    (hu : snek_update s w = some (.success, s', w')) :
    ∃ h rest r c w2, s.head = h :: rest ∧ switch_direction s.direction h = .moved r c ∧
      (update_exit.success, s', w') =
        update_tail (decide (r = s.food_row ∧ c = s.food_column))
          { snek_map_init s with head := ⟨r, c⟩ ::
            (if r = s.food_row ∧ c = s.food_column then h :: rest else (h :: rest).dropLast) }
          w2 := by
  rcases update_inv s s' w w' _ hu with ⟨_, h2, _⟩ | ⟨h, rest, hs, hc⟩
  · simp at h2
  · rcases hc with ⟨_, h2, _⟩ | ⟨r, c, hsw, hc⟩
    · simp at h2
    · rcases hc with ⟨h2, _⟩ | ⟨w2, hw2⟩
      · simp at h2
      · exact ⟨h, rest, r, c, w2, hs, hsw, hw2⟩

theorem update_tail_no_food (s : snek) (w : World) (hh : head_hits_body s.head = false) :
    update_tail false s w = (.success, stamp_entities s, w) := by
  simp [update_tail, hh]

/-- C3: when `snek_update` returns success the head of the new chain is the
old head moved by the direction delta (Up: row-1, Down: row+1, Left: column-1,
Right: column+1).  Scenario 1: chain [(15,26)], direction Right and food
anywhere but (15,27) give chain [(15,27)] and the score is unchanged. -/
theorem C3_movement (s s' : snek) (w w' : World)
    (hu : snek_update s w = some (.success, s', w')) :
    (∃ h rest, s.head = h :: rest ∧ s'.head.head? = some (moved_head s.direction h) ∧
      (s.direction = UP ∨ s.direction = DOWN ∨ s.direction = LEFT ∨ s.direction = RIGHT)) ∧
    (∀ (t : snek) (v : World), t.head = [⟨15, 26⟩] → t.direction = RIGHT →
      ¬ (t.food_row = 15 ∧ t.food_column = 27) → mallocs_succeed 1 v →
      ∃ t' v', snek_update t v = some (.success, t', v') ∧ t'.head = [⟨15, 27⟩] ∧
        t'.score = t.score) := by
  constructor
  · obtain ⟨h, rest, r, c, w2, hs, hsw, ht⟩ := update_success_inv s s' w w' hu
    obtain ⟨hd, hm⟩ := moved_head_of_switch hsw
    have hh := (update_tail_fields (decide (r = s.food_row ∧ c = s.food_column))
      { snek_map_init s with head := ⟨r, c⟩ ::
        (if r = s.food_row ∧ c = s.food_column then h :: rest else (h :: rest).dropLast) }
      w2).1
    rw [← ht] at hh
    simp only [] at hh
    have hhead : s'.head.head? = some (moved_head s.direction h) := by
      rw [hh, hm]; rfl
    exact ⟨h, rest, hs, hhead, hd⟩
  · intro t v ht hdir hfood ha
    have hsw : switch_direction t.direction ⟨15, 26⟩ = .moved 15 27 := by
      rw [hdir]; decide
    obtain ⟨hn, -⟩ := entity_new_of_succeed (n := 0) 15 27 ha
    have hfc : decide ((15 : Int) = t.food_row ∧ (27 : Int) = t.food_column) = false := by
      simp only [decide_eq_false_iff_not]
      intro hc
      exact hfood ⟨hc.1.symm, hc.2.symm⟩
    refine ⟨stamp_entities { snek_map_init t with head := [⟨15, 27⟩] }, (malloc v).2, ?_,
      (stamp_fields _).1, ?_⟩
    swap
    · rw [(stamp_fields _).2.1]
      exact map_init_score t
    simp only [snek_update, ht, map_init_direction, hsw, hn, map_init_head,
      map_init_food_row, map_init_food_column, hfc, copy_nodes]
    simp [update_tail_no_food, head_hits_body]


/-- Scenario 1 of the spec is a tick that returns success, and its new head is
the old head moved one column to the right. -/
theorem C3_movement_witness :
    snek_update (example_state [⟨15, 26⟩] RIGHT 5 5) quiet_world =
      some (.success, stamp_entities (example_state [⟨15, 27⟩] RIGHT 5 5), quiet_world) ∧
    ∃ h rest, (example_state [⟨15, 26⟩] RIGHT 5 5).head = h :: rest ∧
      (stamp_entities (example_state [⟨15, 27⟩] RIGHT 5 5)).head.head? =
        some (moved_head (example_state [⟨15, 26⟩] RIGHT 5 5).direction h) ∧
      ((example_state [⟨15, 26⟩] RIGHT 5 5).direction = UP ∨
        (example_state [⟨15, 26⟩] RIGHT 5 5).direction = DOWN ∨
        (example_state [⟨15, 26⟩] RIGHT 5 5).direction = LEFT ∨
        (example_state [⟨15, 26⟩] RIGHT 5 5).direction = RIGHT) :=
  ⟨rfl, (C3_movement (example_state [⟨15, 26⟩] RIGHT 5 5)
    (stamp_entities (example_state [⟨15, 27⟩] RIGHT 5 5)) quiet_world quiet_world rfl).1⟩

theorem update_defined (s : snek) (w : World) (h : snek_entity) (rest : List snek_entity)
    (hs : s.head = h :: rest) (hb : switch_direction s.direction h ≠ .unassigned) :
    ∃ e s' w', snek_update s w = some (e, s', w') := by
  cases hsw : switch_direction s.direction h with
  | unassigned => exact absurd hsw hb
  | out_of_bounds => exact ⟨_, _, _, update_out_of_bounds s w h rest hs hsw⟩
  | moved r c =>
    simp only [snek_update, hs, map_init_direction, hsw]
    rcases hn : snek_entity_new r c w with ⟨n, w1⟩
    cases n with
    | nil => exact ⟨_, _, _, rfl⟩
    | cons a as =>
      simp only []
      rcases hc : copy_nodes (decide (r = (snek_map_init s).food_row ∧
        c = (snek_map_init s).food_column)) (snek_map_init s).head (a :: as) w1 with ⟨o, w2⟩
      cases o with
      | none => exact ⟨_, _, _, rfl⟩
      | some e1 =>
        simp only []
        rw [update_tail_eta]
        exact ⟨_, _, _, rfl⟩

theorem switch_not_unassigned {d : Int} (h : snek_entity)
    (hd : d = UP ∨ d = DOWN ∨ d = LEFT ∨ d = RIGHT) :
    switch_direction d h ≠ .unassigned := by
  unfold switch_direction
  rcases hd with hd | hd | hd | hd <;> subst hd <;> simp <;> split_ifs <;> simp

theorem update_out_of_bounds_iff (s : snek) (w : World) (h : snek_entity)
    (rest : List snek_entity) (hs : s.head = h :: rest) :
    (∃ s' w', snek_update s w = some (.out_of_bounds, s', w')) ↔
      switch_direction s.direction h = .out_of_bounds := by
  constructor
  · rintro ⟨s', w', hu⟩
    rcases update_inv s s' w w' _ hu with ⟨h1, _⟩ | ⟨h', rest', hs', hc⟩
    · rw [hs] at h1; simp at h1
    · rw [hs] at hs'
      simp only [List.cons.injEq] at hs'
      obtain ⟨rfl, rfl⟩ := hs'
      rcases hc with ⟨h2, _⟩ | ⟨r, c, _, hc⟩
      · exact h2
      · rcases hc with ⟨h2, _⟩ | ⟨w2, hw2⟩
        · simp at h2
        · have := update_tail_exit (decide (r = s.food_row ∧ c = s.food_column))
            { snek_map_init s with head := ⟨r, c⟩ ::
              (if r = s.food_row ∧ c = s.food_column then h :: rest
               else (h :: rest).dropLast) } w2
          rw [← hw2] at this
          simp at this
  · intro hb
    exact ⟨_, _, update_out_of_bounds s w h rest hs hb⟩

theorem switch_out_of_bounds_iff {d : Int} {h : snek_entity}
    (hd : d = UP ∨ d = DOWN ∨ d = LEFT ∨ d = RIGHT)
    (hr : 2 ≤ h.row ∧ h.row ≤ MAP_ROWS - 2)
    (hc : 1 ≤ h.column ∧ h.column ≤ MAP_COLUMNS - 2) :
    switch_direction d h = .out_of_bounds ↔
      ((moved_head d h).row ≤ 1 ∨ (moved_head d h).row ≥ MAP_ROWS - 1 ∨
        (moved_head d h).column ≤ 0 ∨ (moved_head d h).column ≥ MAP_COLUMNS - 1) := by
  unfold switch_direction moved_head
  rcases hd with hd | hd | hd | hd <;> subst hd <;> simp <;> omega

/-- C4: for a head in the playable interior (row in [2, MAP_ROWS-2], column in
[1, MAP_COLUMNS-2]) and each of the four directions, `snek_update` returns
false at the boundary check exactly when the moved head has row <= 1,
row >= MAP_ROWS-1, column <= 0 or column >= MAP_COLUMNS-1; the call always
returns, and the head it leaves is the old head or the moved head, never a
clamped position. -/
theorem C4_boundary_rejection (s : snek) (w : World) (h : snek_entity)
    (rest : List snek_entity) (hs : s.head = h :: rest)
    (hr : 2 ≤ h.row ∧ h.row ≤ MAP_ROWS - 2)
    (hc : 1 ≤ h.column ∧ h.column ≤ MAP_COLUMNS - 2)
    (hd : s.direction = UP ∨ s.direction = DOWN ∨ s.direction = LEFT ∨ s.direction = RIGHT) :
    ((∃ s' w', snek_update s w = some (.out_of_bounds, s', w')) ↔
      ((moved_head s.direction h).row ≤ 1 ∨ (moved_head s.direction h).row ≥ MAP_ROWS - 1 ∨
        (moved_head s.direction h).column ≤ 0 ∨
        (moved_head s.direction h).column ≥ MAP_COLUMNS - 1)) ∧
    update_exit.out_of_bounds.result = false ∧
    (∃ e s' w', snek_update s w = some (e, s', w')) ∧
    (∀ e s' w', snek_update s w = some (e, s', w') →
      s'.head = s.head ∨ s'.head.head? = some (moved_head s.direction h)) := by
  refine ⟨?_, rfl, update_defined s w h rest hs (switch_not_unassigned h hd), ?_⟩
  · rw [update_out_of_bounds_iff s w h rest hs]
    exact switch_out_of_bounds_iff hd hr hc
  · intro e s' w' hu
    rcases update_inv s s' w w' _ hu with ⟨_, _, h3, _⟩ | ⟨h', rest', hs', hc'⟩
    · left; rw [h3]
    · rw [hs] at hs'
      simp only [List.cons.injEq] at hs'
      obtain ⟨rfl, rfl⟩ := hs'
      rcases hc' with ⟨_, _, h3, _⟩ | ⟨r, c, hsw, hc'⟩
      · left; rw [h3, map_init_head]
      · rcases hc' with ⟨_, h3⟩ | ⟨w2, hw2⟩
        · left; rw [h3, map_init_head]
        · right
          have hh := (update_tail_fields (decide (r = s.food_row ∧ c = s.food_column))
            { snek_map_init s with head := ⟨r, c⟩ ::
              (if r = s.food_row ∧ c = s.food_column then h :: rest
               else (h :: rest).dropLast) } w2).1
          rw [← hw2] at hh
          simp only [] at hh
          rw [hh, (moved_head_of_switch hsw).2]
          rfl

/-- A head at row 28 moving down is rejected at the boundary check, whatever
the world: the moved head has row 29 = MAP_ROWS-1. -/
theorem C4_boundary_rejection_witness :
    (example_state [⟨28, 7⟩] DOWN 5 5).head = ⟨28, 7⟩ :: [] ∧
    ((2 : Int) ≤ 28 ∧ (28 : Int) ≤ MAP_ROWS - 2) ∧
    ((1 : Int) ≤ 7 ∧ (7 : Int) ≤ MAP_COLUMNS - 2) ∧
    ((∃ s' w', snek_update (example_state [⟨28, 7⟩] DOWN 5 5) quiet_world =
        some (.out_of_bounds, s', w')) ↔
      ((moved_head DOWN ⟨28, 7⟩).row ≤ 1 ∨ (moved_head DOWN ⟨28, 7⟩).row ≥ MAP_ROWS - 1 ∨
        (moved_head DOWN ⟨28, 7⟩).column ≤ 0 ∨
        (moved_head DOWN ⟨28, 7⟩).column ≥ MAP_COLUMNS - 1)) ∧
    (moved_head DOWN ⟨28, 7⟩).row ≥ MAP_ROWS - 1 :=
  ⟨rfl, by decide, by decide,
    (C4_boundary_rejection (example_state [⟨28, 7⟩] DOWN 5 5) quiet_world ⟨28, 7⟩ [] rfl
      (by decide) (by decide) (by decide)).1, by decide⟩

theorem tick_gate_out_of_bounds (s : snek) (w : World) (h : snek_entity)
    (rest : List snek_entity) (hs : s.head = h :: rest)
    (hb : switch_direction s.direction h = .out_of_bounds)
    (hg : (SDL_GetTicks w).1 > wrap_int32 (s.last_time + s.difficulty)) :
    tick_gate s w = some ({ snek_map_init { s with current_time := (SDL_GetTicks w).1 } with
      status := GAME_OVER, last_time := (SDL_GetTicks w).1 }, (SDL_GetTicks w).2) := by
  have hu := update_out_of_bounds { s with current_time := (SDL_GetTicks w).1 }
    (SDL_GetTicks w).2 h rest hs hb
  simp only [tick_gate, hg, if_true, hu, update_exit.result]
  rfl

theorem loop_mid_game_quiet (s : snek) (w : World) (he : w.events = []) :
    loop_mid_game s w = (tick_gate s w).map (fun r => (false, r)) := by
  simp [loop_mid_game, SDL_PollEvent, he]

theorem loop_game_over_quiet (s : snek) (w : World) (he : w.events = []) :
    loop_game_over s w = (false, s, w) := by
  simp [loop_game_over, SDL_PollEvent, he]

theorem loop_pause_quiet (s : snek) (w : World) (he : w.events = []) :
    loop_pause s w = (false, s, w) := by
  simp [loop_pause, SDL_PollEvent, he]

/-- A Playing iteration with no pending event is its timed update. -/
theorem snek_loop_playing_quiet (s s2 : snek) (w w2 : World) (hst : s.status = MID_GAME)
    (he : w.events = []) (ht : tick_gate s w = some (s2, w2)) (he2 : w2.events = []) :
    snek_loop s w = some (s2, w2) := by
  have h1 : ¬ (s.status = START_MENU) := by rw [hst]; decide
  unfold snek_loop
  simp only [if_neg h1, Bool.false_eq_true, if_false, if_pos hst,
    loop_mid_game_quiet s w he, ht, Option.map]
  by_cases hgo : s2.status = GAME_OVER
  · have h2 : ¬ (s2.status = PAUSE) := by rw [hgo]; decide
    simp only [if_pos hgo, loop_game_over_quiet s2 w2 he2, Bool.false_eq_true, if_false,
      if_neg h2]
  · simp only [if_neg hgo, Bool.false_eq_true, if_false]
    by_cases hp : s2.status = PAUSE
    · simp only [if_pos hp, loop_pause_quiet s2 w2 he2]
    · simp only [if_neg hp]

/-- C5: a tick rejected at the boundary check leaves the chain, the food
position, the score and the direction (and the world) as they were; the timed
update of `snek_loop` then sets the status to GAME_OVER, and a Playing
iteration with no pending event ends in GAME_OVER with the same chain, food,
score and direction.  Direction Up with the head at row 2 is such a tick. -/
theorem C5_rejected_tick_keeps_state (s : snek) (w : World) (h : snek_entity)
    (rest : List snek_entity) (hs : s.head = h :: rest)
    (hb : switch_direction s.direction h = .out_of_bounds) :
    (∃ s', snek_update s w = some (.out_of_bounds, s', w) ∧ s'.head = s.head ∧
      s'.food_row = s.food_row ∧ s'.food_column = s.food_column ∧ s'.score = s.score ∧
      s'.direction = s.direction) ∧
    ((SDL_GetTicks w).1 > wrap_int32 (s.last_time + s.difficulty) →
      ∃ s'' w'', tick_gate s w = some (s'', w'') ∧ s''.status = GAME_OVER ∧
        s''.head = s.head ∧ s''.food_row = s.food_row ∧ s''.food_column = s.food_column ∧
        s''.score = s.score ∧ s''.direction = s.direction) ∧
    (s.status = MID_GAME → w.events = [] → (SDL_GetTicks w).1 > wrap_int32 (s.last_time + s.difficulty) →
      ∃ s'' w'', snek_loop s w = some (s'', w'') ∧ s''.status = GAME_OVER ∧
        s''.head = s.head ∧ s''.food_row = s.food_row ∧ s''.food_column = s.food_column ∧
        s''.score = s.score ∧ s''.direction = s.direction) ∧
    (∀ c : Int, switch_direction UP ⟨2, c⟩ = .out_of_bounds) := by
  refine ⟨⟨snek_map_init s, update_out_of_bounds s w h rest hs hb, map_init_head s,
    map_init_food_row s, map_init_food_column s, map_init_score s, map_init_direction s⟩,
    ?_, ?_, ?_⟩
  · intro hg
    exact ⟨_, _, tick_gate_out_of_bounds s w h rest hs hb hg, rfl, rfl, rfl, rfl, rfl, rfl⟩
  · intro hst he hg
    have hq : (SDL_GetTicks w).2.events = [] := he
    refine ⟨{ snek_map_init { s with current_time := (SDL_GetTicks w).1 } with
      status := GAME_OVER, last_time := (SDL_GetTicks w).1 }, (SDL_GetTicks w).2,
      ?_, rfl, rfl, rfl, rfl, rfl, rfl⟩
    exact snek_loop_playing_quiet s _ w _ hst he
      (tick_gate_out_of_bounds s w h rest hs hb hg) hq
  · intro c
    simp [switch_direction]

/-- Scenario 3 of the spec: direction Up with the head at row 2, first as a
tick, then as a Playing iteration whose clock reads 100 ms. -/
theorem C5_rejected_tick_keeps_state_witness :
    (example_state [⟨2, 26⟩, ⟨3, 26⟩] UP 5 5).head = ⟨2, 26⟩ :: [⟨3, 26⟩] ∧
    switch_direction (example_state [⟨2, 26⟩, ⟨3, 26⟩] UP 5 5).direction ⟨2, 26⟩ =
      .out_of_bounds ∧
    (∃ s', snek_update (example_state [⟨2, 26⟩, ⟨3, 26⟩] UP 5 5) ⟨[], [], [100], []⟩ =
        some (.out_of_bounds, s', ⟨[], [], [100], []⟩) ∧
      s'.head = [⟨2, 26⟩, ⟨3, 26⟩] ∧ s'.food_row = 5 ∧ s'.food_column = 5 ∧ s'.score = 1 ∧
      s'.direction = UP) ∧
    (∃ s'' w'', snek_loop (example_state [⟨2, 26⟩, ⟨3, 26⟩] UP 5 5) ⟨[], [], [100], []⟩ =
        some (s'', w'') ∧ s''.status = GAME_OVER ∧
      s''.head = [⟨2, 26⟩, ⟨3, 26⟩] ∧ s''.food_row = 5 ∧ s''.food_column = 5 ∧
      s''.score = 1 ∧ s''.direction = UP) :=
  ⟨rfl, by decide,
    (C5_rejected_tick_keeps_state (example_state [⟨2, 26⟩, ⟨3, 26⟩] UP 5 5)
      ⟨[], [], [100], []⟩ ⟨2, 26⟩ [⟨3, 26⟩] rfl (by decide)).1,
    (C5_rejected_tick_keeps_state (example_state [⟨2, 26⟩, ⟨3, 26⟩] UP 5 5)
      ⟨[], [], [100], []⟩ ⟨2, 26⟩ [⟨3, 26⟩] rfl (by decide)).2.2.1 rfl rfl (by decide)⟩

theorem update_self_collision_iff (s : snek) (w : World) (h : snek_entity)
    (rest : List snek_entity) (r c : Int) (hs : s.head = h :: rest)
    (hb : switch_direction s.direction h = .moved r c)
    (ha : mallocs_succeed
      (if r = s.food_row ∧ c = s.food_column then s.head.length + 1 else s.head.length) w) :
    (∃ s' w', snek_update s w = some (.self_collision, s', w')) ↔
      (⟨r, c⟩ : snek_entity) ∈
        (if r = s.food_row ∧ c = s.food_column then h :: rest else (h :: rest).dropLast) := by
  obtain ⟨w2, hw2⟩ := update_commit_exact s w h rest r c hs hb ha
  have hcol := update_tail_collision (decide (r = s.food_row ∧ c = s.food_column))
    { snek_map_init s with head := ⟨r, c⟩ ::
      (if r = s.food_row ∧ c = s.food_column then h :: rest else (h :: rest).dropLast) } w2
  rw [show ({ snek_map_init s with head := (⟨r, c⟩ : snek_entity) ::
      (if r = s.food_row ∧ c = s.food_column then h :: rest
       else (h :: rest).dropLast) } : snek).head = (⟨r, c⟩ : snek_entity) ::
      (if r = s.food_row ∧ c = s.food_column then h :: rest else (h :: rest).dropLast)
    from rfl, head_hits_body_iff] at hcol
  rw [← hcol, hw2, update_tail_eta]
  constructor
  · rintro ⟨s', w', he⟩
    simp only [Option.some.injEq, Prod.mk.injEq] at he
    exact he.1
  · intro he
    exact ⟨_, _, by rw [he]⟩

theorem update_success_of_clear (s : snek) (w : World) (h : snek_entity)
    (rest : List snek_entity) (r c : Int) (hs : s.head = h :: rest)
    (hb : switch_direction s.direction h = .moved r c)
    (hf : ¬ (r = s.food_row ∧ c = s.food_column))
    (hn : (⟨r, c⟩ : snek_entity) ∉ (h :: rest).dropLast)
    (ha : mallocs_succeed s.head.length w) :
    ∃ s' w', snek_update s w = some (.success, s', w') ∧
      s'.head = ⟨r, c⟩ :: (h :: rest).dropLast ∧ s'.score = s.score ∧
      s'.food_row = s.food_row ∧ s'.food_column = s.food_column := by
  obtain ⟨w2, hw2⟩ := update_commit_exact s w h rest r c hs hb (by simpa [hf] using ha)
  simp only [hf, decide_False, if_false] at hw2
  have hh : head_hits_body ({ snek_map_init s with
      head := (⟨r, c⟩ : snek_entity) :: (h :: rest).dropLast } : snek).head = false := by
    rw [Bool.eq_false_iff]
    intro hc
    exact hn ((head_hits_body_iff _ _).1 hc)
  rw [update_tail_no_food _ _ hh] at hw2
  refine ⟨_, _, hw2, (stamp_fields _).1, ?_, ?_, ?_⟩
  · rw [(stamp_fields _).2.1]; exact map_init_score s
  · rw [(stamp_fields _).2.2.2.2.1]; exact map_init_food_row s
  · rw [(stamp_fields _).2.2.2.2.2.1]; exact map_init_food_column s

/-- C6, as stated, fails: the chain [(10,10),(10,11),(10,12),(10,13)] moving
Right passes the boundary check and its moved head (10,11) is an old position
other than the old tail, but `malloc` returns `NULL` and the tick returns false
at line 677, before the self-collision check, with the old chain in place. -/
theorem C6_counterexample :
    switch_direction RIGHT ⟨10, 10⟩ = .moved 10 11 ∧
    moved_head RIGHT ⟨10, 10⟩ ∈
      ([⟨10, 10⟩, ⟨10, 11⟩, ⟨10, 12⟩, ⟨10, 13⟩] : List snek_entity).dropLast ∧
    snek_update (example_state [⟨10, 10⟩, ⟨10, 11⟩, ⟨10, 12⟩, ⟨10, 13⟩] RIGHT 5 5)
        ⟨[false], [], [], []⟩ =
      some (.head_alloc, example_state [⟨10, 10⟩, ⟨10, 11⟩, ⟨10, 12⟩, ⟨10, 13⟩] RIGHT 5 5,
        quiet_world) ∧
    update_exit.head_alloc ≠ update_exit.self_collision := by
  refine ⟨by decide, by decide, ?_, by decide⟩
  rfl

/-- C6, amended: for every tick that passes the boundary check and in which
allocation succeeds, `snek_update` returns false at the self-collision check
exactly when the moved head is the position of some old node other than the
old tail (not grew), or of any old node (grew).  The chain
[(10,10),(10,11),(10,12)] moving Left succeeds with head (10,9), and a head
that moves into the cell the tail leaves is no collision. -/
theorem C6_self_collision (s : snek) (w : World) (h : snek_entity)
    (rest : List snek_entity) (hs : s.head = h :: rest)
    (hd : s.direction = UP ∨ s.direction = DOWN ∨ s.direction = LEFT ∨ s.direction = RIGHT)
    (hb : switch_direction s.direction h ≠ .out_of_bounds)
    (ha : mallocs_succeed (s.head.length + 1) w) :
    ((∃ s' w', snek_update s w = some (.self_collision, s', w')) ↔
      moved_head s.direction h ∈
        (if moved_head s.direction h = ⟨s.food_row, s.food_column⟩ then h :: rest
         else (h :: rest).dropLast)) ∧
    (∀ (t : snek) (v : World), t.head = [⟨10, 10⟩, ⟨10, 11⟩, ⟨10, 12⟩] → t.direction = LEFT →
      ¬ (t.food_row = 10 ∧ t.food_column = 9) → mallocs_succeed 3 v →
      ∃ t' v', snek_update t v = some (.success, t', v') ∧
        t'.head = [⟨10, 9⟩, ⟨10, 10⟩, ⟨10, 11⟩]) ∧
    (∀ (t : snek) (v : World), t.head = [⟨10, 10⟩, ⟨10, 11⟩, ⟨11, 11⟩, ⟨11, 10⟩] →
      t.direction = DOWN → ¬ (t.food_row = 11 ∧ t.food_column = 10) → mallocs_succeed 4 v →
      ∃ t' v', snek_update t v = some (.success, t', v') ∧
        t'.head = [⟨11, 10⟩, ⟨10, 10⟩, ⟨10, 11⟩, ⟨11, 11⟩]) := by
  refine ⟨?_, ?_, ?_⟩
  · have hsw := switch_of_valid hd hb
    have ha' : mallocs_succeed
        (if (moved_head s.direction h).row = s.food_row ∧
          (moved_head s.direction h).column = s.food_column then s.head.length + 1
         else s.head.length) w := by
      apply mallocs_succeed_mono _ ha
      split <;> omega
    rw [update_self_collision_iff s w h rest _ _ hs hsw ha']
    cases hp : moved_head s.direction h
    simp
  · intro t v ht hdir hfood ha
    have hsw : switch_direction t.direction ⟨10, 10⟩ = .moved 10 9 := by
      rw [hdir]; decide
    obtain ⟨t', v', hu, hh, -⟩ := update_success_of_clear t v ⟨10, 10⟩ _ 10 9 ht hsw
      (fun hc => hfood ⟨hc.1.symm, hc.2.symm⟩) (by decide) (by rw [ht]; exact ha)
    exact ⟨t', v', hu, hh⟩
  · intro t v ht hdir hfood ha
    have hsw : switch_direction t.direction ⟨10, 10⟩ = .moved 11 10 := by
      rw [hdir]; decide
    obtain ⟨t', v', hu, hh, -⟩ := update_success_of_clear t v ⟨10, 10⟩ _ 11 10 ht hsw
      (fun hc => hfood ⟨hc.1.symm, hc.2.symm⟩) (by decide) (by rw [ht]; exact ha)
    exact ⟨t', v', hu, hh⟩

/-- The straight chain of length 4 turned back on itself: with allocation
succeeding the tick ends at the self-collision check. -/
theorem C6_self_collision_witness :
    (example_state [⟨10, 10⟩, ⟨10, 11⟩, ⟨10, 12⟩, ⟨10, 13⟩] RIGHT 5 5).head =
      ⟨10, 10⟩ :: [⟨10, 11⟩, ⟨10, 12⟩, ⟨10, 13⟩] ∧
    switch_direction RIGHT ⟨10, 10⟩ ≠ .out_of_bounds ∧
    mallocs_succeed 5 quiet_world ∧
    ((∃ s' w', snek_update (example_state [⟨10, 10⟩, ⟨10, 11⟩, ⟨10, 12⟩, ⟨10, 13⟩] RIGHT 5 5)
        quiet_world = some (.self_collision, s', w')) ↔
      (⟨10, 11⟩ : snek_entity) ∈ [⟨10, 10⟩, ⟨10, 11⟩, ⟨10, 12⟩]) :=
  ⟨rfl, by decide, by decide,
    (C6_self_collision (example_state [⟨10, 10⟩, ⟨10, 11⟩, ⟨10, 12⟩, ⟨10, 13⟩] RIGHT 5 5)
      quiet_world ⟨10, 10⟩ [⟨10, 11⟩, ⟨10, 12⟩, ⟨10, 13⟩] rfl (by decide) (by decide)
      (by decide)).1⟩

theorem update_tail_of_hit (fc : Bool) (s : snek) (w : World)
    (hh : head_hits_body s.head = true) :
    update_tail fc s w = (.self_collision, s, w) := by
  simp [update_tail, hh]

theorem moved_head_ne {d : Int} (h : snek_entity)
    (hd : d = UP ∨ d = DOWN ∨ d = LEFT ∨ d = RIGHT) : moved_head d h ≠ h := by
  unfold moved_head
  cases h with
  | mk r c => rcases hd with hd | hd | hd | hd <;> subst hd <;> simp

/-- A tick whose moved head is on an old node other than the tail does not
return success, whatever `malloc` answers. -/
theorem update_fails_of_hit (s s' : snek) (w w' : World) (e : update_exit)
    (h : snek_entity) (rest : List snek_entity) (hs : s.head = h :: rest)
    (hm : moved_head s.direction h ∈ (h :: rest).dropLast)
    (hu : snek_update s w = some (e, s', w')) : e.result = false := by
  cases e <;> try rfl
  exfalso
  obtain ⟨h', rest', r, c, w2, hs', hsw, ht⟩ := update_success_inv s s' w w' hu
  rw [hs] at hs'
  simp only [List.cons.injEq] at hs'
  obtain ⟨rfl, rfl⟩ := hs'
  rw [(moved_head_of_switch hsw).2] at hm
  have hin : (⟨r, c⟩ : snek_entity) ∈
      (if r = s.food_row ∧ c = s.food_column then h :: rest else (h :: rest).dropLast) := by
    split
    · exact List.dropLast_subset _ hm
    · exact hm
  have hh : head_hits_body ({ snek_map_init s with head := (⟨r, c⟩ : snek_entity) ::
      (if r = s.food_row ∧ c = s.food_column then h :: rest
       else (h :: rest).dropLast) } : snek).head = true :=
    (head_hits_body_iff _ _).2 hin
  rw [update_tail_of_hit _ _ _ hh] at ht
  simp at ht

theorem tick_gate_failure (s s2 : snek) (w w2 : World) (e : update_exit)
    (hg : (SDL_GetTicks w).1 > wrap_int32 (s.last_time + s.difficulty))
    (hu : snek_update { s with current_time := (SDL_GetTicks w).1 } (SDL_GetTicks w).2 =
      some (e, s2, w2))
    (he : e.result = false) :
    tick_gate s w =
      some ({ s2 with status := GAME_OVER, last_time := s2.current_time }, w2) := by
  simp only [tick_gate, hg, if_true, hu, he]

/-- C7, as stated, fails: the chain [(10,10),(10,11),(10,12),(10,13)] moving
Right puts its head on the body cell (10,11); the tick returns false at the
self-collision check, but by then line 711 has stored the colliding chain
[(10,11),(10,10),(10,11),(10,12)] in the game state. -/
theorem C7_counterexample :
    4 ≤ (example_state [⟨10, 10⟩, ⟨10, 11⟩, ⟨10, 12⟩, ⟨10, 13⟩] RIGHT 5 5).head.length ∧
    moved_head RIGHT ⟨10, 10⟩ ∈
      ([⟨10, 10⟩, ⟨10, 11⟩, ⟨10, 12⟩, ⟨10, 13⟩] : List snek_entity).dropLast ∧
    snek_update (example_state [⟨10, 10⟩, ⟨10, 11⟩, ⟨10, 12⟩, ⟨10, 13⟩] RIGHT 5 5)
        quiet_world =
      some (.self_collision,
        example_state [⟨10, 11⟩, ⟨10, 10⟩, ⟨10, 11⟩, ⟨10, 12⟩] RIGHT 5 5, quiet_world) ∧
    (example_state [⟨10, 11⟩, ⟨10, 10⟩, ⟨10, 11⟩, ⟨10, 12⟩] RIGHT 5 5).head ≠
      (example_state [⟨10, 10⟩, ⟨10, 11⟩, ⟨10, 12⟩, ⟨10, 13⟩] RIGHT 5 5).head := by
  refine ⟨by decide, by decide, ?_, by decide⟩
  rfl

/-- C7, amended: for every chain (of length >= 4 or shorter) and direction such
that the moved head is on an old node other than the tail, the tick returns false and
the timed update of the loop sets the status to GAME_OVER; when the tick
passes the boundary check and allocation succeeds, it returns at the
self-collision check and the colliding chain IS committed: the chain held in
the game state after the tick is the moved head followed by the old positions
(without the old tail unless grew), not the chain before the tick, and the map
holds the wall layout only. -/
theorem C7_collision_commits (s : snek) (w : World) (h : snek_entity)
    (rest : List snek_entity) (hs : s.head = h :: rest)
    (hd : s.direction = UP ∨ s.direction = DOWN ∨ s.direction = LEFT ∨ s.direction = RIGHT)
    (hm : moved_head s.direction h ∈ (h :: rest).dropLast) :
    (∃ e s' w', snek_update s w = some (e, s', w') ∧ e.result = false) ∧
    ((SDL_GetTicks w).1 > wrap_int32 (s.last_time + s.difficulty) →
      ∃ s'' w'', tick_gate s w = some (s'', w'') ∧ s''.status = GAME_OVER) ∧
    (switch_direction s.direction h ≠ .out_of_bounds → mallocs_succeed (s.head.length + 1) w →
      ∃ s' w', snek_update s w = some (.self_collision, s', w') ∧
        s'.head = moved_head s.direction h ::
          (if moved_head s.direction h = ⟨s.food_row, s.food_column⟩ then h :: rest
           else (h :: rest).dropLast) ∧
        s'.head ≠ s.head ∧ s'.map = initial_map) := by
  have hna := switch_not_unassigned h hd
  refine ⟨?_, ?_, ?_⟩
  · obtain ⟨e, s', w', hu⟩ := update_defined s w h rest hs hna
    exact ⟨e, s', w', hu, update_fails_of_hit s s' w w' e h rest hs hm hu⟩
  · intro hg
    obtain ⟨e, s2, w2, hu⟩ := update_defined { s with current_time := (SDL_GetTicks w).1 }
      (SDL_GetTicks w).2 h rest hs hna
    have he := update_fails_of_hit { s with current_time := (SDL_GetTicks w).1 } s2
      (SDL_GetTicks w).2 w2 e h rest hs hm hu
    exact ⟨_, _, tick_gate_failure s s2 w w2 e hg hu he, rfl⟩
  · intro hb ha
    have hsw := switch_of_valid hd hb
    obtain ⟨w2, hw2⟩ := update_commit s w h rest _ _ hs hsw ha
    have hin : (⟨(moved_head s.direction h).row, (moved_head s.direction h).column⟩ :
        snek_entity) ∈
        (if (moved_head s.direction h).row = s.food_row ∧
            (moved_head s.direction h).column = s.food_column then h :: rest
         else (h :: rest).dropLast) := by
      split
      · exact List.dropLast_subset _ hm
      · exact hm
    rw [update_tail_of_hit _ _ _ ((head_hits_body_iff _ _).2 hin)] at hw2
    refine ⟨_, _, hw2, ?_, ?_, rfl⟩
    · cases hp : moved_head s.direction h
      simp
    · rw [hs]
      intro hc
      simp only [List.cons.injEq] at hc
      exact moved_head_ne h hd hc.1

/-- The straight chain of length 4 turned back on itself, with the clock at
100 ms. -/
theorem C7_collision_commits_witness :
    (example_state [⟨10, 10⟩, ⟨10, 11⟩, ⟨10, 12⟩, ⟨10, 13⟩] RIGHT 5 5).head =
      ⟨10, 10⟩ :: [⟨10, 11⟩, ⟨10, 12⟩, ⟨10, 13⟩] ∧
    4 ≤ (example_state [⟨10, 10⟩, ⟨10, 11⟩, ⟨10, 12⟩, ⟨10, 13⟩] RIGHT 5 5).head.length ∧
    moved_head RIGHT ⟨10, 10⟩ ∈
      ([⟨10, 10⟩, ⟨10, 11⟩, ⟨10, 12⟩, ⟨10, 13⟩] : List snek_entity).dropLast ∧
    (∃ s'' w'', tick_gate (example_state [⟨10, 10⟩, ⟨10, 11⟩, ⟨10, 12⟩, ⟨10, 13⟩] RIGHT 5 5)
        ⟨[], [], [100], []⟩ = some (s'', w'') ∧ s''.status = GAME_OVER) ∧
    (∃ s' w', snek_update (example_state [⟨10, 10⟩, ⟨10, 11⟩, ⟨10, 12⟩, ⟨10, 13⟩] RIGHT 5 5)
        ⟨[], [], [100], []⟩ = some (.self_collision, s', w') ∧
      s'.head = [⟨10, 11⟩, ⟨10, 10⟩, ⟨10, 11⟩, ⟨10, 12⟩] ∧
      s'.head ≠ [⟨10, 10⟩, ⟨10, 11⟩, ⟨10, 12⟩, ⟨10, 13⟩] ∧ s'.map = initial_map) :=
  ⟨rfl, by decide, by decide,
    (C7_collision_commits (example_state [⟨10, 10⟩, ⟨10, 11⟩, ⟨10, 12⟩, ⟨10, 13⟩] RIGHT 5 5)
      ⟨[], [], [100], []⟩ ⟨10, 10⟩ [⟨10, 11⟩, ⟨10, 12⟩, ⟨10, 13⟩] rfl (by decide)
      (by decide)).2.1 (by decide),
    (C7_collision_commits (example_state [⟨10, 10⟩, ⟨10, 11⟩, ⟨10, 12⟩, ⟨10, 13⟩] RIGHT 5 5)
      ⟨[], [], [100], []⟩ ⟨10, 10⟩ [⟨10, 11⟩, ⟨10, 12⟩, ⟨10, 13⟩] rfl (by decide)
      (by decide)).2.2 (by decide) (by decide)⟩

theorem key_direction_cases {sym d : Int} (hk : key_direction sym = some d) :
    ((sym = SDLK_w ∨ sym = SDLK_UP) ∧ d = UP) ∨ ((sym = SDLK_s ∨ sym = SDLK_DOWN) ∧ d = DOWN) ∨
    ((sym = SDLK_a ∨ sym = SDLK_LEFT) ∧ d = LEFT) ∨
    ((sym = SDLK_d ∨ sym = SDLK_RIGHT) ∧ d = RIGHT) := by
  unfold key_direction at hk
  split_ifs at hk with h1 h2 h3 h4 <;> simp only [Option.some.injEq] at hk <;> subst hk
  · exact Or.inl ⟨h1, rfl⟩
  · exact Or.inr (Or.inl ⟨h2, rfl⟩)
  · exact Or.inr (Or.inr (Or.inl ⟨h3, rfl⟩))
  · exact Or.inr (Or.inr (Or.inr ⟨h4, rfl⟩))

/-- What `snek_input` does with a direction key: the direction asked for is
taken unless it is the opposite of the current one outside the start menu. -/
theorem snek_input_direction_key (s : snek) (d : Int)
    (hk : key_direction s.event.sym = some d) :
    (snek_input s).2 =
      (if opposite d s.direction ∧ s.status ≠ START_MENU then s
       else { s with direction := d }) := by
  unfold snek_input opposite
  rcases key_direction_cases hk with ⟨h | h, rfl⟩ | ⟨h | h, rfl⟩ | ⟨h | h, rfl⟩ | ⟨h | h, rfl⟩ <;>
    simp only [h] <;> by_cases hd0 : s.direction = 0 <;> by_cases hd1 : s.direction = 1 <;>
    by_cases hd2 : s.direction = 2 <;> by_cases hd3 : s.direction = 3 <;>
    by_cases hm : s.status = 0 <;> simp_all

/-- C8: while the status is MID_GAME (Playing), a key that asks for the exact
opposite of the current direction leaves the direction (and the whole struct)
unchanged, and a key that asks for any other direction sets the direction to
the one asked for and changes nothing else. -/
theorem C8_no_reversal (s : snek) (d : Int) (hst : s.status = MID_GAME)
    (hk : key_direction s.event.sym = some d) :
    (opposite d s.direction → (snek_input s).2 = s) ∧
    (¬ opposite d s.direction → (snek_input s).2 = { s with direction := d }) ∧
    (snek_input s).2.direction = (if opposite d s.direction then s.direction else d) := by
  have hm : s.status ≠ START_MENU := by rw [hst]; decide
  rw [snek_input_direction_key s d hk]
  refine ⟨fun ho => ?_, fun ho => ?_, ?_⟩
  · rw [if_pos ⟨ho, hm⟩]
  · rw [if_neg (fun hc => ho hc.1)]
  · by_cases ho : opposite d s.direction
    · rw [if_pos ⟨ho, hm⟩, if_pos ho]
    · rw [if_neg (fun hc => ho hc.1), if_neg ho]

/-- While playing and heading Down, the key W (asking for Up) changes nothing,
and while heading Left the arrow key Up turns the snake Up. -/
theorem C8_no_reversal_witness :
    ({ example_state [⟨15, 26⟩] DOWN 5 5 with event := ⟨SDL_KEYDOWN, SDLK_w⟩ } : snek).status =
      MID_GAME ∧
    key_direction SDLK_w = some UP ∧ opposite UP DOWN ∧
    (snek_input { example_state [⟨15, 26⟩] DOWN 5 5 with event := ⟨SDL_KEYDOWN, SDLK_w⟩ }).2 =
      { example_state [⟨15, 26⟩] DOWN 5 5 with event := ⟨SDL_KEYDOWN, SDLK_w⟩ } ∧
    key_direction SDLK_UP = some UP ∧ ¬ opposite UP LEFT ∧
    (snek_input { example_state [⟨15, 26⟩] LEFT 5 5 with event := ⟨SDL_KEYDOWN, SDLK_UP⟩ }).2 =
      { example_state [⟨15, 26⟩] UP 5 5 with event := ⟨SDL_KEYDOWN, SDLK_UP⟩ } :=
  ⟨rfl, by decide, by decide,
    (C8_no_reversal { example_state [⟨15, 26⟩] DOWN 5 5 with event := ⟨SDL_KEYDOWN, SDLK_w⟩ }
      UP rfl (by decide)).1 (by decide),
    by decide, by decide,
    (C8_no_reversal { example_state [⟨15, 26⟩] LEFT 5 5 with event := ⟨SDL_KEYDOWN, SDLK_UP⟩ }
      UP rfl (by decide)).2.1 (by decide)⟩

/-- C9: while the status is START_MENU, every direction key (W, A, S, D or an
arrow) sets the direction to the one asked for, whatever the current
direction, its exact opposite included; the menu block of `snek_loop`, given
such a key press as first pending event, stores the direction asked for and
moves on to MID_GAME. -/
theorem C9_menu_accepts_any_direction (s : snek) (hst : s.status = START_MENU) :
    (∀ d : Int, key_direction s.event.sym = some d →
      (snek_input s).2 = { s with direction := d }) ∧
    (∀ (w : World) (e : SDL_Event) (es : List SDL_Event) (d : Int), w.events = e :: es →
      e.type = SDL_KEYDOWN → key_direction e.sym = some d →
      loop_start_menu s w =
        (false, { s with event := e, direction := d, status := MID_GAME },
          { w with events := es })) := by
  have hin : ∀ (u : snek) (d : Int), u.status = START_MENU →
      key_direction u.event.sym = some d → (snek_input u).2 = { u with direction := d } := by
    intro u d hu hk
    rw [snek_input_direction_key u d hk, if_neg (fun hc => hc.2 hu)]
  refine ⟨fun d hk => hin s d hst hk, ?_⟩
  intro w e es d hw hty hk
  have hq : ¬ (e.type = SDL_QUIT) := by rw [hty]; decide
  have hi := hin { s with event := e } d hst hk
  rcases key_direction_cases hk with ⟨h | h, rfl⟩ | ⟨h | h, rfl⟩ | ⟨h | h, rfl⟩ | ⟨h | h, rfl⟩ <;>
    simp [loop_start_menu, SDL_PollEvent, hw, hq, hty, hi, h]

/-- In the start menu with the direction Up that `snek_init` sets, the key S
(asking for Down, the exact opposite) is accepted. -/
theorem C9_menu_accepts_any_direction_witness :
    ({ example_state [⟨15, 26⟩] UP 5 5 with
        status := START_MENU, event := ⟨SDL_KEYDOWN, SDLK_s⟩ } : snek).status = START_MENU ∧
    key_direction SDLK_s = some DOWN ∧ opposite DOWN UP ∧
    (snek_input { example_state [⟨15, 26⟩] UP 5 5 with
        status := START_MENU, event := ⟨SDL_KEYDOWN, SDLK_s⟩ }).2 =
      { example_state [⟨15, 26⟩] DOWN 5 5 with
        status := START_MENU, event := ⟨SDL_KEYDOWN, SDLK_s⟩ } :=
  ⟨rfl, by decide, by decide,
    (C9_menu_accepts_any_direction { example_state [⟨15, 26⟩] UP 5 5 with
      status := START_MENU, event := ⟨SDL_KEYDOWN, SDLK_s⟩ } rfl).1 DOWN (by decide)⟩

/-- C10: a key that is none of W, A, S, D, Up, Down, Left, Right leaves the
whole struct unchanged; for every key `snek_input` returns true, changes no
field other than `direction`, and leaves in it the old value or one of UP,
DOWN, LEFT, RIGHT, so a direction among these four stays among them. -/
theorem C10_unrecognized_keys_are_no_ops (s : snek) :
    (s.event.sym ≠ SDLK_w → s.event.sym ≠ SDLK_a → s.event.sym ≠ SDLK_s →
      s.event.sym ≠ SDLK_d → s.event.sym ≠ SDLK_UP → s.event.sym ≠ SDLK_DOWN →
      s.event.sym ≠ SDLK_LEFT → s.event.sym ≠ SDLK_RIGHT → snek_input s = (true, s)) ∧
    (snek_input s).1 = true ∧
    { (snek_input s).2 with direction := s.direction } = s ∧
    ((snek_input s).2.direction = s.direction ∨ (snek_input s).2.direction = UP ∨
      (snek_input s).2.direction = DOWN ∨ (snek_input s).2.direction = LEFT ∨
      (snek_input s).2.direction = RIGHT) ∧
    ((s.direction = UP ∨ s.direction = DOWN ∨ s.direction = LEFT ∨ s.direction = RIGHT) →
      ((snek_input s).2.direction = UP ∨ (snek_input s).2.direction = DOWN ∨
        (snek_input s).2.direction = LEFT ∨ (snek_input s).2.direction = RIGHT)) := by
  have key : (snek_input s).1 = true ∧
      ((snek_input s).2 = s ∨ (snek_input s).2 = { s with direction := UP } ∨
        (snek_input s).2 = { s with direction := DOWN } ∨
        (snek_input s).2 = { s with direction := LEFT } ∨
        (snek_input s).2 = { s with direction := RIGHT }) := by
    unfold snek_input
    simp only []
    split_ifs <;> simp
  obtain ⟨k1, k2⟩ := key
  refine ⟨?_, k1, ?_, ?_, ?_⟩
  · intro h1 h2 h3 h4 h5 h6 h7 h8
    simp [snek_input, h1, h2, h3, h4, h5, h6, h7, h8]
  · rcases k2 with k | k | k | k | k <;> rw [k]
  · rcases k2 with k | k | k | k | k <;> rw [k] <;> simp
  · intro hd
    rcases k2 with k | k | k | k | k <;> rw [k] <;> first | exact hd | simp

/-- The key P (not a direction key) leaves a playing struct as it is. -/
theorem C10_unrecognized_keys_are_no_ops_witness :
    snek_input { example_state [⟨15, 26⟩] LEFT 5 5 with event := ⟨SDL_KEYDOWN, SDLK_p⟩ } =
      (true, { example_state [⟨15, 26⟩] LEFT 5 5 with event := ⟨SDL_KEYDOWN, SDLK_p⟩ }) :=
  (C10_unrecognized_keys_are_no_ops
    { example_state [⟨15, 26⟩] LEFT 5 5 with event := ⟨SDL_KEYDOWN, SDLK_p⟩ }).1
    (by decide) (by decide) (by decide) (by decide) (by decide) (by decide) (by decide)
    (by decide)

theorem spawn_pass_food (temp : List snek_entity) (t : Int) (s : snek) (w : World) :
    (spawn_pass temp t s w).2.2.1.food_row = ((rand w).1 : Int) % 27 + 2 ∧
    (spawn_pass temp t s w).2.2.1.food_column = ((rand (rand w).2).1 : Int) % 51 + 1 := by
  simp only [spawn_pass]
  exact ⟨rfl, rfl⟩

theorem spawn_pass_food_range (temp : List snek_entity) (t : Int) (s : snek) (w : World) :
    (2 ≤ (spawn_pass temp t s w).2.2.1.food_row ∧
      (spawn_pass temp t s w).2.2.1.food_row ≤ MAP_ROWS - 2) ∧
    (1 ≤ (spawn_pass temp t s w).2.2.1.food_column ∧
      (spawn_pass temp t s w).2.2.1.food_column ≤ MAP_COLUMNS - 2) := by
  obtain ⟨h1, h2⟩ := spawn_pass_food temp t s w
  rw [h1, h2]
  unfold MAP_ROWS MAP_COLUMNS
  omega

/-- The struct `snek_food_entity_spawn` leaves is the one its last pass left:
the first pass, or the second one when the first sample was on the chain and
the time budget was not exceeded. -/
theorem food_spawn_last_pass (s : snek) (w : World) :
    (snek_food_entity_spawn s w).2.1 =
        (spawn_pass s.head (SDL_GetTicks w).1 s (SDL_GetTicks w).2).2.2.1 ∨
    (snek_food_entity_spawn s w).2.1 =
        (spawn_pass [] (SDL_GetTicks w).1
          (spawn_pass s.head (SDL_GetTicks w).1 s (SDL_GetTicks w).2).2.2.1
          (spawn_pass s.head (SDL_GetTicks w).1 s (SDL_GetTicks w).2).2.2.2).2.2.1 := by
  unfold snek_food_entity_spawn
  simp only []
  rcases hp : spawn_pass s.head (SDL_GetTicks w).1 s (SDL_GetTicks w).2 with ⟨b1, b2, s1, w1⟩
  rcases hq : spawn_pass [] (SDL_GetTicks w).1 s1 w1 with ⟨c1, c2, s2, w2⟩
  cases b1 <;> cases b2 <;> cases c1 <;> simp [hq]

/-- C11: whatever the chain, the random draws and the clock, every food
position `snek_food_entity_spawn` writes (in its first pass and, when there is
one, in its second) and the food position it leaves behind have their row in
[2, MAP_ROWS-2] = [2, 28] and their column in [1, MAP_COLUMNS-2] = [1, 51]. -/
theorem C11_food_in_interior (s : snek) (w : World) :
    (∀ (temp : List snek_entity) (t : Int) (u : snek) (v : World),
      (2 ≤ (spawn_pass temp t u v).2.2.1.food_row ∧
        (spawn_pass temp t u v).2.2.1.food_row ≤ 28) ∧
      (1 ≤ (spawn_pass temp t u v).2.2.1.food_column ∧
        (spawn_pass temp t u v).2.2.1.food_column ≤ 51)) ∧
    (2 ≤ (snek_food_entity_spawn s w).2.1.food_row ∧
      (snek_food_entity_spawn s w).2.1.food_row ≤ MAP_ROWS - 2) ∧
    (1 ≤ (snek_food_entity_spawn s w).2.1.food_column ∧
      (snek_food_entity_spawn s w).2.1.food_column ≤ MAP_COLUMNS - 2) ∧
    MAP_ROWS - 2 = 28 ∧ MAP_COLUMNS - 2 = 51 := by
  refine ⟨fun temp t u v => spawn_pass_food_range temp t u v, ?_, ?_, by decide, by decide⟩
  · rcases food_spawn_last_pass s w with h | h <;> rw [h] <;>
      exact (spawn_pass_food_range _ _ _ _).1
  · rcases food_spawn_last_pass s w with h | h <;> rw [h] <;>
      exact (spawn_pass_food_range _ _ _ _).2

/-- C12 (code defect): the chain is the single node (15,26) and `rand()`
answers 13, 25, 13, 25.  The first sample (15,26) is on the chain; the scan
pointer `temp` is not reset, so the second sample, (15,26) again, is not
compared with the chain, and `snek_food_entity_spawn` returns true with the
food on the snake. -/
theorem C12_food_lands_on_snake :
    snek_food_entity_spawn (example_state [⟨15, 26⟩] UP 5 5) ⟨[], [13, 25, 13, 25], [], []⟩ =
      (true, example_state [⟨15, 26⟩] UP 15 26, quiet_world) ∧
    (⟨15, 26⟩ : snek_entity) ∈ (example_state [⟨15, 26⟩] UP 15 26).head ∧
    (∀ (s : snek) (w : World) (r c : Nat),
      (⟨(r : Int) % 27 + 2, (c : Int) % 51 + 1⟩ : snek_entity) ∈ s.head →
      w.rands = r :: c :: r :: c :: [] → w.ticks = [] →
      ∃ s' w', snek_food_entity_spawn s w = (true, s', w') ∧
        (⟨s'.food_row, s'.food_column⟩ : snek_entity) ∈ s'.head) := by
  refine ⟨by rfl, by decide, ?_⟩
  intro s w r c hin hr ht
  have hany : s.head.any (fun t => decide (t.row = (r : Int) % 27 + 2 ∧
      t.column = (c : Int) % 51 + 1)) = true := by
    rw [List.any_eq_true]
    exact ⟨_, hin, by simp⟩
  have h1 : spawn_pass s.head 0 s { w with ticks := [] } =
      (false, true,
        { s with food_row := (r : Int) % 27 + 2, food_column := (c : Int) % 51 + 1 },
        { w with rands := [r, c], ticks := [] }) := by
    simp only [spawn_pass, rand, SDL_GetTicks, hr, List.headD_cons, List.tail_cons,
      List.headD_nil, List.tail_nil]
    refine Prod.ext rfl (Prod.ext ?_ rfl)
    exact hany
  have h2 : spawn_pass [] 0
      { s with food_row := (r : Int) % 27 + 2, food_column := (c : Int) % 51 + 1 }
      { w with rands := [r, c], ticks := [] } =
      (false, false,
        { s with food_row := (r : Int) % 27 + 2, food_column := (c : Int) % 51 + 1 },
        { w with rands := [], ticks := [] }) := by
    simp only [spawn_pass, rand, SDL_GetTicks, List.headD_cons, List.tail_cons,
      List.headD_nil, List.tail_nil]
    rfl
  have he : snek_food_entity_spawn s w =
      (true, { s with food_row := (r : Int) % 27 + 2, food_column := (c : Int) % 51 + 1 },
        { w with rands := [], ticks := [] }) := by
    have hw : (SDL_GetTicks w) = (0, { w with ticks := [] }) := by
      simp [SDL_GetTicks, ht, wrap_int32]
    simp only [snek_food_entity_spawn, hw, h1, h2]
  exact ⟨_, _, he, hin⟩

theorem update_tail_success (fc : Bool) (s s' : snek) (w w' : World)
    (h : update_tail fc s w = (.success, s', w')) :
    (fc = true → snek_food_entity_spawn s w =
        (true, (snek_food_entity_spawn s w).2.1, w') ∧
      s' = stamp_entities { (snek_food_entity_spawn s w).2.1 with
        score := (snek_food_entity_spawn s w).2.1.score + 1 }) ∧
    (fc = false → s' = stamp_entities s ∧ w' = w) := by
  unfold update_tail at h
  split at h
  · simp at h
  · cases fc with
    | true =>
      simp only [if_true] at h
      rcases hs : snek_food_entity_spawn s w with ⟨b, s1, w1⟩
      rw [hs] at h
      cases b with
      | false => simp at h
      | true =>
        simp only [Prod.mk.injEq, true_and] at h
        simp [h.1, h.2]
    | false =>
      simp only [Bool.false_eq_true, if_false, Prod.mk.injEq, true_and] at h
      simp [h.1, h.2]

/-- A successful tick, seen from its result: the struct came out of lines
713-745 run on the reset map with the new chain. -/
theorem update_success_state (s s' : snek) (w w' : World)
    (hu : snek_update s w = some (.success, s', w')) :
    ∃ h rest w2, s.head = h :: rest ∧
      (s.direction = UP ∨ s.direction = DOWN ∨ s.direction = LEFT ∨ s.direction = RIGHT) ∧
      switch_direction s.direction h ≠ .out_of_bounds ∧
      s'.head = moved_head s.direction h ::
        (if moved_head s.direction h = ⟨s.food_row, s.food_column⟩ then h :: rest
         else (h :: rest).dropLast) ∧
      update_tail (decide (moved_head s.direction h = ⟨s.food_row, s.food_column⟩))
        { snek_map_init s with head := s'.head } w2 = (.success, s', w') := by
  obtain ⟨h, rest, r, c, w2, hs, hsw, ht⟩ := update_success_inv s s' w w' hu
  obtain ⟨hd, hm⟩ := moved_head_of_switch hsw
  have hh := (update_tail_fields (decide (r = s.food_row ∧ c = s.food_column))
    { snek_map_init s with head := ⟨r, c⟩ ::
      (if r = s.food_row ∧ c = s.food_column then h :: rest else (h :: rest).dropLast) }
    w2).1
  rw [← ht] at hh
  simp only [] at hh
  have hdec : decide (r = s.food_row ∧ c = s.food_column) =
      decide (moved_head s.direction h = ⟨s.food_row, s.food_column⟩) := by
    rw [hm]; simp
  have hif : (if r = s.food_row ∧ c = s.food_column then h :: rest
      else (h :: rest).dropLast) =
      (if moved_head s.direction h = ⟨s.food_row, s.food_column⟩ then h :: rest
       else (h :: rest).dropLast) := by
    rw [hm]; simp
  refine ⟨h, rest, w2, hs, hd, by rw [hsw]; simp, ?_, ?_⟩
  · rw [hh, hif, hm]
  · rw [← hdec, hh]
    exact ht.symm

/-- C13: after a tick that returns success the score is the old score plus 1
when the moved head was on the food, and then the food position is the one
`snek_food_entity_spawn`, run on the new chain, returned true with; otherwise
the score and the food position are the old ones. -/
theorem C13_score_follows_food (s s' : snek) (w w' : World)
    (hu : snek_update s w = some (.success, s', w')) :
    ∃ h rest, s.head = h :: rest ∧
      (moved_head s.direction h = ⟨s.food_row, s.food_column⟩ →
        s'.score = s.score + 1 ∧
        ∃ w2 s1, snek_food_entity_spawn { snek_map_init s with head := s'.head } w2 =
            (true, s1, w') ∧
          s'.food_row = s1.food_row ∧ s'.food_column = s1.food_column) ∧
      (moved_head s.direction h ≠ ⟨s.food_row, s.food_column⟩ →
        s'.score = s.score ∧ s'.food_row = s.food_row ∧ s'.food_column = s.food_column) := by
  obtain ⟨h, rest, w2, hs, -, -, -, ht⟩ := update_success_state s s' w w' hu
  obtain ⟨h1, h2⟩ := update_tail_success _ _ _ _ _ ht
  refine ⟨h, rest, hs, ?_, ?_⟩
  · intro hf
    obtain ⟨k1, k2⟩ := h1 (by simp [hf])
    have hf' := (food_spawn_fields { snek_map_init s with head := s'.head } w2).2.1
    generalize (snek_food_entity_spawn { snek_map_init s with head := s'.head } w2).2.1 = s1
      at k1 k2 hf'
    refine ⟨?_, w2, s1, k1, ?_, ?_⟩
    · rw [k2, (stamp_fields _).2.1]
      show s1.score + 1 = s.score + 1
      rw [hf']
      exact congrArg (· + 1) (map_init_score s)
    · rw [k2, (stamp_fields _).2.2.2.2.1]
    · rw [k2, (stamp_fields _).2.2.2.2.2.1]
  · intro hf
    obtain ⟨k1, -⟩ := h2 (by simp [hf])
    rw [k1]
    refine ⟨?_, ?_, ?_⟩
    · rw [(stamp_fields _).2.1]; exact map_init_score s
    · rw [(stamp_fields _).2.2.2.2.1]; exact map_init_food_row s
    · rw [(stamp_fields _).2.2.2.2.2.1]; exact map_init_food_column s

/-- Scenario 2 of the spec: the head steps onto the food at (15,27); `rand()`
answers 3 and 4, so the food moves to (5,5), and the score goes from 1 to 2. -/
theorem C13_score_follows_food_witness :
    snek_update scenario2 ⟨[], [3, 4], [], []⟩ = some (.success, scenario2_after, quiet_world) ∧
    scenario2.score = 1 ∧ scenario2_after.score = 2 ∧
    scenario2_after.food_row = 5 ∧ scenario2_after.food_column = 5 ∧
    ∃ h rest, scenario2.head = h :: rest ∧
      (moved_head scenario2.direction h = ⟨scenario2.food_row, scenario2.food_column⟩ →
        scenario2_after.score = scenario2.score + 1 ∧
        ∃ w2 s1, snek_food_entity_spawn
            { snek_map_init scenario2 with head := scenario2_after.head } w2 =
            (true, s1, quiet_world) ∧
          scenario2_after.food_row = s1.food_row ∧
          scenario2_after.food_column = s1.food_column) ∧
      (moved_head scenario2.direction h ≠ ⟨scenario2.food_row, scenario2.food_column⟩ →
        scenario2_after.score = scenario2.score ∧
        scenario2_after.food_row = scenario2.food_row ∧
        scenario2_after.food_column = scenario2.food_column) :=
  ⟨rfl, rfl, rfl, rfl, rfl,
    C13_score_follows_food scenario2 scenario2_after ⟨[], [3, 4], [], []⟩ quiet_world rfl⟩

set_option maxRecDepth 1000000 in
theorem initial_map_table :
    initial_map = (List.range 30).map (fun (a : Nat) =>
      (List.range 53).map (fun (b : Nat) => static_tile (a : Int) (b : Int))) := by
  unfold initial_map
  decide

theorem get_tile_table (f : Nat → Nat → Int) (i j : Int)
    (hi : 0 ≤ i ∧ i < MAP_ROWS) (hj : 0 ≤ j ∧ j < MAP_COLUMNS) :
    get_tile ((List.range 30).map (fun a => (List.range 53).map (fun b => f a b))) i j =
      some (f i.toNat j.toNat) := by
  have h1 : i.toNat < 30 := by unfold MAP_ROWS at hi; omega
  have h2 : j.toNat < 53 := by unfold MAP_COLUMNS at hj; omega
  unfold get_tile
  rw [if_pos ⟨hi.1, hi.2, hj.1, hj.2⟩]
  rw [List.getD_eq_getElem _ _ (by simpa using h1)]
  simp [List.getElem?_eq_getElem, h2]

theorem initial_map_tile (i j : Int) (hi : 0 ≤ i ∧ i < MAP_ROWS)
    (hj : 0 ≤ j ∧ j < MAP_COLUMNS) : get_tile initial_map i j = some (static_tile i j) := by
  rw [initial_map_table, get_tile_table (fun a b => static_tile (a : Int) (b : Int)) i j hi hj]
  simp only [Int.toNat_of_nonneg hi.1, Int.toNat_of_nonneg hj.1]

/-- C14: after `snek_map_init`, every cell (i, j) with 0 <= i < MAP_ROWS and
0 <= j < MAP_COLUMNS holds GREY (Wall) when i is 0, 1 or MAP_ROWS-1 or j is 0
or MAP_COLUMNS-1, and BLACK (Empty) otherwise; so the wall is two rows deep at
the top and one row at the bottom. -/
theorem C14_static_wall_layout (s : snek) (i j : Int) (hi : 0 ≤ i ∧ i < MAP_ROWS)
    (hj : 0 ≤ j ∧ j < MAP_COLUMNS) :
    (get_tile (snek_map_init s).map i j = some GREY ↔
      (i = 0 ∨ i = 1 ∨ i = MAP_ROWS - 1 ∨ j = 0 ∨ j = MAP_COLUMNS - 1)) ∧
    (get_tile (snek_map_init s).map i j = some BLACK ↔
      ¬ (i = 0 ∨ i = 1 ∨ i = MAP_ROWS - 1 ∨ j = 0 ∨ j = MAP_COLUMNS - 1)) ∧
    get_tile (snek_map_init s).map i j = some (static_tile i j) := by
  have hm : (snek_map_init s).map = initial_map := by cases s; rfl
  rw [hm, initial_map_tile i j hi hj]
  unfold static_tile
  by_cases hw : i = 0 ∨ i = 1 ∨ i = MAP_ROWS - 1 ∨ j = 0 ∨ j = MAP_COLUMNS - 1
  · simp [hw]
  · simp [hw]

/-- Row 1 is wall, row 2 is not (away from the side columns), row 28 is not,
row 29 is. -/
theorem C14_static_wall_layout_witness :
    get_tile (snek_map_init scenario2).map 1 5 = some GREY ∧
    get_tile (snek_map_init scenario2).map 2 5 = some BLACK ∧
    get_tile (snek_map_init scenario2).map 28 5 = some BLACK ∧
    get_tile (snek_map_init scenario2).map 29 5 = some GREY :=
  ⟨(C14_static_wall_layout scenario2 1 5 (by decide) (by decide)).2.2,
    (C14_static_wall_layout scenario2 2 5 (by decide) (by decide)).2.2,
    (C14_static_wall_layout scenario2 28 5 (by decide) (by decide)).2.2,
    (C14_static_wall_layout scenario2 29 5 (by decide) (by decide)).2.2⟩

theorem get_tile_in_grid (m : List (List Int)) (i j : Int)
    (hi : 0 ≤ i ∧ i < MAP_ROWS) (hj : 0 ≤ j ∧ j < MAP_COLUMNS) :
    get_tile m i j = (m[i.toNat]?.getD [])[j.toNat]? := by
  unfold get_tile
  rw [if_pos ⟨hi.1, hi.2, hj.1, hj.2⟩]
  simp [List.getD_eq_getElem?_getD]

/-- Reading a cell after the assignment `snek->map[a][b] = v`. -/
theorem get_tile_set_tile (m : List (List Int)) (a b v i j : Int)
    (hi : 0 ≤ i ∧ i < MAP_ROWS) (hj : 0 ≤ j ∧ j < MAP_COLUMNS)
    (hs : (get_tile m i j).isSome) :
    get_tile (set_tile m a b v) i j = if a = i ∧ b = j then some v else get_tile m i j := by
  rw [get_tile_in_grid _ i j hi hj] at hs ⊢
  rw [get_tile_in_grid _ i j hi hj]
  unfold set_tile
  by_cases hab : 0 ≤ a ∧ a < MAP_ROWS ∧ 0 ≤ b ∧ b < MAP_COLUMNS
  · rw [if_pos hab]
    simp only [List.getD_eq_getElem?_getD]
    have hlen : i.toNat < m.length := by
      by_contra hc
      have hn : m[i.toNat]? = none := List.getElem?_eq_none (by omega)
      rw [hn] at hs
      simp at hs
    have hjl : j.toNat < (m[i.toNat]?.getD []).length := by
      by_contra hc
      have hn : (m[i.toNat]?.getD [])[j.toNat]? = none := List.getElem?_eq_none (by omega)
      rw [hn] at hs
      simp at hs
    by_cases hai : a = i
    · subst hai
      rw [List.getElem?_set_self hlen]
      simp only [Option.getD_some, true_and]
      by_cases hbj : b = j
      · subst hbj
        rw [if_pos rfl, List.getElem?_set_self hjl]
      · have hne : b.toNat ≠ j.toNat := by omega
        rw [if_neg hbj, List.getElem?_set_ne hne]
    · have hne : a.toNat ≠ i.toNat := by omega
      rw [if_neg (fun hc => hai hc.1), List.getElem?_set_ne hne]
  · rw [if_neg hab]
    have hne : ¬ (a = i ∧ b = j) := by
      rintro ⟨rfl, rfl⟩
      exact hab ⟨hi.1, hi.2, hj.1, hj.2⟩
    rw [if_neg hne]

theorem set_tile_some (m : List (List Int)) (a b v i j : Int)
    (hi : 0 ≤ i ∧ i < MAP_ROWS) (hj : 0 ≤ j ∧ j < MAP_COLUMNS)
    (hs : (get_tile m i j).isSome) : (get_tile (set_tile m a b v) i j).isSome := by
  rw [get_tile_set_tile m a b v i j hi hj hs]
  split
  · rfl
  · exact hs

/-- Reading a cell after the loop of lines 737-740 has stamped a chain. -/
theorem get_tile_stamp_chain (i j : Int) (hi : 0 ≤ i ∧ i < MAP_ROWS)
    (hj : 0 ≤ j ∧ j < MAP_COLUMNS) :
    ∀ (chain : List snek_entity) (m : List (List Int)), (get_tile m i j).isSome →
      get_tile (chain.foldl (fun m temp => set_tile m temp.row temp.column GREEN) m) i j =
        if (⟨i, j⟩ : snek_entity) ∈ chain then some GREEN else get_tile m i j := by
  intro chain
  induction chain with
  | nil => intro m _; simp
  | cons t ts ih =>
    intro m hs
    rw [List.foldl_cons, ih _ (set_tile_some m _ _ _ i j hi hj hs),
      get_tile_set_tile m _ _ _ i j hi hj hs]
    by_cases hin : (⟨i, j⟩ : snek_entity) ∈ ts
    · simp [hin]
    · by_cases ht : t.row = i ∧ t.column = j
      · have : t = ⟨i, j⟩ := by cases t; simp_all
        simp [hin, ht, this]
      · have : (⟨i, j⟩ : snek_entity) ≠ t := by
          intro hc; apply ht; rw [← hc]; exact ⟨rfl, rfl⟩
        simp [hin, ht, this]

/-- Reading a cell after lines 735-742. -/
theorem get_tile_stamp_entities (s : snek) (i j : Int) (hi : 0 ≤ i ∧ i < MAP_ROWS)
    (hj : 0 ≤ j ∧ j < MAP_COLUMNS) (hs : (get_tile s.map i j).isSome) :
    get_tile (stamp_entities s).map i j =
      if s.food_row = i ∧ s.food_column = j then some RED
      else if s.head.head? = some ⟨i, j⟩ then some HEAD
      else if (⟨i, j⟩ : snek_entity) ∈ s.head then some GREEN
      else get_tile s.map i j := by
  have h1 := get_tile_stamp_chain i j hi hj s.head s.map hs
  have hs1 : (get_tile (s.head.foldl
      (fun m temp => set_tile m temp.row temp.column GREEN) s.map) i j).isSome := by
    rw [h1]; split
    · rfl
    · exact hs
  unfold stamp_entities
  simp only []
  cases hc : s.head with
  | nil =>
    rw [hc] at h1 hs1
    rw [get_tile_set_tile _ _ _ _ i j hi hj hs1, h1]
    simp
  | cons h rest =>
    rw [hc] at h1 hs1
    simp only []
    rw [get_tile_set_tile _ _ _ _ i j hi hj (set_tile_some _ _ _ _ i j hi hj hs1),
      get_tile_set_tile _ _ _ _ i j hi hj hs1, h1]
    have hh : (h.row = i ∧ h.column = j) ↔ h = ⟨i, j⟩ := by
      cases h; simp
    simp only [List.head?_cons, Option.some.injEq, hh]

/-- A successful tick ends in the stamping of lines 735-742, run on the map
`snek_map_init` left and on a chain whose head is on no other node. -/
theorem update_success_stamp (s s' : snek) (w w' : World)
    (hu : snek_update s w = some (.success, s', w')) :
    ∃ st, s' = stamp_entities st ∧ st.map = initial_map ∧ head_hits_body st.head = false := by
  obtain ⟨h, rest, w2, -, -, -, -, ht⟩ := update_success_state s s' w w' hu
  have hnc : head_hits_body ({ snek_map_init s with head := s'.head } : snek).head = false := by
    rw [Bool.eq_false_iff]
    intro hc
    have := (update_tail_collision
      (decide (moved_head s.direction h = ⟨s.food_row, s.food_column⟩))
      { snek_map_init s with head := s'.head } w2).2 hc
    rw [ht] at this
    simp at this
  obtain ⟨h1, h2⟩ := update_tail_success _ _ _ _ _ ht
  cases hfc : decide (moved_head s.direction h = ⟨s.food_row, s.food_column⟩) with
  | true =>
    obtain ⟨-, k2⟩ := h1 hfc
    have hf := food_spawn_fields { snek_map_init s with head := s'.head } w2
    refine ⟨_, k2, ?_, ?_⟩
    · show (snek_food_entity_spawn _ w2).2.1.map = initial_map
      rw [hf.2.2.2.2.1]
      cases s; rfl
    · show head_hits_body (snek_food_entity_spawn _ w2).2.1.head = false
      rw [hf.1]
      exact hnc
  | false =>
    obtain ⟨k1, -⟩ := h2 hfc
    refine ⟨_, k1, ?_, hnc⟩
    cases s; rfl

/-- The map after a successful tick, cell by cell. -/
theorem update_success_tiles (s s' : snek) (w w' : World)
    (hu : snek_update s w = some (.success, s', w')) (i j : Int)
    (hi : 0 ≤ i ∧ i < MAP_ROWS) (hj : 0 ≤ j ∧ j < MAP_COLUMNS) :
    get_tile s'.map i j = some (derived_tile s'.head s'.food_row s'.food_column i j) := by
  obtain ⟨st, rfl, hmap, -⟩ := update_success_stamp s s' w w' hu
  have hs : (get_tile st.map i j).isSome := by
    rw [hmap, initial_map_tile i j hi hj]; rfl
  rw [get_tile_stamp_entities st i j hi hj hs, (stamp_fields st).1,
    (stamp_fields st).2.2.2.2.1, (stamp_fields st).2.2.2.2.2.1, hmap,
    initial_map_tile i j hi hj]
  unfold derived_tile
  split_ifs <;> rfl

/-- C15: after every tick that returns success, each cell of the grid holds
the label the stamps of lines 735-742 leave on it: Food if it is the food
position, else Head if it is the position of the chain's head, else Body if it
is the position of another chain node, else its static label (Wall on the
border, Empty elsewhere).  So the food tile is Food, no Body stamp replaces a
Head or Food stamp, and when the food is on no chain node this is the claim:
the head tile is Head and every other chain position is Body.  The claim
fails where the placement defect of line 206 has put the food on the snake:
in scenario 2 with `rand()` answering 13, 26, 13, 26 the tick returns success
with the new food on the new head (15,27), and the tile there is RED (Food),
not HEAD. -/
theorem C15_tile_map_derivation (s s' : snek) (w w' : World)
    (hu : snek_update s w = some (.success, s', w')) :
    (∀ i j : Int, 0 ≤ i ∧ i < MAP_ROWS → 0 ≤ j ∧ j < MAP_COLUMNS →
      get_tile s'.map i j = some (derived_tile s'.head s'.food_row s'.food_column i j)) ∧
    ((0 ≤ s'.food_row ∧ s'.food_row < MAP_ROWS) →
      (0 ≤ s'.food_column ∧ s'.food_column < MAP_COLUMNS) →
      get_tile s'.map s'.food_row s'.food_column = some RED) ∧
    (∃ h rest, s'.head = h :: rest ∧
      ((0 ≤ h.row ∧ h.row < MAP_ROWS) → (0 ≤ h.column ∧ h.column < MAP_COLUMNS) →
        ¬ (s'.food_row = h.row ∧ s'.food_column = h.column) →
        get_tile s'.map h.row h.column = some HEAD) ∧
      (∀ t ∈ rest, (0 ≤ t.row ∧ t.row < MAP_ROWS) → (0 ≤ t.column ∧ t.column < MAP_COLUMNS) →
        ¬ (s'.food_row = t.row ∧ s'.food_column = t.column) →
        get_tile s'.map t.row t.column = some GREEN)) ∧
    (∀ i j : Int, 0 ≤ i ∧ i < MAP_ROWS → 0 ≤ j ∧ j < MAP_COLUMNS →
      ¬ (s'.food_row = i ∧ s'.food_column = j) → (⟨i, j⟩ : snek_entity) ∉ s'.head →
      get_tile s'.map i j = some (static_tile i j)) ∧
    ((⟨s'.food_row, s'.food_column⟩ : snek_entity) ∉ s'.head →
      ∃ h rest, s'.head = h :: rest ∧
        ((0 ≤ h.row ∧ h.row < MAP_ROWS) → (0 ≤ h.column ∧ h.column < MAP_COLUMNS) →
          get_tile s'.map h.row h.column = some HEAD) ∧
        (∀ t ∈ rest, (0 ≤ t.row ∧ t.row < MAP_ROWS) →
          (0 ≤ t.column ∧ t.column < MAP_COLUMNS) →
          get_tile s'.map t.row t.column = some GREEN)) ∧
    (snek_update scenario2 ⟨[], [13, 26, 13, 26], [], []⟩ =
        some (.success, scenario2_food_on_head, quiet_world) ∧
      scenario2_food_on_head.head.head? = some ⟨15, 27⟩ ∧
      scenario2_food_on_head.food_row = 15 ∧ scenario2_food_on_head.food_column = 27 ∧
      get_tile scenario2_food_on_head.map 15 27 = some RED ∧
      RED ≠ HEAD) := by
  have key := update_success_tiles s s' w w' hu
  obtain ⟨st, hst, -, hnc⟩ := update_success_stamp s s' w w' hu
  obtain ⟨h, rest, _, -, -, -, hh, -⟩ := update_success_state s s' w w' hu
  generalize moved_head s.direction h = p at hh
  generalize (if p = ⟨s.food_row, s.food_column⟩ then h :: rest
    else (h :: rest).dropLast) = tl at hh
  have hnot : p ∉ tl := by
    intro hc
    have := (head_hits_body_iff p tl).2 hc
    rw [← hh, hst, (stamp_fields st).1, hnc] at this
    simp at this
  have hhead : ∀ hi : 0 ≤ p.row ∧ p.row < MAP_ROWS, ∀ hj : 0 ≤ p.column ∧ p.column < MAP_COLUMNS,
      ¬ (s'.food_row = p.row ∧ s'.food_column = p.column) →
      get_tile s'.map p.row p.column = some HEAD := by
    intro hi hj hf
    rw [key _ _ hi hj, hh]
    simp [derived_tile, hf]
  have hbody : ∀ t ∈ tl, (0 ≤ t.row ∧ t.row < MAP_ROWS) →
      (0 ≤ t.column ∧ t.column < MAP_COLUMNS) →
      ¬ (s'.food_row = t.row ∧ s'.food_column = t.column) →
      get_tile s'.map t.row t.column = some GREEN := by
    intro t ht hi hj hf
    have hne : t ≠ p := fun hc => hnot (hc ▸ ht)
    rw [key _ _ hi hj, hh]
    have hne' : ¬ (p = ⟨t.row, t.column⟩) := fun hc => hne (by rw [hc])
    simp [derived_tile, hf, hne', ht]
  have hbad := update_success_tiles scenario2 scenario2_food_on_head
    ⟨[], [13, 26, 13, 26], [], []⟩ quiet_world rfl 15 27 (by decide) (by decide)
  refine ⟨key, ?_, ⟨p, tl, hh, hhead, hbody⟩, ?_, ?_,
    ⟨rfl, rfl, rfl, rfl, by rw [hbad]; rfl, by decide⟩⟩
  · intro hi hj
    rw [key _ _ hi hj]
    simp [derived_tile]
  · intro i j hi hj hf hn
    rw [key _ _ hi hj]
    have hn' : ¬ (s'.head.head? = some ⟨i, j⟩) := by
      intro hc
      exact hn (List.mem_of_mem_head? hc)
    simp [derived_tile, hf, hn, hn']
  · intro hfood
    rw [hh] at hfood
    refine ⟨p, tl, hh, ?_, ?_⟩
    · intro hi hj
      apply hhead hi hj
      rintro ⟨h1, h2⟩
      apply hfood
      rw [h1, h2]
      exact List.mem_cons_self _ _
    · intro t ht hi hj
      apply hbody t ht hi hj
      rintro ⟨h1, h2⟩
      apply hfood
      rw [h1, h2]
      exact List.mem_cons_of_mem _ ht

/-- Scenario 2 with `rand()` answering 3 and 4: the head (15,27) is Head, the
old head (15,26) is Body, the food (5,5) is Food. -/
theorem C15_tile_map_derivation_witness :
    snek_update scenario2 ⟨[], [3, 4], [], []⟩ = some (.success, scenario2_after, quiet_world) ∧
    get_tile scenario2_after.map 15 27 = some HEAD ∧
    get_tile scenario2_after.map 15 26 = some GREEN ∧
    get_tile scenario2_after.map 5 5 = some RED ∧
    get_tile scenario2_after.map 1 5 = some GREY ∧
    get_tile scenario2_after.map 6 5 = some BLACK :=
  ⟨rfl,
    (C15_tile_map_derivation scenario2 scenario2_after ⟨[], [3, 4], [], []⟩ quiet_world rfl).1
      15 27 (by decide) (by decide),
    (C15_tile_map_derivation scenario2 scenario2_after ⟨[], [3, 4], [], []⟩ quiet_world rfl).1
      15 26 (by decide) (by decide),
    (C15_tile_map_derivation scenario2 scenario2_after ⟨[], [3, 4], [], []⟩ quiet_world rfl).1
      5 5 (by decide) (by decide),
    (C15_tile_map_derivation scenario2 scenario2_after ⟨[], [3, 4], [], []⟩ quiet_world rfl).1
      1 5 (by decide) (by decide),
    (C15_tile_map_derivation scenario2 scenario2_after ⟨[], [3, 4], [], []⟩ quiet_world rfl).1
      6 5 (by decide) (by decide)⟩

theorem map_init_difficulty (s : snek) : (snek_map_init s).difficulty = s.difficulty := by
  cases s; rfl
theorem map_init_last_time (s : snek) : (snek_map_init s).last_time = s.last_time := by
  cases s; rfl
theorem map_init_current_time (s : snek) :
    (snek_map_init s).current_time = s.current_time := by
  cases s; rfl
theorem map_init_event (s : snek) : (snek_map_init s).event = s.event := by
  cases s; rfl

/-- The fields `snek_update` never writes. -/
theorem update_frame (s s' : snek) (w w' : World) (e : update_exit)
    (hu : snek_update s w = some (e, s', w')) :
    s'.direction = s.direction ∧ s'.status = s.status ∧ s'.difficulty = s.difficulty ∧
    s'.last_time = s.last_time ∧ s'.current_time = s.current_time ∧ s'.event = s.event := by
  have hinit : (snek_map_init s).direction = s.direction ∧
      (snek_map_init s).status = s.status ∧ (snek_map_init s).difficulty = s.difficulty ∧
      (snek_map_init s).last_time = s.last_time ∧
      (snek_map_init s).current_time = s.current_time ∧
      (snek_map_init s).event = s.event :=
    ⟨map_init_direction s, map_init_status s, map_init_difficulty s, map_init_last_time s,
      map_init_current_time s, map_init_event s⟩
  rcases update_inv s s' w w' e hu with ⟨_, _, h3, _⟩ | ⟨h, rest, hs, hc⟩
  · rw [h3]; exact ⟨rfl, rfl, rfl, rfl, rfl, rfl⟩
  · rcases hc with ⟨_, _, h3, _⟩ | ⟨r, c, hsw, hc⟩
    · rw [h3]; exact hinit
    · rcases hc with ⟨_, h3⟩ | ⟨w2, hw2⟩
      · rw [h3]; exact hinit
      · have hf := update_tail_fields (decide (r = s.food_row ∧ c = s.food_column))
          { snek_map_init s with head := ⟨r, c⟩ ::
            (if r = s.food_row ∧ c = s.food_column then h :: rest
             else (h :: rest).dropLast) } w2
        rw [← hw2] at hf
        simp only [] at hf
        obtain ⟨-, f1, f2, f3, f4, f5, f6⟩ := hf
        rw [f1, f2, f3, f4, f5, f6]
        exact hinit

theorem malloc_events (w : World) : (malloc w).2.events = w.events := rfl
theorem rand_events (w : World) : (rand w).2.events = w.events := rfl
theorem ticks_events (w : World) : (SDL_GetTicks w).2.events = w.events := rfl

theorem entity_new_events (r c : Int) (w : World) :
    (snek_entity_new r c w).2.events = w.events := by
  unfold snek_entity_new
  rcases hm : malloc w with ⟨b, w1⟩
  have := malloc_events w
  rw [hm] at this
  cases b <;> exact this

theorem entity_append_events (e : List snek_entity) (r c : Int) (w : World) :
    (snek_entity_append e r c w).2.2.events = w.events := by
  unfold snek_entity_append
  cases e with
  | nil => rfl
  | cons a as =>
    simp only []
    have := entity_new_events r c w
    rcases hn : snek_entity_new r c w with ⟨n, w1⟩
    rw [hn] at this
    cases n <;> exact this

theorem copy_nodes_events (fc : Bool) :
    ∀ (old acc : List snek_entity) (w : World),
      (copy_nodes fc old acc w).2.events = w.events := by
  intro old
  induction old with
  | nil => intro acc w; rfl
  | cons t next ih =>
    intro acc w
    unfold copy_nodes
    split
    · rfl
    · have ha := entity_append_events acc t.row t.column w
      rcases hap : snek_entity_append acc t.row t.column w with ⟨b, e, w1⟩
      rw [hap] at ha
      cases b with
      | false => exact ha
      | true =>
        simp only []
        rw [ih e w1]
        exact ha

theorem spawn_pass_events (temp : List snek_entity) (t : Int) (s : snek) (w : World) :
    (spawn_pass temp t s w).2.2.2.events = w.events := rfl

theorem food_spawn_events (s : snek) (w : World) :
    (snek_food_entity_spawn s w).2.2.events = w.events := by
  unfold snek_food_entity_spawn
  simp only []
  have h1 := spawn_pass_events s.head (SDL_GetTicks w).1 s (SDL_GetTicks w).2
  rcases hp : spawn_pass s.head (SDL_GetTicks w).1 s (SDL_GetTicks w).2 with ⟨b1, b2, s1, w1⟩
  rw [hp] at h1
  have h2 := spawn_pass_events [] (SDL_GetTicks w).1 s1 w1
  rcases hq : spawn_pass [] (SDL_GetTicks w).1 s1 w1 with ⟨c1, c2, s2, w2⟩
  rw [hq] at h2
  simp only [] at h1 h2
  rw [ticks_events] at h1
  cases b1 <;> cases b2 <;> cases c1 <;> simp [hq, h1, h2]

theorem update_tail_events (fc : Bool) (s : snek) (w : World) :
    (update_tail fc s w).2.2.events = w.events := by
  unfold update_tail
  have hf := food_spawn_events s w
  rcases hs : snek_food_entity_spawn s w with ⟨b, s1, w1⟩
  rw [hs] at hf
  split
  · rfl
  · split
    · cases b <;> exact hf
    · rfl

/-- The tick takes no event from the queue. -/
theorem update_events (s s' : snek) (w w' : World) (e : update_exit)
    (hu : snek_update s w = some (e, s', w')) : w'.events = w.events := by
  unfold snek_update at hu
  cases hs : s.head with
  | nil =>
    rw [hs] at hu
    simp only [Option.some.injEq, Prod.mk.injEq] at hu
    rw [← hu.2.2]
  | cons h rest =>
    rw [hs] at hu
    simp only [] at hu
    cases hsw : switch_direction (snek_map_init s).direction h with
    | unassigned => rw [hsw] at hu; simp at hu
    | out_of_bounds =>
      rw [hsw] at hu
      simp only [Option.some.injEq, Prod.mk.injEq] at hu
      rw [← hu.2.2]
    | moved r c =>
      rw [hsw] at hu
      simp only [] at hu
      have hn := entity_new_events r c w
      rcases hnew : snek_entity_new r c w with ⟨n, w1⟩
      rw [hnew] at hu hn
      simp only [] at hn
      cases n with
      | nil =>
        simp only [Option.some.injEq, Prod.mk.injEq] at hu
        rw [← hu.2.2, hn]
      | cons a as =>
        simp only [] at hu
        have hc := copy_nodes_events (decide (r = (snek_map_init s).food_row ∧
          c = (snek_map_init s).food_column)) (snek_map_init s).head (a :: as) w1
        rcases hcopy : copy_nodes (decide (r = (snek_map_init s).food_row ∧
          c = (snek_map_init s).food_column)) (snek_map_init s).head (a :: as) w1
          with ⟨o, w2⟩
        rw [hcopy] at hu hc
        simp only [] at hc
        cases o with
        | none =>
          simp only [Option.some.injEq, Prod.mk.injEq] at hu
          rw [← hu.2.2, hc, hn]
        | some e1 =>
          simp only [Option.some.injEq] at hu
          have ht := update_tail_events (decide (r = (snek_map_init s).food_row ∧
            c = (snek_map_init s).food_column)) { snek_map_init s with head := e1 } w2
          rw [hu] at ht
          simp only [] at ht
          rw [ht, hc, hn]

theorem tick_gate_closed (s : snek) (w : World)
    (hg : ¬ ((SDL_GetTicks w).1 > wrap_int32 (s.last_time + s.difficulty))) :
    tick_gate s w = some ({ s with current_time := (SDL_GetTicks w).1 }, (SDL_GetTicks w).2) := by
  simp only [tick_gate, hg, if_false]

theorem tick_gate_open (s s2 : snek) (w w2 : World) (e : update_exit)
    (hg : (SDL_GetTicks w).1 > wrap_int32 (s.last_time + s.difficulty))
    (hu : snek_update { s with current_time := (SDL_GetTicks w).1 } (SDL_GetTicks w).2 =
      some (e, s2, w2)) :
    tick_gate s w =
      some ({ (if e.result = false then { s2 with status := GAME_OVER } else s2) with
        last_time := (SDL_GetTicks w).1 }, w2) := by
  have hc := (update_frame _ s2 _ w2 e hu).2.2.2.2.1
  simp only [] at hc
  simp only [tick_gate, hg, if_true, hu]
  cases e.result <;> simp [hc]

/-- What `snek_loop` does from a status none of its blocks tests for. -/
theorem snek_loop_other (s : snek) (w : World) (h0 : s.status ≠ START_MENU)
    (h1 : s.status ≠ MID_GAME) (h2 : s.status ≠ GAME_OVER) (h4 : s.status ≠ PAUSE) :
    snek_loop s w = some (s, w) := by
  unfold snek_loop
  simp only [if_neg h0, if_neg h1, if_neg h2, if_neg h4, Bool.false_eq_true, if_false]

theorem snek_loop_pause (s : snek) (w : World) (hst : s.status = PAUSE) :
    snek_loop s w = some (loop_pause s w).2 := by
  have h0 : s.status ≠ START_MENU := by rw [hst]; decide
  have h1 : s.status ≠ MID_GAME := by rw [hst]; decide
  have h2 : s.status ≠ GAME_OVER := by rw [hst]; decide
  unfold snek_loop
  simp only [if_neg h0, if_neg h1, if_neg h2, if_pos hst, Bool.false_eq_true, if_false]

theorem snek_loop_game_over (s : snek) (w : World) (hst : s.status = GAME_OVER) :
    snek_loop s w =
      some (if (loop_game_over s w).1 = true then (loop_game_over s w).2
        else if (loop_game_over s w).2.1.status = PAUSE then
          (loop_pause (loop_game_over s w).2.1 (loop_game_over s w).2.2).2
        else (loop_game_over s w).2) := by
  have h0 : s.status ≠ START_MENU := by rw [hst]; decide
  have h1 : s.status ≠ MID_GAME := by rw [hst]; decide
  unfold snek_loop
  simp only [if_neg h0, if_neg h1, if_pos hst, Bool.false_eq_true, if_false]
  split_ifs <;> rfl

/-- After the Playing block the later blocks run on the status it left. -/
theorem snek_loop_mid_game (s : snek) (w : World) (hst : s.status = MID_GAME) :
    snek_loop s w =
      match loop_mid_game s w with
      | none => none
      | some (true, s2, w2) => some (s2, w2)
      | some (false, s2, w2) =>
        if s2.status = START_MENU ∨ s2.status = MID_GAME then some (s2, w2)
        else snek_loop s2 w2 := by
  have h0 : s.status ≠ START_MENU := by rw [hst]; decide
  rw [snek_loop]
  simp only [if_neg h0, if_pos hst, Bool.false_eq_true, if_false]
  rcases hm : loop_mid_game s w with _ | ⟨b, s2, w2⟩
  · rfl
  · cases b with
    | true => rfl
    | false =>
      simp only []
      by_cases k0 : s2.status = START_MENU
      · have k2 : s2.status ≠ GAME_OVER := by rw [k0]; decide
        have k4 : s2.status ≠ PAUSE := by rw [k0]; decide
        rw [if_pos (Or.inl k0)]
        simp only [if_neg k2, Bool.false_eq_true, if_false, if_neg k4]
      · by_cases k1 : s2.status = MID_GAME
        · have k2 : s2.status ≠ GAME_OVER := by rw [k1]; decide
          have k4 : s2.status ≠ PAUSE := by rw [k1]; decide
          rw [if_pos (Or.inr k1)]
          simp only [if_neg k2, Bool.false_eq_true, if_false, if_neg k4]
        · have k01 : ¬ (s2.status = START_MENU ∨ s2.status = MID_GAME) := by
            rintro (h | h)
            · exact k0 h
            · exact k1 h
          rw [if_neg k01]
          conv_rhs => rw [snek_loop]
          simp only [if_neg k0, if_neg k1, Bool.false_eq_true, if_false]

/-- After the menu block the later blocks run on the status it left. -/
theorem snek_loop_start_menu (s : snek) (w : World) (hst : s.status = START_MENU) :
    snek_loop s w =
      if (loop_start_menu s w).1 = true then some (loop_start_menu s w).2
      else if (loop_start_menu s w).2.1.status = START_MENU then some (loop_start_menu s w).2
      else snek_loop (loop_start_menu s w).2.1 (loop_start_menu s w).2.2 := by
  rw [snek_loop]
  simp only [if_pos hst]
  by_cases hb : (loop_start_menu s w).1 = true
  · simp only [hb, if_true]
  · simp only [hb, if_false]
    by_cases k0 : (loop_start_menu s w).2.1.status = START_MENU
    · have k1 : (loop_start_menu s w).2.1.status ≠ MID_GAME := by rw [k0]; decide
      have k2 : (loop_start_menu s w).2.1.status ≠ GAME_OVER := by rw [k0]; decide
      have k4 : (loop_start_menu s w).2.1.status ≠ PAUSE := by rw [k0]; decide
      simp only [if_pos k0, if_neg k1, if_neg k2, if_neg k4, Bool.false_eq_true, if_false]
    · rw [if_neg k0]
      conv_rhs => rw [snek_loop]
      simp only [if_neg k0, Bool.false_eq_true, if_false]

/-- The GAME_OVER block on a key press (lines 920-927). -/
theorem loop_game_over_key (s : snek) (w : World) (e : SDL_Event) (es : List SDL_Event)
    (hw : w.events = e :: es) (hk : e.type = SDL_KEYDOWN) :
    loop_game_over s w =
      (false,
        { snek_map_init (snek_food_entity_spawn
            { s with event := e,
                     head := (snek_entity_new (MAP_ROWS / 2) (MAP_COLUMNS / 2)
                       { w with events := es }).1 }
            (snek_entity_new (MAP_ROWS / 2) (MAP_COLUMNS / 2) { w with events := es }).2).2.1
          with score := 1, status := START_MENU },
        (snek_food_entity_spawn
            { s with event := e,
                     head := (snek_entity_new (MAP_ROWS / 2) (MAP_COLUMNS / 2)
                       { w with events := es }).1 }
            (snek_entity_new (MAP_ROWS / 2) (MAP_COLUMNS / 2)
              { w with events := es }).2).2.2) := by
  have hq : ¬ (e.type = SDL_QUIT) := by rw [hk]; decide
  unfold loop_game_over SDL_PollEvent
  rw [hw]
  simp only []
  rw [if_neg hq, if_pos hk]

/-- C17, as stated, fails: the iteration starts in GAME_OVER with a key press
pending, but `malloc` returns `NULL`; line 922 stores that `NULL` in
`snek->head` unchecked, and the iteration ends in START_MENU with score 1 and
an empty chain instead of the single node (15,26). -/
theorem C17_counterexample :
    ({ example_state [⟨2, 26⟩, ⟨3, 26⟩] UP 5 5 with status := GAME_OVER, score := 2 } :
      snek).status = GAME_OVER ∧
    snek_loop { example_state [⟨2, 26⟩, ⟨3, 26⟩] UP 5 5 with status := GAME_OVER, score := 2 }
        ⟨[false], [3, 4], [], [⟨SDL_KEYDOWN, SDLK_s⟩]⟩ =
      some ({ example_state [] UP 5 5 with
          status := START_MENU, score := 1, event := ⟨SDL_KEYDOWN, SDLK_s⟩ }, quiet_world) ∧
    ({ example_state [] UP 5 5 with
        status := START_MENU, score := 1, event := ⟨SDL_KEYDOWN, SDLK_s⟩ } : snek).head ≠
      [⟨15, 26⟩] := by
  refine ⟨rfl, rfl, by decide⟩

/-- C17, amended: for every loop iteration that starts in GAME_OVER and whose
first pending event is a key press (any key), with the allocation of the new
node succeeding, at the end of the iteration the chain is the single node
(MAP_ROWS/2, MAP_COLUMNS/2) = (15, 26), the score is 1, the status is
START_MENU, and the difficulty and the direction are unchanged; the map is
the wall layout and one event has been taken. -/
theorem C17_restart (s : snek) (w : World) (e : SDL_Event) (es : List SDL_Event)
    (hst : s.status = GAME_OVER) (hw : w.events = e :: es) (hk : e.type = SDL_KEYDOWN)
    (ha : mallocs_succeed 1 w) :
    ∃ s' w', snek_loop s w = some (s', w') ∧
      s'.head = [⟨MAP_ROWS / 2, MAP_COLUMNS / 2⟩] ∧ s'.head = [⟨15, 26⟩] ∧ s'.score = 1 ∧
      s'.status = START_MENU ∧ s'.difficulty = s.difficulty ∧ s'.direction = s.direction ∧
      s'.map = initial_map ∧ w'.events = es := by
  have ha' : mallocs_succeed (0 + 1) { w with events := es } := ha
  obtain ⟨hn, -⟩ := entity_new_of_succeed (MAP_ROWS / 2) (MAP_COLUMNS / 2) ha'
  have hg := loop_game_over_key s w e es hw hk
  rw [hn] at hg
  simp only [] at hg
  have hf := food_spawn_fields
    { s with event := e, head := [⟨MAP_ROWS / 2, MAP_COLUMNS / 2⟩] }
    (malloc { w with events := es }).2
  have hev := food_spawn_events
    { s with event := e, head := [⟨MAP_ROWS / 2, MAP_COLUMNS / 2⟩] }
    (malloc { w with events := es }).2
  generalize snek_food_entity_spawn
    { s with event := e, head := [⟨MAP_ROWS / 2, MAP_COLUMNS / 2⟩] }
    (malloc { w with events := es }).2 = r at hg hf hev
  have h4 : ¬ (START_MENU = PAUSE) := by decide
  refine ⟨{ snek_map_init r.2.1 with score := 1, status := START_MENU }, r.2.2, ?_, ?_, ?_,
    rfl, rfl, ?_, ?_, ?_, ?_⟩
  · rw [snek_loop_game_over s w hst, hg]
    simp only [Bool.false_eq_true, if_false, h4]
  · show (snek_map_init r.2.1).head = _
    rw [map_init_head, hf.1]
  · show (snek_map_init r.2.1).head = _
    rw [map_init_head, hf.1]
    rfl
  · show (snek_map_init r.2.1).difficulty = _
    rw [map_init_difficulty, hf.2.2.2.2.2.1]
  · show (snek_map_init r.2.1).direction = _
    rw [map_init_direction, hf.2.2.1]
  · show (snek_map_init r.2.1).map = _
    cases r.2.1; rfl
  · rw [hev]; rfl

/-- Scenario 5 of the spec: restart from GAME_OVER on the key S, the food
going to (5,5). -/
theorem C17_restart_witness :
    ({ example_state [⟨2, 26⟩, ⟨3, 26⟩] UP 5 5 with status := GAME_OVER, score := 2 } :
      snek).status = GAME_OVER ∧
    mallocs_succeed 1 ⟨[true], [3, 4], [], [⟨SDL_KEYDOWN, SDLK_s⟩]⟩ ∧
    ∃ s' w', snek_loop
        { example_state [⟨2, 26⟩, ⟨3, 26⟩] UP 5 5 with status := GAME_OVER, score := 2 }
        ⟨[true], [3, 4], [], [⟨SDL_KEYDOWN, SDLK_s⟩]⟩ = some (s', w') ∧
      s'.head = [⟨MAP_ROWS / 2, MAP_COLUMNS / 2⟩] ∧ s'.head = [⟨15, 26⟩] ∧ s'.score = 1 ∧
      s'.status = START_MENU ∧ s'.difficulty = REGULAR ∧ s'.direction = UP ∧
      s'.map = initial_map ∧ w'.events = [] :=
  ⟨rfl, by decide,
    C17_restart
      { example_state [⟨2, 26⟩, ⟨3, 26⟩] UP 5 5 with status := GAME_OVER, score := 2 }
      ⟨[true], [3, 4], [], [⟨SDL_KEYDOWN, SDLK_s⟩]⟩ ⟨SDL_KEYDOWN, SDLK_s⟩ [] rfl rfl rfl
      (by decide)⟩

/-- The keys E, R and Q are no direction keys: `snek_input` ignores them. -/
theorem snek_input_other_key (s : snek) (hk : key_direction s.event.sym = none) :
    (snek_input s).2 = s := by
  unfold key_direction at hk
  unfold snek_input
  simp only []
  split_ifs at hk with h1 h2 h3 h4
  have h4' : ¬ (s.event.sym = SDLK_d ∨ s.event.sym = SDLK_RIGHT) := h4
  rw [if_neg h1, if_neg h2, if_neg h4', if_neg h3]

/-- All that `snek_input` can do to the struct. -/
theorem snek_input_cases (s : snek) :
    (snek_input s).2 = s ∨ (snek_input s).2 = { s with direction := UP } ∨
      (snek_input s).2 = { s with direction := DOWN } ∨
      (snek_input s).2 = { s with direction := LEFT } ∨
      (snek_input s).2 = { s with direction := RIGHT } := by
  unfold snek_input
  simp only []
  split_ifs <;> simp

theorem snek_input_fields (s : snek) :
    (snek_input s).2.event = s.event ∧ (snek_input s).2.head = s.head ∧
    (snek_input s).2.score = s.score ∧ (snek_input s).2.food_row = s.food_row ∧
    (snek_input s).2.food_column = s.food_column ∧ (snek_input s).2.map = s.map ∧
    (snek_input s).2.status = s.status ∧ (snek_input s).2.current_time = s.current_time ∧
    (snek_input s).2.last_time = s.last_time ∧ (snek_input s).2.difficulty = s.difficulty := by
  rcases snek_input_cases s with k | k | k | k | k <;> rw [k] <;>
    exact ⟨rfl, rfl, rfl, rfl, rfl, rfl, rfl, rfl, rfl, rfl⟩

theorem snek_input_valid (s : snek)
    (hd : s.direction = UP ∨ s.direction = DOWN ∨ s.direction = LEFT ∨ s.direction = RIGHT) :
    (snek_input s).2.direction = UP ∨ (snek_input s).2.direction = DOWN ∨
      (snek_input s).2.direction = LEFT ∨ (snek_input s).2.direction = RIGHT := by
  rcases snek_input_cases s with k | k | k | k | k <;> rw [k] <;> first | exact hd | simp

/-- The menu block on a key press (lines 838-861). -/
theorem loop_start_menu_key (s : snek) (w : World) (e : SDL_Event) (es : List SDL_Event)
    (hw : w.events = e :: es) (hk : e.type = SDL_KEYDOWN) :
    loop_start_menu s w =
      (false,
        (if e.sym = SDLK_e then
          { (snek_input { s with event := e }).2 with difficulty := EASY, status := START_MENU }
        else if e.sym = SDLK_r then
          { (snek_input { s with event := e }).2 with
            difficulty := REGULAR, status := START_MENU }
        else if e.sym = SDLK_q then
          { (snek_input { s with event := e }).2 with difficulty := HARD, status := START_MENU }
        else { (snek_input { s with event := e }).2 with status := MID_GAME }),
        { w with events := es }) := by
  have hq : ¬ (e.type = SDL_QUIT) := by rw [hk]; decide
  have hev : (snek_input { s with event := e }).2.event = e :=
    (snek_input_fields { s with event := e }).1
  unfold loop_start_menu SDL_PollEvent
  rw [hw]
  simp only []
  rw [if_neg hq, if_pos hk, hev]
  split_ifs <;> rfl

/-- C18: in an iteration that starts in START_MENU with a key press as first
pending event, the key E, R or Q sets the difficulty to EASY (100), REGULAR
(50) or HARD (30), changes nothing else but the stored event, and the
iteration ends in START_MENU with one event taken; any other key leaves the
difficulty alone, has `snek_input` applied, and the status with which the menu
block is left is MID_GAME. -/
theorem C18_menu_transitions (s : snek) (w : World) (e : SDL_Event) (es : List SDL_Event)
    (hst : s.status = START_MENU) (hw : w.events = e :: es) (hk : e.type = SDL_KEYDOWN) :
    (e.sym = SDLK_e →
      snek_loop s w = some ({ s with event := e, difficulty := EASY }, { w with events := es })) ∧
    (e.sym = SDLK_r →
      snek_loop s w =
        some ({ s with event := e, difficulty := REGULAR }, { w with events := es })) ∧
    (e.sym = SDLK_q →
      snek_loop s w = some ({ s with event := e, difficulty := HARD }, { w with events := es })) ∧
    (EASY = 100 ∧ REGULAR = 50 ∧ HARD = 30) ∧
    (e.sym ≠ SDLK_e → e.sym ≠ SDLK_r → e.sym ≠ SDLK_q →
      loop_start_menu s w =
        (false, { (snek_input { s with event := e }).2 with status := MID_GAME },
          { w with events := es }) ∧
      (loop_start_menu s w).2.1.status = MID_GAME ∧
      (loop_start_menu s w).2.1.difficulty = s.difficulty) := by
  have hm := loop_start_menu_key s w e es hw hk
  have hin : ∀ k : Int, e.sym = k → key_direction k = none →
      (snek_input { s with event := e }).2 = { s with event := e } := by
    intro k h1 h2
    exact snek_input_other_key { s with event := e } (by rw [← h2]; exact congrArg _ h1)
  have hloop : ∀ d : Int,
      loop_start_menu s w =
        (false, { s with event := e, difficulty := d, status := START_MENU },
          { w with events := es }) →
      snek_loop s w = some ({ s with event := e, difficulty := d }, { w with events := es }) := by
    intro d h
    rw [snek_loop_start_menu s w hst, h]
    simp only [Bool.false_eq_true, if_false, if_true]
    rw [← hst]
  refine ⟨?_, ?_, ?_, by decide, ?_⟩
  · intro he
    apply hloop
    rw [hm, if_pos he, hin SDLK_e he (by decide)]
  · intro he
    have h1 : e.sym ≠ SDLK_e := by rw [he]; decide
    apply hloop
    rw [hm, if_neg h1, if_pos he, hin SDLK_r he (by decide)]
  · intro he
    have h1 : e.sym ≠ SDLK_e := by rw [he]; decide
    have h2 : e.sym ≠ SDLK_r := by rw [he]; decide
    apply hloop
    rw [hm, if_neg h1, if_neg h2, if_pos he, hin SDLK_q he (by decide)]
  · intro h1 h2 h3
    rw [hm, if_neg h1, if_neg h2, if_neg h3]
    exact ⟨rfl, rfl, (snek_input_fields { s with event := e }).2.2.2.2.2.2.2.2.2⟩

/-- In the menu the key Q selects HARD and the iteration stays in the menu;
the key D leaves the menu for MID_GAME heading Right. -/
theorem C18_menu_transitions_witness :
    ({ example_state [⟨15, 26⟩] UP 5 5 with status := START_MENU } : snek).status =
      START_MENU ∧
    snek_loop { example_state [⟨15, 26⟩] UP 5 5 with status := START_MENU }
        ⟨[], [], [], [⟨SDL_KEYDOWN, SDLK_q⟩]⟩ =
      some ({ example_state [⟨15, 26⟩] UP 5 5 with
          status := START_MENU, event := ⟨SDL_KEYDOWN, SDLK_q⟩, difficulty := HARD },
        quiet_world) ∧
    loop_start_menu { example_state [⟨15, 26⟩] UP 5 5 with status := START_MENU }
        ⟨[], [], [], [⟨SDL_KEYDOWN, SDLK_d⟩]⟩ =
      (false, { example_state [⟨15, 26⟩] RIGHT 5 5 with event := ⟨SDL_KEYDOWN, SDLK_d⟩ },
        quiet_world) :=
  ⟨rfl,
    (C18_menu_transitions { example_state [⟨15, 26⟩] UP 5 5 with status := START_MENU }
      ⟨[], [], [], [⟨SDL_KEYDOWN, SDLK_q⟩]⟩ ⟨SDL_KEYDOWN, SDLK_q⟩ [] rfl rfl rfl).2.2.1 rfl,
    ((C18_menu_transitions { example_state [⟨15, 26⟩] UP 5 5 with status := START_MENU }
      ⟨[], [], [], [⟨SDL_KEYDOWN, SDLK_d⟩]⟩ ⟨SDL_KEYDOWN, SDLK_d⟩ [] rfl rfl rfl).2.2.2.2
      (by decide) (by decide) (by decide)).1⟩

theorem update_total (s : snek) (w : World)
    (hd : s.direction = UP ∨ s.direction = DOWN ∨ s.direction = LEFT ∨ s.direction = RIGHT) :
    ∃ e s' w', snek_update s w = some (e, s', w') := by
  cases hs : s.head with
  | nil => exact ⟨_, _, _, update_null s w hs⟩
  | cons h rest => exact update_defined s w h rest hs (switch_not_unassigned h hd)

theorem tick_gate_total (s : snek) (w : World)
    (hd : s.direction = UP ∨ s.direction = DOWN ∨ s.direction = LEFT ∨ s.direction = RIGHT) :
    ∃ s' w', tick_gate s w = some (s', w') := by
  by_cases hg : (SDL_GetTicks w).1 > wrap_int32 (s.last_time + s.difficulty)
  · obtain ⟨e, s2, w2, hu⟩ := update_total { s with current_time := (SDL_GetTicks w).1 }
      (SDL_GetTicks w).2 hd
    exact ⟨_, _, tick_gate_open s s2 w w2 e hg hu⟩
  · exact ⟨_, _, tick_gate_closed s w hg⟩

/-- The fields the timed update leaves alone, and the statuses it can leave. -/
theorem tick_gate_frame (s s' : snek) (w w' : World) (ht : tick_gate s w = some (s', w')) :
    s'.difficulty = s.difficulty ∧ s'.direction = s.direction ∧ s'.event = s.event ∧
    (s'.status = s.status ∨ s'.status = GAME_OVER) ∧ w'.events = w.events := by
  by_cases hg : (SDL_GetTicks w).1 > wrap_int32 (s.last_time + s.difficulty)
  · cases hu : snek_update { s with current_time := (SDL_GetTicks w).1 } (SDL_GetTicks w).2 with
    | none => simp [tick_gate, hg, hu] at ht
    | some r =>
      obtain ⟨e, s2, w2⟩ := r
      rw [tick_gate_open s s2 w w2 e hg hu] at ht
      simp only [Option.some.injEq, Prod.mk.injEq] at ht
      obtain ⟨f1, f2, f3, -, -, f6⟩ := update_frame _ s2 _ w2 e hu
      have fe := update_events _ s2 _ w2 e hu
      simp only [] at f1 f2 f3 f6
      rw [← ht.1, ← ht.2]
      cases hr : e.result
      · rw [if_pos rfl]
        exact ⟨f3, f1, f6, Or.inr rfl, by rw [fe]; rfl⟩
      · rw [if_neg (by decide)]
        exact ⟨f3, f1, f6, Or.inl f2, by rw [fe]; rfl⟩
  · rw [tick_gate_closed s w hg] at ht
    simp only [Option.some.injEq, Prod.mk.injEq] at ht
    rw [← ht.1, ← ht.2]
    exact ⟨rfl, rfl, rfl, Or.inl rfl, rfl⟩

theorem loop_mid_game_difficulty (s s' : snek) (w w' : World) (b : Bool)
    (hm : loop_mid_game s w = some (b, s', w')) : s'.difficulty = s.difficulty := by
  unfold loop_mid_game SDL_PollEvent at hm
  have key : ∀ (t : snek) (v : World),
      (tick_gate t v).map (fun r => (false, r)) = some (b, s', w') →
      t.difficulty = s.difficulty → s'.difficulty = s.difficulty := by
    intro t v h ht
    cases hg : tick_gate t v with
    | none => rw [hg] at h; simp at h
    | some r =>
      rw [hg] at h
      simp only [Option.map_some', Option.some.injEq, Prod.mk.injEq] at h
      obtain ⟨-, rfl⟩ := h
      rw [(tick_gate_frame t s' v w' hg).1, ht]
  cases he : w.events with
  | nil =>
    rw [he] at hm
    exact key s w hm rfl
  | cons e es =>
    rw [he] at hm
    simp only [] at hm
    split_ifs at hm
    · simp only [Option.some.injEq, Prod.mk.injEq] at hm
      rw [← hm.2.1]
    · exact key _ _ hm rfl
    · exact key _ _ hm (snek_input_fields _).2.2.2.2.2.2.2.2.2
    · exact key _ _ hm rfl

theorem loop_game_over_difficulty (s : snek) (w : World) :
    (loop_game_over s w).2.1.difficulty = s.difficulty := by
  cases he : w.events with
  | nil => simp [loop_game_over, SDL_PollEvent, he]
  | cons e es =>
    by_cases hk : e.type = SDL_KEYDOWN
    · rw [loop_game_over_key s w e es he hk]
      exact (map_init_difficulty _).trans (food_spawn_fields _ _).2.2.2.2.2.1
    · unfold loop_game_over SDL_PollEvent
      rw [he]
      simp only []
      rw [if_neg hk]
      split_ifs <;> rfl

theorem loop_pause_difficulty (s : snek) (w : World) :
    (loop_pause s w).2.1.difficulty = s.difficulty := by
  unfold loop_pause SDL_PollEvent
  cases he : w.events with
  | nil => rfl
  | cons e es =>
    simp only []
    split_ifs <;> rfl

theorem loop_game_over_status (s : snek) (w : World) (hst : s.status = GAME_OVER) :
    (loop_game_over s w).2.1.status ≠ PAUSE := by
  cases he : w.events with
  | nil => simp [loop_game_over, SDL_PollEvent, he, hst]
  | cons e es =>
    by_cases hk : e.type = SDL_KEYDOWN
    · rw [loop_game_over_key s w e es he hk]
      show START_MENU ≠ PAUSE
      decide
    · unfold loop_game_over SDL_PollEvent
      rw [he]
      simp only []
      rw [if_neg hk]
      split_ifs
      · show QUIT_LOOP ≠ PAUSE
        decide
      · show s.status ≠ PAUSE
        rw [hst]; decide

/-- An iteration that starts past the first two blocks keeps the difficulty. -/
theorem snek_loop_late_difficulty (s s' : snek) (w w' : World) (h0 : s.status ≠ START_MENU)
    (h1 : s.status ≠ MID_GAME) (hl : snek_loop s w = some (s', w')) :
    s'.difficulty = s.difficulty := by
  by_cases h2 : s.status = GAME_OVER
  · rw [snek_loop_game_over s w h2, if_neg (loop_game_over_status s w h2)] at hl
    simp only [ite_self, Option.some.injEq] at hl
    have := loop_game_over_difficulty s w
    rw [hl] at this
    exact this
  · by_cases h4 : s.status = PAUSE
    · rw [snek_loop_pause s w h4] at hl
      simp only [Option.some.injEq] at hl
      have := loop_pause_difficulty s w
      rw [hl] at this
      exact this
    · rw [snek_loop_other s w h0 h1 h2 h4] at hl
      simp only [Option.some.injEq, Prod.mk.injEq] at hl
      rw [← hl.1]

/-- An iteration that does not start in the menu keeps the difficulty. -/
theorem snek_loop_keeps_difficulty (s s' : snek) (w w' : World) (h0 : s.status ≠ START_MENU)
    (hl : snek_loop s w = some (s', w')) : s'.difficulty = s.difficulty := by
  by_cases h1 : s.status = MID_GAME
  · rw [snek_loop_mid_game s w h1] at hl
    cases hm : loop_mid_game s w with
    | none => rw [hm] at hl; simp at hl
    | some r =>
      obtain ⟨b, s2, w2⟩ := r
      have hd := loop_mid_game_difficulty s s2 w w2 b hm
      rw [hm] at hl
      cases b with
      | true =>
        simp only [Option.some.injEq, Prod.mk.injEq] at hl
        rw [← hl.1, hd]
      | false =>
        simp only [] at hl
        split_ifs at hl with hc
        · simp only [Option.some.injEq, Prod.mk.injEq] at hl
          rw [← hl.1, hd]
        · rw [snek_loop_late_difficulty s2 s' w2 w' (fun h => hc (Or.inl h))
            (fun h => hc (Or.inr h)) hl, hd]
  · exact snek_loop_late_difficulty s s' w w' h0 h1 hl

/-- What the menu block can do to the difficulty and the direction. -/
theorem loop_start_menu_frame (s : snek) (w : World) :
    ((loop_start_menu s w).2.1.difficulty = s.difficulty ∨
      (loop_start_menu s w).2.1.difficulty = EASY ∨
      (loop_start_menu s w).2.1.difficulty = REGULAR ∨
      (loop_start_menu s w).2.1.difficulty = HARD) ∧
    ((s.direction = UP ∨ s.direction = DOWN ∨ s.direction = LEFT ∨ s.direction = RIGHT) →
      ((loop_start_menu s w).2.1.direction = UP ∨ (loop_start_menu s w).2.1.direction = DOWN ∨
       (loop_start_menu s w).2.1.direction = LEFT ∨
       (loop_start_menu s w).2.1.direction = RIGHT)) := by
  cases he : w.events with
  | nil =>
    have : loop_start_menu s w = (false, s, w) := by
      simp [loop_start_menu, SDL_PollEvent, he]
    rw [this]
    exact ⟨Or.inl rfl, fun h => h⟩
  | cons e es =>
    by_cases hk : e.type = SDL_KEYDOWN
    · rw [loop_start_menu_key s w e es he hk]
      have hf := (snek_input_fields { s with event := e }).2.2.2.2.2.2.2.2.2
      have hv := snek_input_valid { s with event := e }
      simp only [] at hf hv
      split_ifs
      · exact ⟨Or.inr (Or.inl rfl), hv⟩
      · exact ⟨Or.inr (Or.inr (Or.inl rfl)), hv⟩
      · exact ⟨Or.inr (Or.inr (Or.inr rfl)), hv⟩
      · exact ⟨Or.inl hf, hv⟩
    · unfold loop_start_menu SDL_PollEvent
      rw [he]
      simp only []
      rw [if_neg hk]
      split_ifs
      · exact ⟨Or.inl rfl, fun h => h⟩
      · exact ⟨Or.inl rfl, fun h => h⟩

theorem loop_mid_game_total (s : snek) (w : World)
    (hd : s.direction = UP ∨ s.direction = DOWN ∨ s.direction = LEFT ∨ s.direction = RIGHT) :
    ∃ b s' w', loop_mid_game s w = some (b, s', w') := by
  have key : ∀ (t : snek) (v : World),
      (t.direction = UP ∨ t.direction = DOWN ∨ t.direction = LEFT ∨ t.direction = RIGHT) →
      ∃ b s' w', (tick_gate t v).map (fun r => (false, r)) = some (b, s', w') := by
    intro t v ht
    obtain ⟨s', w', h⟩ := tick_gate_total t v ht
    exact ⟨false, s', w', by rw [h]; rfl⟩
  unfold loop_mid_game SDL_PollEvent
  cases he : w.events with
  | nil => exact key s w hd
  | cons e es =>
    simp only []
    split_ifs
    · exact ⟨_, _, _, rfl⟩
    · exact key _ _ hd
    · exact key _ _ (snek_input_valid _ hd)
    · exact key _ _ hd

theorem snek_loop_late_total (s : snek) (w : World) (h0 : s.status ≠ START_MENU)
    (h1 : s.status ≠ MID_GAME) : ∃ s' w', snek_loop s w = some (s', w') := by
  by_cases h2 : s.status = GAME_OVER
  · rw [snek_loop_game_over s w h2]
    exact ⟨_, _, rfl⟩
  · by_cases h4 : s.status = PAUSE
    · rw [snek_loop_pause s w h4]
      exact ⟨_, _, rfl⟩
    · exact ⟨_, _, snek_loop_other s w h0 h1 h2 h4⟩

theorem snek_loop_playing_total (s : snek) (w : World) (h0 : s.status ≠ START_MENU)
    (hd : s.direction = UP ∨ s.direction = DOWN ∨ s.direction = LEFT ∨ s.direction = RIGHT) :
    ∃ s' w', snek_loop s w = some (s', w') := by
  by_cases h1 : s.status = MID_GAME
  · obtain ⟨b, s2, w2, hm⟩ := loop_mid_game_total s w hd
    rw [snek_loop_mid_game s w h1, hm]
    cases b with
    | true => exact ⟨_, _, rfl⟩
    | false =>
      simp only []
      split_ifs with hc
      · exact ⟨_, _, rfl⟩
      · exact snek_loop_late_total s2 w2 (fun h => hc (Or.inl h)) (fun h => hc (Or.inr h))
  · exact snek_loop_late_total s w h0 h1

/-- With a direction among the four, every call of `snek_loop` returns. -/
theorem snek_loop_total (s : snek) (w : World)
    (hd : s.direction = UP ∨ s.direction = DOWN ∨ s.direction = LEFT ∨ s.direction = RIGHT) :
    ∃ s' w', snek_loop s w = some (s', w') := by
  by_cases h0 : s.status = START_MENU
  · rw [snek_loop_start_menu s w h0]
    split_ifs with hb hc
    · exact ⟨_, _, rfl⟩
    · exact ⟨_, _, rfl⟩
    · exact snek_loop_playing_total _ _ hc ((loop_start_menu_frame s w).2 hd)
  · exact snek_loop_playing_total s w h0 hd

/-- A difficulty among the three named intervals stays among them. -/
theorem snek_loop_difficulty_named (s s' : snek) (w w' : World)
    (hd : s.difficulty = EASY ∨ s.difficulty = REGULAR ∨ s.difficulty = HARD)
    (hl : snek_loop s w = some (s', w')) :
    s'.difficulty = EASY ∨ s'.difficulty = REGULAR ∨ s'.difficulty = HARD := by
  by_cases h0 : s.status = START_MENU
  · have hm : (loop_start_menu s w).2.1.difficulty = EASY ∨
        (loop_start_menu s w).2.1.difficulty = REGULAR ∨
        (loop_start_menu s w).2.1.difficulty = HARD := by
      rcases (loop_start_menu_frame s w).1 with h | h
      · rw [h]; exact hd
      · exact h
    rw [snek_loop_start_menu s w h0] at hl
    split_ifs at hl with hb hc
    · simp only [Option.some.injEq] at hl
      rw [hl] at hm
      exact hm
    · simp only [Option.some.injEq] at hl
      rw [hl] at hm
      exact hm
    · rw [snek_loop_keeps_difficulty _ s' _ w' hc hl]
      exact hm
  · rw [snek_loop_keeps_difficulty s s' w w' h0 hl]
    exact hd

theorem snek_init_difficulty (fresh s0 : snek) (sdl : SDL_setup) (w w0 : World)
    (hi : snek_init fresh sdl w = (some s0, w0)) :
    s0.difficulty = REGULAR ∧ s0.status = START_MENU ∧ s0.score = 1 ∧ s0.direction = UP ∧
    s0.last_time = 0 := by
  unfold snek_init at hi
  rcases hm : malloc w with ⟨b, w1⟩
  rw [hm] at hi
  cases b with
  | false => simp at hi
  | true =>
    simp only [] at hi
    by_cases c1 : sdl.sdl = false
    · rw [if_pos c1] at hi; simp at hi
    rw [if_neg c1] at hi
    by_cases c2 : sdl.window = false
    · rw [if_pos c2] at hi; simp at hi
    rw [if_neg c2] at hi
    by_cases c3 : sdl.renderer = false
    · rw [if_pos c3] at hi; simp at hi
    rw [if_neg c3] at hi
    rcases hn : snek_entity_new (MAP_ROWS / 2) (MAP_COLUMNS / 2) w1 with ⟨n, w2⟩
    rw [hn] at hi
    cases n with
    | nil => simp at hi
    | cons a as =>
      simp only [] at hi
      rcases hf : snek_food_entity_spawn (snek_map_init { fresh with head := a :: as }) w2
        with ⟨b2, s2, w3⟩
      rw [hf] at hi
      cases b2 with
      | false => simp at hi
      | true =>
        simp only [] at hi
        by_cases c4 : sdl.ttf = false
        · rw [if_pos c4] at hi; simp at hi
        rw [if_neg c4] at hi
        by_cases c5 : sdl.font = false
        · rw [if_pos c5] at hi; simp at hi
        rw [if_neg c5] at hi
        simp only [Prod.mk.injEq, Option.some.injEq] at hi
        rw [← hi.1]
        exact ⟨rfl, rfl, rfl, rfl, rfl⟩

theorem main_loop_difficulty (ws : List World) :
    ∀ (s t : snek), (s.difficulty = EASY ∨ s.difficulty = REGULAR ∨ s.difficulty = HARD) →
      main_loop ws s = some t →
      (t.difficulty = EASY ∨ t.difficulty = REGULAR ∨ t.difficulty = HARD) := by
  induction ws with
  | nil =>
    intro s t hd h
    simp only [main_loop, Option.some.injEq] at h
    rw [← h]; exact hd
  | cons w ws ih =>
    intro s t hd h
    unfold main_loop at h
    split_ifs at h
    · simp only [Option.some.injEq] at h
      rw [← h]; exact hd
    · cases hl : snek_loop s w with
      | none => rw [hl] at h; simp at h
      | some r =>
        rw [hl] at h
        simp only [] at h
        exact ih r.1 t (snek_loop_difficulty_named s r.1 w r.2 hd hl) h

/-- C19: an iteration of `snek_loop` that does not start in START_MENU (so one
that starts in MID_GAME, PAUSE, GAME_OVER or QUIT_LOOP) ends with the
difficulty it started with, whatever the event queue and the clock, and it
does end when the direction is one of the four; from any status a difficulty
among 100, 50, 30 stays among them, `snek_init` sets 50, and so every struct
reached through the main loop has its difficulty among 100, 50, 30. -/
theorem C19_difficulty_only_from_menu (s : snek) (w : World) (hst : s.status ≠ START_MENU) :
    (∀ s' w', snek_loop s w = some (s', w') → s'.difficulty = s.difficulty) ∧
    ((s.direction = UP ∨ s.direction = DOWN ∨ s.direction = LEFT ∨ s.direction = RIGHT) →
      ∃ s' w', snek_loop s w = some (s', w') ∧ s'.difficulty = s.difficulty) ∧
    (∀ (t t' : snek) (v v' : World),
      (t.difficulty = 100 ∨ t.difficulty = 50 ∨ t.difficulty = 30) →
      snek_loop t v = some (t', v') →
      (t'.difficulty = 100 ∨ t'.difficulty = 50 ∨ t'.difficulty = 30)) ∧
    (∀ (fresh s0 t : snek) (sdl : SDL_setup) (v v0 : World) (ws : List World),
      snek_init fresh sdl v = (some s0, v0) → main_loop ws s0 = some t →
      (t.difficulty = 100 ∨ t.difficulty = 50 ∨ t.difficulty = 30)) := by
  refine ⟨fun s' w' hl => snek_loop_keeps_difficulty s s' w w' hst hl, ?_, ?_, ?_⟩
  · intro hd
    obtain ⟨s', w', hl⟩ := snek_loop_total s w hd
    exact ⟨s', w', hl, snek_loop_keeps_difficulty s s' w w' hst hl⟩
  · intro t t' v v' hd hl
    exact snek_loop_difficulty_named t t' v v' hd hl
  · intro fresh s0 t sdl v v0 ws hi hm
    have h0 := (snek_init_difficulty fresh s0 sdl v v0 hi).1
    exact main_loop_difficulty ws s0 t (Or.inr (Or.inl h0)) hm

/-- While playing, the key E (which selects Easy in the menu) leaves the
difficulty at 50. -/
theorem C19_difficulty_only_from_menu_witness :
    (example_state [⟨15, 26⟩] RIGHT 5 5).status ≠ START_MENU ∧
    ∃ s' w', snek_loop (example_state [⟨15, 26⟩] RIGHT 5 5)
        ⟨[], [], [100], [⟨SDL_KEYDOWN, SDLK_e⟩]⟩ = some (s', w') ∧
      s'.difficulty = (example_state [⟨15, 26⟩] RIGHT 5 5).difficulty :=
  ⟨by decide,
    (C19_difficulty_only_from_menu (example_state [⟨15, 26⟩] RIGHT 5 5)
      ⟨[], [], [100], [⟨SDL_KEYDOWN, SDLK_e⟩]⟩ (by decide)).2.1 (by decide)⟩

/-- With no event pending, an iteration that starts past the first two blocks
changes nothing. -/
theorem snek_loop_late_quiet (s : snek) (w : World) (h0 : s.status ≠ START_MENU)
    (h1 : s.status ≠ MID_GAME) (he : w.events = []) : snek_loop s w = some (s, w) := by
  by_cases h2 : s.status = GAME_OVER
  · have h4 : s.status ≠ PAUSE := by rw [h2]; decide
    rw [snek_loop_game_over s w h2, loop_game_over_quiet s w he]
    simp only [Bool.false_eq_true, if_false, if_neg h4]
  · by_cases h4 : s.status = PAUSE
    · rw [snek_loop_pause s w h4, loop_pause_quiet s w he]
    · exact snek_loop_other s w h0 h1 h2 h4

/-- The Playing block on the pause key (lines 876-904): the status is set to
PAUSE and the timed update runs all the same. -/
theorem loop_mid_game_pause_key (s : snek) (w : World) (e : SDL_Event) (es : List SDL_Event)
    (hw : w.events = e :: es) (hk : e.type = SDL_KEYDOWN) (hp : e.sym = SDLK_p) :
    loop_mid_game s w =
      (tick_gate { s with event := e, status := PAUSE } { w with events := es }).map
        (fun r => (false, r)) := by
  have hq : ¬ (e.type = SDL_QUIT) := by rw [hk]; decide
  unfold loop_mid_game SDL_PollEvent
  rw [hw]
  simp only []
  rw [if_neg hq, if_pos hk, if_pos hp]

/-- A Playing iteration whose only pending event is the pause key is the
timed update run on the struct with status PAUSE. -/
theorem snek_loop_pause_key (s s2 : snek) (w w2 : World) (e : SDL_Event)
    (hst : s.status = MID_GAME) (hw : w.events = [e]) (hk : e.type = SDL_KEYDOWN)
    (hp : e.sym = SDLK_p)
    (ht : tick_gate { s with event := e, status := PAUSE } { w with events := [] } =
      some (s2, w2)) :
    snek_loop s w = some (s2, w2) ∧ (s2.status = PAUSE ∨ s2.status = GAME_OVER) := by
  obtain ⟨-, -, -, hs2, he2⟩ := tick_gate_frame _ s2 _ w2 ht
  simp only [] at hs2 he2
  have h0 : s2.status ≠ START_MENU := by
    rcases hs2 with h | h <;> rw [h] <;> decide
  have h1 : s2.status ≠ MID_GAME := by
    rcases hs2 with h | h <;> rw [h] <;> decide
  have h01 : ¬ (s2.status = START_MENU ∨ s2.status = MID_GAME) := by
    rintro (h | h)
    · exact h0 h
    · exact h1 h
  refine ⟨?_, hs2⟩
  rw [snek_loop_mid_game s w hst, loop_mid_game_pause_key s w e [] hw hk hp, ht]
  simp only [Option.map_some', if_neg h01]
  exact snek_loop_late_quiet s2 w2 h0 h1 he2

/-- C20, as stated, fails: the snake heads Up with its head at row 2, the only
pending event is the key P and the clock reads 100 ms.  Line 878 sets PAUSE,
but the `break` only leaves the polling loop: the timed update runs, the tick
is rejected at the boundary, and the iteration ends in GAME_OVER.  The same
happens 7 ms after the last tick when last_time is 2147483640 and the clock
reads 2147483647: the sum of line 892 wraps and the timed update runs. -/
theorem C20_counterexample :
    (example_state [⟨2, 26⟩, ⟨3, 26⟩] UP 5 5).status = MID_GAME ∧
    snek_loop (example_state [⟨2, 26⟩, ⟨3, 26⟩] UP 5 5)
        ⟨[], [], [100], [⟨SDL_KEYDOWN, SDLK_p⟩]⟩ =
      some ({ example_state [⟨2, 26⟩, ⟨3, 26⟩] UP 5 5 with
          event := ⟨SDL_KEYDOWN, SDLK_p⟩, status := GAME_OVER, current_time := 100,
          last_time := 100 }, quiet_world) ∧
    GAME_OVER ≠ PAUSE ∧
    snek_loop { example_state [⟨2, 26⟩, ⟨3, 26⟩] UP 5 5 with last_time := 2147483640 }
        ⟨[], [], [2147483647], [⟨SDL_KEYDOWN, SDLK_p⟩]⟩ =
      some ({ example_state [⟨2, 26⟩, ⟨3, 26⟩] UP 5 5 with
          event := ⟨SDL_KEYDOWN, SDLK_p⟩, status := GAME_OVER, current_time := 2147483647,
          last_time := 2147483647 }, quiet_world) := by
  refine ⟨rfl, rfl, by decide, rfl⟩

/-- C20, amended: an iteration that starts in MID_GAME with the pause key P as
its only pending event (and a direction among the four) ends in PAUSE, unless
the timed update runs in that iteration (the test of line 892 holds, the sum
last_time + difficulty taken in `int32_t`) and the tick returns false: then
it ends in GAME_OVER. -/
theorem C20_pause (s : snek) (w : World) (e : SDL_Event) (hst : s.status = MID_GAME)
    (hw : w.events = [e]) (hk : e.type = SDL_KEYDOWN) (hp : e.sym = SDLK_p)
    (hd : s.direction = UP ∨ s.direction = DOWN ∨ s.direction = LEFT ∨ s.direction = RIGHT) :
    ∃ s' w', snek_loop s w = some (s', w') ∧
      (s'.status = PAUSE ∨ s'.status = GAME_OVER) ∧
      (¬ ((SDL_GetTicks w).1 > wrap_int32 (s.last_time + s.difficulty)) →
        s'.status = PAUSE) ∧
      (∀ (x : update_exit) (s2 : snek) (w2 : World),
        (SDL_GetTicks w).1 > wrap_int32 (s.last_time + s.difficulty) →
        snek_update { s with event := e, status := PAUSE, current_time := (SDL_GetTicks w).1 }
          (SDL_GetTicks { w with events := [] }).2 = some (x, s2, w2) →
        s'.status = (if x.result = true then PAUSE else GAME_OVER)) := by
  obtain ⟨s2, w2, ht⟩ := tick_gate_total { s with event := e, status := PAUSE }
    { w with events := [] } hd
  obtain ⟨hl, hs2⟩ := snek_loop_pause_key s s2 w w2 e hst hw hk hp ht
  refine ⟨s2, w2, hl, hs2, ?_, ?_⟩
  · intro hg
    have hc := tick_gate_closed { s with event := e, status := PAUSE }
      { w with events := [] } hg
    rw [hc] at ht
    simp only [Option.some.injEq, Prod.mk.injEq] at ht
    rw [← ht.1]
  · intro x t2 v2 hg hu
    have ho := tick_gate_open { s with event := e, status := PAUSE } t2
      { w with events := [] } v2 x hg hu
    have hst2 := (update_frame _ t2 _ v2 x hu).2.1
    simp only [] at hst2
    rw [ho] at ht
    simp only [Option.some.injEq, Prod.mk.injEq] at ht
    rw [← ht.1]
    cases hr : x.result
    · rw [if_pos rfl, if_neg (by decide)]
    · rw [if_neg (by decide), if_pos rfl]
      exact hst2

/-- In scenario 1 the key P with the clock at 100 ms: the tick succeeds and the
iteration ends in PAUSE, one cell further. -/
theorem C20_pause_witness :
    (example_state [⟨15, 26⟩] RIGHT 5 5).status = MID_GAME ∧
    ∃ s' w', snek_loop (example_state [⟨15, 26⟩] RIGHT 5 5)
        ⟨[], [], [100], [⟨SDL_KEYDOWN, SDLK_p⟩]⟩ = some (s', w') ∧
      (s'.status = PAUSE ∨ s'.status = GAME_OVER) ∧
      (¬ ((100 : Int) > wrap_int32 (0 + 50)) → s'.status = PAUSE) ∧
      (∀ (x : update_exit) (s2 : snek) (w2 : World), (100 : Int) > wrap_int32 (0 + 50) →
        snek_update { example_state [⟨15, 26⟩] RIGHT 5 5 with
            event := ⟨SDL_KEYDOWN, SDLK_p⟩, status := PAUSE, current_time := 100 }
          quiet_world = some (x, s2, w2) →
        s'.status = (if x.result = true then PAUSE else GAME_OVER)) :=
  ⟨rfl,
    C20_pause (example_state [⟨15, 26⟩] RIGHT 5 5) ⟨[], [], [100], [⟨SDL_KEYDOWN, SDLK_p⟩]⟩
      ⟨SDL_KEYDOWN, SDLK_p⟩ rfl rfl rfl rfl (by decide)⟩

/-- The PAUSE block (lines 932-948), by the first pending event. -/
theorem loop_pause_cases (s : snek) (w : World) :
    (w.events = [] ∧ loop_pause s w = (false, s, w)) ∨
    ∃ e es, w.events = e :: es ∧
      ((e.type = SDL_QUIT ∧
          loop_pause s w =
            (true, { s with event := e, status := QUIT_LOOP }, { w with events := es })) ∨
       (e.type = SDL_KEYDOWN ∧ e.sym = SDLK_p ∧
          loop_pause s w =
            (false, { s with event := e, status := MID_GAME }, { w with events := es })) ∨
       (e.type ≠ SDL_QUIT ∧ ¬ (e.type = SDL_KEYDOWN ∧ e.sym = SDLK_p) ∧
          loop_pause s w = (false, { s with event := e }, { w with events := es }))) := by
  cases he : w.events with
  | nil =>
    left
    exact ⟨rfl, by simp [loop_pause, SDL_PollEvent, he]⟩
  | cons e es =>
    right
    refine ⟨e, es, rfl, ?_⟩
    unfold loop_pause SDL_PollEvent
    rw [he]
    simp only []
    by_cases hq : e.type = SDL_QUIT
    · left
      exact ⟨hq, by rw [if_pos hq]⟩
    · right
      rw [if_neg hq]
      by_cases hk : e.type = SDL_KEYDOWN
      · by_cases hp : e.sym = SDLK_p
        · left
          exact ⟨hk, hp, by rw [if_pos hk, if_pos hp]⟩
        · right
          exact ⟨hq, fun hc => hp hc.2, by rw [if_pos hk, if_neg hp]⟩
      · right
        exact ⟨hq, fun hc => hk hc.1, by rw [if_neg hk]⟩

/-- C21: an iteration that starts in PAUSE, whatever the event queue and the
clock, returns and leaves the chain, the food, the score, the direction, the
map and last_time (and the clock, the random draws and the allocator) as they
were; it ends in MID_GAME when the first pending event is a press of P, in
QUIT_LOOP when it is a quit event, and in PAUSE otherwise. -/
theorem C21_no_tick_while_paused (s : snek) (w : World) (hst : s.status = PAUSE) :
    ∃ s' w', snek_loop s w = some (s', w') ∧
      (s'.head = s.head ∧ s'.food_row = s.food_row ∧ s'.food_column = s.food_column ∧
        s'.score = s.score ∧ s'.direction = s.direction ∧ s'.map = s.map ∧
        s'.last_time = s.last_time ∧ s'.current_time = s.current_time ∧
        s'.difficulty = s.difficulty) ∧
      (w'.ticks = w.ticks ∧ w'.rands = w.rands ∧ w'.mallocs = w.mallocs) ∧
      (∀ e es, w.events = e :: es → e.type = SDL_KEYDOWN → e.sym = SDLK_p →
        s'.status = MID_GAME) ∧
      (∀ e es, w.events = e :: es → e.type = SDL_QUIT → s'.status = QUIT_LOOP) ∧
      (w.events = [] → s'.status = PAUSE) ∧
      (∀ e es, w.events = e :: es → e.type ≠ SDL_QUIT →
        ¬ (e.type = SDL_KEYDOWN ∧ e.sym = SDLK_p) → s'.status = PAUSE) := by
  have hl := snek_loop_pause s w hst
  have hkq : ¬ (SDL_KEYDOWN = SDL_QUIT) := by decide
  rcases loop_pause_cases s w with ⟨he, hp⟩ | ⟨e, es, he, hc⟩
  · rw [hp] at hl
    refine ⟨s, w, hl, ⟨rfl, rfl, rfl, rfl, rfl, rfl, rfl, rfl, rfl⟩, ⟨rfl, rfl, rfl⟩, ?_, ?_,
      fun _ => hst, ?_⟩
    · intro e es h; rw [he] at h; simp at h
    · intro e es h; rw [he] at h; simp at h
    · intro e es h; rw [he] at h; simp at h
  · have hinj : ∀ e' es', w.events = e' :: es' → e' = e := by
      intro e' es' h
      rw [he] at h
      simp only [List.cons.injEq] at h
      exact h.1.symm
    rcases hc with ⟨hq, hp⟩ | ⟨hk, hs, hp⟩ | ⟨hq, hn, hp⟩
    · rw [hp] at hl
      refine ⟨_, _, hl, ⟨rfl, rfl, rfl, rfl, rfl, rfl, rfl, rfl, rfl⟩, ⟨rfl, rfl, rfl⟩, ?_, ?_,
        ?_, ?_⟩
      · intro e' es' h hk' _
        rw [hinj e' es' h, hq] at hk'
        exact absurd hk'.symm hkq
      · intro _ _ _ _; rfl
      · intro h; rw [he] at h; simp at h
      · intro e' es' h hq' _
        rw [hinj e' es' h] at hq'
        exact absurd hq hq'
    · rw [hp] at hl
      refine ⟨_, _, hl, ⟨rfl, rfl, rfl, rfl, rfl, rfl, rfl, rfl, rfl⟩, ⟨rfl, rfl, rfl⟩, ?_, ?_,
        ?_, ?_⟩
      · intro _ _ _ _ _; rfl
      · intro e' es' h hq'
        rw [hinj e' es' h, hk] at hq'
        exact absurd hq' hkq
      · intro h; rw [he] at h; simp at h
      · intro e' es' h _ hn'
        rw [hinj e' es' h] at hn'
        exact absurd ⟨hk, hs⟩ hn'
    · rw [hp] at hl
      refine ⟨_, _, hl, ⟨rfl, rfl, rfl, rfl, rfl, rfl, rfl, rfl, rfl⟩, ⟨rfl, rfl, rfl⟩, ?_, ?_,
        ?_, ?_⟩
      · intro e' es' h hk' hs'
        rw [hinj e' es' h] at hk' hs'
        exact absurd ⟨hk', hs'⟩ hn
      · intro e' es' h hq'
        rw [hinj e' es' h] at hq'
        exact absurd hq' hq
      · intro h; rw [he] at h; simp at h
      · intro _ _ _ _ _; exact hst

/-- A paused game with the clock far past the tick interval: the key P
resumes it, and nothing but the status and the stored event has changed. -/
theorem C21_no_tick_while_paused_witness :
    ({ example_state [⟨15, 26⟩] RIGHT 5 5 with status := PAUSE } : snek).status = PAUSE ∧
    snek_loop { example_state [⟨15, 26⟩] RIGHT 5 5 with status := PAUSE }
        ⟨[], [], [100000], [⟨SDL_KEYDOWN, SDLK_p⟩]⟩ =
      some ({ example_state [⟨15, 26⟩] RIGHT 5 5 with event := ⟨SDL_KEYDOWN, SDLK_p⟩ },
        ⟨[], [], [100000], []⟩) ∧
    ∃ s' w', snek_loop { example_state [⟨15, 26⟩] RIGHT 5 5 with status := PAUSE }
        ⟨[], [], [100000], [⟨SDL_KEYDOWN, SDLK_p⟩]⟩ = some (s', w') ∧
      s'.status = MID_GAME ∧ s'.head = [⟨15, 26⟩] ∧ s'.last_time = 0 ∧
      w'.ticks = [100000] := by
  refine ⟨rfl, rfl, ?_⟩
  obtain ⟨s', w', hl, hf, hw, hp, -⟩ := C21_no_tick_while_paused
    { example_state [⟨15, 26⟩] RIGHT 5 5 with status := PAUSE }
    ⟨[], [], [100000], [⟨SDL_KEYDOWN, SDLK_p⟩]⟩ rfl
  exact ⟨s', w', hl, hp _ _ rfl rfl rfl, hf.1, hf.2.2.2.2.2.2.1, hw.1⟩

/-- Each block leaves `snek_loop` at once on a quit event (lines 833-836,
871-874, 914-917, 935-938). -/
theorem blocks_on_quit (s : snek) (w : World) (e : SDL_Event) (es : List SDL_Event)
    (hw : w.events = e :: es) (hq : e.type = SDL_QUIT) :
    loop_start_menu s w =
      (true, { s with event := e, status := QUIT_LOOP }, { w with events := es }) ∧
    loop_mid_game s w =
      some (true, { s with event := e, status := QUIT_LOOP }, { w with events := es }) ∧
    loop_game_over s w =
      (true, { s with event := e, status := QUIT_LOOP }, { w with events := es }) ∧
    loop_pause s w =
      (true, { s with event := e, status := QUIT_LOOP }, { w with events := es }) := by
  refine ⟨?_, ?_, ?_, ?_⟩
  · unfold loop_start_menu SDL_PollEvent
    rw [hw]
    simp only []
    rw [if_pos hq]
  · unfold loop_mid_game SDL_PollEvent
    rw [hw]
    simp only []
    rw [if_pos hq]
  · unfold loop_game_over SDL_PollEvent
    rw [hw]
    simp only []
    rw [if_pos hq]
  · unfold loop_pause SDL_PollEvent
    rw [hw]
    simp only []
    rw [if_pos hq]

theorem main_loop_quit (ws : List World) (s : snek) (hst : s.status = QUIT_LOOP) :
    main_loop ws s = some s := by
  cases ws with
  | nil => rfl
  | cons w ws => simp [main_loop, hst]

/-- C22: from START_MENU, MID_GAME, GAME_OVER or PAUSE, an iteration whose
first pending event is a quit event ends in QUIT_LOOP with only the status and
the stored event changed (so chain, food, score, direction, difficulty, map
and last_time are as before) and with nothing but that event taken from the
world (no clock reading: no tick); an iteration that starts in QUIT_LOOP
changes nothing, and the main loop does not run one. -/
theorem C22_quit (s : snek) (w : World) (e : SDL_Event) (es : List SDL_Event)
    (hw : w.events = e :: es) (hq : e.type = SDL_QUIT)
    (hst : s.status = START_MENU ∨ s.status = MID_GAME ∨ s.status = GAME_OVER ∨
      s.status = PAUSE) :
    snek_loop s w =
      some ({ s with event := e, status := QUIT_LOOP }, { w with events := es }) ∧
    (∀ (t : snek) (v : World), t.status = QUIT_LOOP → snek_loop t v = some (t, v)) ∧
    (∀ (t : snek) (ws : List World), t.status = QUIT_LOOP → main_loop ws t = some t) := by
  obtain ⟨b0, b1, b2, b4⟩ := blocks_on_quit s w e es hw hq
  refine ⟨?_, ?_, fun t ws ht => main_loop_quit ws t ht⟩
  · rcases hst with h | h | h | h
    · rw [snek_loop_start_menu s w h, b0]
      simp only [if_true]
    · rw [snek_loop_mid_game s w h, b1]
    · rw [snek_loop_game_over s w h, b2]
      simp only [if_true]
    · rw [snek_loop_pause s w h, b4]
  · intro t v ht
    exact snek_loop_other t v (by rw [ht]; decide) (by rw [ht]; decide) (by rw [ht]; decide)
      (by rw [ht]; decide)

/-- A quit event while playing, with the clock far past the tick interval and
a key press queued behind it: the iteration ends in QUIT_LOOP, the snake has
not moved and the clock has not been read. -/
theorem C22_quit_witness :
    (example_state [⟨15, 26⟩] RIGHT 5 5).status = MID_GAME ∧
    snek_loop (example_state [⟨15, 26⟩] RIGHT 5 5)
        ⟨[], [], [100000], [⟨SDL_QUIT, 0⟩, ⟨SDL_KEYDOWN, SDLK_w⟩]⟩ =
      some ({ example_state [⟨15, 26⟩] RIGHT 5 5 with
          event := ⟨SDL_QUIT, 0⟩, status := QUIT_LOOP },
        ⟨[], [], [100000], [⟨SDL_KEYDOWN, SDLK_w⟩]⟩) :=
  ⟨rfl,
    (C22_quit (example_state [⟨15, 26⟩] RIGHT 5 5)
      ⟨[], [], [100000], [⟨SDL_QUIT, 0⟩, ⟨SDL_KEYDOWN, SDLK_w⟩]⟩ ⟨SDL_QUIT, 0⟩
      [⟨SDL_KEYDOWN, SDLK_w⟩] rfl rfl (Or.inr (Or.inl rfl))).1⟩

/-- C23: on a non-empty chain, with the allocation succeeding,
`snek_entity_append` returns true and the chain is the old chain, unchanged
in value and order, followed by the new position as its tail; on a `NULL`
chain it returns false and touches nothing, not even the allocator; and when
the allocation fails it returns false and the chain is as it was. -/
theorem C23_append (c : List snek_entity) (row column : Int) (w : World) :
    (c ≠ [] → mallocs_succeed 1 w →
      snek_entity_append c row column w = (true, c ++ [⟨row, column⟩], (malloc w).2)) ∧
    snek_entity_append [] row column w = (false, [], w) ∧
    (c ≠ [] → (malloc w).1 = false →
      snek_entity_append c row column w = (false, c, (malloc w).2)) := by
  refine ⟨?_, rfl, ?_⟩
  · intro hc ha
    obtain ⟨hn, -⟩ := entity_new_of_succeed (n := 0) row column ha
    cases c with
    | nil => exact absurd rfl hc
    | cons a as => simp only [snek_entity_append, hn]
  · intro hc hm
    cases c with
    | nil => exact absurd rfl hc
    | cons a as =>
      unfold snek_entity_append snek_entity_new
      rcases hmm : malloc w with ⟨b, w1⟩
      rw [hmm] at hm
      simp only [] at hm
      subst hm
      rfl

/-- Appending (10,12) to the chain [(10,10),(10,11)]. -/
theorem C23_append_witness :
    ([⟨10, 10⟩, ⟨10, 11⟩] : List snek_entity) ≠ [] ∧ mallocs_succeed 1 quiet_world ∧
    snek_entity_append [⟨10, 10⟩, ⟨10, 11⟩] 10 12 quiet_world =
      (true, [⟨10, 10⟩, ⟨10, 11⟩, ⟨10, 12⟩], quiet_world) :=
  ⟨by decide, by decide,
    (C23_append [⟨10, 10⟩, ⟨10, 11⟩] 10 12 quiet_world).1 (by decide) (by decide)⟩

theorem headD_eq_getD {α : Type} (l : List α) (d : α) : l.headD d = l.getD 0 d := by
  cases l <;> rfl

theorem tail_getD {α : Type} (l : List α) (n : Nat) (d : α) :
    l.tail.getD n d = l.getD (n + 1) d := by
  cases l <;> simp

/-- One pass of the sampling loop, written out on the queues of the world. -/
theorem spawn_pass_eq (temp : List snek_entity) (t : Int) (s : snek) (w : World) :
    spawn_pass temp t s w =
      (decide (clock_reading w 0 > wrap_int32 (t + 10000)),
        temp.any (fun x => decide (x.row = (w.rands.getD 0 0 : Int) % 27 + 2 ∧
          x.column = (w.rands.getD 1 0 : Int) % 51 + 1)),
        { s with food_row := (w.rands.getD 0 0 : Int) % 27 + 2,
                 food_column := (w.rands.getD 1 0 : Int) % 51 + 1 },
        { w with rands := w.rands.tail.tail, ticks := w.ticks.tail }) := by
  have h0 : w.rands.headD 0 = w.rands.getD 0 0 := headD_eq_getD _ _
  have h1 : w.rands.tail.headD 0 = w.rands.getD 1 0 := by
    rw [headD_eq_getD, tail_getD]
  have h2 : w.ticks.headD 0 = w.ticks.getD 0 0 := headD_eq_getD _ _
  simp only [spawn_pass, rand, SDL_GetTicks, clock_reading, h0, h1, h2]
  rfl

theorem any_position_iff (temp : List snek_entity) (r c : Int) :
    temp.any (fun x => decide (x.row = r ∧ x.column = c)) = true ↔
      (⟨r, c⟩ : snek_entity) ∈ temp := by
  rw [List.any_eq_true]
  constructor
  · rintro ⟨x, hx, h⟩
    have : x = ⟨r, c⟩ := by
      cases x; simp_all
    exact this ▸ hx
  · intro h
    exact ⟨_, h, by simp⟩

/-- When `snek_food_entity_spawn` gives up, in terms of its two passes. -/
theorem food_spawn_fails_passes (s : snek) (w : World) :
    (snek_food_entity_spawn s w).1 = false ↔
      ((spawn_pass s.head (SDL_GetTicks w).1 s (SDL_GetTicks w).2).1 = true ∨
        ((spawn_pass s.head (SDL_GetTicks w).1 s (SDL_GetTicks w).2).2.1 = true ∧
          (spawn_pass [] (SDL_GetTicks w).1
            (spawn_pass s.head (SDL_GetTicks w).1 s (SDL_GetTicks w).2).2.2.1
            (spawn_pass s.head (SDL_GetTicks w).1 s (SDL_GetTicks w).2).2.2.2).1 = true)) := by
  unfold snek_food_entity_spawn
  simp only []
  rcases hp : spawn_pass s.head (SDL_GetTicks w).1 s (SDL_GetTicks w).2 with ⟨b1, i1, s1, w1⟩
  rcases hq : spawn_pass [] (SDL_GetTicks w).1 s1 w1 with ⟨b2, i2, s2, w2⟩
  cases b1 <;> cases i1 <;> cases b2 <;> simp [hq]

/-- When `snek_food_entity_spawn` gives up: on the first reading after a
sample, or on the second one when there is a second sample; the bound is the
reading at entry plus 10000, the sum taken in `int32_t` (line 240). -/
theorem food_spawn_fails_iff (s : snek) (w : World) :
    (snek_food_entity_spawn s w).1 = false ↔
      (clock_reading w 1 > wrap_int32 (clock_reading w 0 + 10000) ∨
        ((⟨(w.rands.getD 0 0 : Int) % 27 + 2, (w.rands.getD 1 0 : Int) % 51 + 1⟩ :
            snek_entity) ∈ s.head ∧
          clock_reading w 2 > wrap_int32 (clock_reading w 0 + 10000))) := by
  have ht0 : (SDL_GetTicks w).1 = clock_reading w 0 :=
    congrArg wrap_int32 (headD_eq_getD _ _)
  have hw0 : (SDL_GetTicks w).2 = { w with ticks := w.ticks.tail } := rfl
  rw [food_spawn_fails_passes, ht0, hw0, spawn_pass_eq, spawn_pass_eq]
  simp only [clock_reading, tail_getD, decide_eq_true_eq, any_position_iff]

theorem entity_new_world (r c : Int) (w : World) :
    (snek_entity_new r c w).2.rands = w.rands ∧ (snek_entity_new r c w).2.ticks = w.ticks := by
  unfold snek_entity_new
  rcases hm : malloc w with ⟨b, w1⟩
  have h : (malloc w).2.rands = w.rands ∧ (malloc w).2.ticks = w.ticks := ⟨rfl, rfl⟩
  rw [hm] at h
  cases b <;> exact h

theorem entity_append_world (e : List snek_entity) (r c : Int) (w : World) :
    (snek_entity_append e r c w).2.2.rands = w.rands ∧
    (snek_entity_append e r c w).2.2.ticks = w.ticks := by
  unfold snek_entity_append
  cases e with
  | nil => exact ⟨rfl, rfl⟩
  | cons a as =>
    simp only []
    have := entity_new_world r c w
    rcases hn : snek_entity_new r c w with ⟨n, w1⟩
    rw [hn] at this
    cases n <;> exact this

/-- Copying the chain only consumes answers of `malloc`. -/
theorem copy_nodes_world (fc : Bool) :
    ∀ (old acc : List snek_entity) (w : World),
      (copy_nodes fc old acc w).2.rands = w.rands ∧
      (copy_nodes fc old acc w).2.ticks = w.ticks := by
  intro old
  induction old with
  | nil => intro acc w; exact ⟨rfl, rfl⟩
  | cons t next ih =>
    intro acc w
    unfold copy_nodes
    split
    · exact ⟨rfl, rfl⟩
    · have ha := entity_append_world acc t.row t.column w
      rcases hap : snek_entity_append acc t.row t.column w with ⟨b, e, w1⟩
      rw [hap] at ha
      cases b with
      | false => exact ha
      | true =>
        simp only []
        have := ih e w1
        exact ⟨this.1.trans ha.1, this.2.trans ha.2⟩

/-- A tick that grows, with its allocations succeeding and its new head on no
old node: the world its food placement reads has the clock and the random
draws of the world the tick started in. -/
theorem update_grow (s : snek) (w : World) (h : snek_entity) (rest : List snek_entity)
    (hs : s.head = h :: rest)
    (hd : s.direction = UP ∨ s.direction = DOWN ∨ s.direction = LEFT ∨ s.direction = RIGHT)
    (hb : switch_direction s.direction h ≠ .out_of_bounds)
    (ha : mallocs_succeed (s.head.length + 1) w)
    (hf : moved_head s.direction h = ⟨s.food_row, s.food_column⟩)
    (hn : moved_head s.direction h ∉ h :: rest) :
    ∃ w2, w2.rands = w.rands ∧ w2.ticks = w.ticks ∧
      snek_update s w = some
        (match snek_food_entity_spawn
            { snek_map_init s with head := moved_head s.direction h :: h :: rest } w2 with
          | (false, s1, w1) => (.food_spawn, s1, w1)
          | (true, s1, w1) =>
            (.success, stamp_entities { s1 with score := s1.score + 1 }, w1)) := by
  have hsw := switch_of_valid hd hb
  have hfr : (moved_head s.direction h).row = s.food_row ∧
      (moved_head s.direction h).column = s.food_column := by
    rw [hf]; exact ⟨rfl, rfl⟩
  have hmk : (⟨(moved_head s.direction h).row, (moved_head s.direction h).column⟩ :
      snek_entity) = moved_head s.direction h := rfl
  obtain ⟨hne, hm⟩ := entity_new_of_succeed (moved_head s.direction h).row
    (moved_head s.direction h).column ha
  obtain ⟨w2, hw2⟩ := copy_nodes_ok true s.head [moved_head s.direction h] (malloc w).2
    (by simp) (by simpa using hm)
  have hwd := copy_nodes_world true s.head [moved_head s.direction h] (malloc w).2
  rw [hw2] at hwd
  simp only [] at hwd
  have hhit : head_hits_body (moved_head s.direction h :: h :: rest) = false := by
    rw [Bool.eq_false_iff]
    intro hc
    exact hn ((head_hits_body_iff _ _).1 hc)
  refine ⟨w2, hwd.1, hwd.2, ?_⟩
  have hdec : decide ((moved_head s.direction h).row = s.food_row ∧
      (moved_head s.direction h).column = s.food_column) = true := by
    simp [hfr]
  simp only [snek_update, hs, map_init_direction, hsw, hne, map_init_head,
    map_init_food_row, map_init_food_column, hdec, hmk]
  rw [hs] at hw2
  rw [hw2]
  simp only [if_true, List.singleton_append, update_tail, hhit, Bool.false_eq_true, if_false]

/-- C24: food placement (`snek_food_entity_spawn`) returns failure exactly when
a clock reading taken after a sample (after the first sample, or, when that
one lay on the chain and a second was drawn, after the second) is greater than
the reading taken at entry plus 10000, the sum being taken in `int32_t` (line
240); in every other case it returns success.  As long as the reading at
entry plus 10000 does not exceed 2147483647 this is the claim: failure exactly
when such a reading exceeds the reading at entry by more than 10000.  In a
tick that consumes the food (valid direction, boundary test passed,
allocations succeeding, new head on no old node) the tick returns through the
placement failure exactly under that condition, and through success otherwise;
the placement failure is a `false` return of the tick, and the timed update
answers it with status GAME_OVER.  The claim fails where the sum overflows:
with the reading 2147480000 at entry and 2147480001 after the first sample the
sum wraps to -2147477296 and the placement gives up after one millisecond. -/
theorem C24_placement_timeout (s : snek) (w : World) :
    ((snek_food_entity_spawn s w).1 = false ↔
      (clock_reading w 1 > wrap_int32 (clock_reading w 0 + 10000) ∨
        ((⟨(w.rands.getD 0 0 : Int) % 27 + 2, (w.rands.getD 1 0 : Int) % 51 + 1⟩ :
            snek_entity) ∈ s.head ∧
          clock_reading w 2 > wrap_int32 (clock_reading w 0 + 10000)))) ∧
    (¬ (clock_reading w 1 > wrap_int32 (clock_reading w 0 + 10000) ∨
        ((⟨(w.rands.getD 0 0 : Int) % 27 + 2, (w.rands.getD 1 0 : Int) % 51 + 1⟩ :
            snek_entity) ∈ s.head ∧
          clock_reading w 2 > wrap_int32 (clock_reading w 0 + 10000))) →
      (snek_food_entity_spawn s w).1 = true) ∧
    (clock_reading w 0 + 10000 ≤ 2147483647 →
      ((snek_food_entity_spawn s w).1 = false ↔
        (clock_reading w 1 - clock_reading w 0 > 10000 ∨
          ((⟨(w.rands.getD 0 0 : Int) % 27 + 2, (w.rands.getD 1 0 : Int) % 51 + 1⟩ :
              snek_entity) ∈ s.head ∧
            clock_reading w 2 - clock_reading w 0 > 10000)))) ∧
    (∀ (h : snek_entity) (rest : List snek_entity), s.head = h :: rest →
      (s.direction = UP ∨ s.direction = DOWN ∨ s.direction = LEFT ∨ s.direction = RIGHT) →
      switch_direction s.direction h ≠ .out_of_bounds →
      mallocs_succeed (s.head.length + 1) w →
      moved_head s.direction h = ⟨s.food_row, s.food_column⟩ →
      moved_head s.direction h ∉ h :: rest →
      ∃ e s' w', snek_update s w = some (e, s', w') ∧
        (e = .food_spawn ∨ e = .success) ∧
        (e = .food_spawn ↔
          (clock_reading w 1 > wrap_int32 (clock_reading w 0 + 10000) ∨
            ((⟨(w.rands.getD 0 0 : Int) % 27 + 2, (w.rands.getD 1 0 : Int) % 51 + 1⟩ :
                snek_entity) ∈ moved_head s.direction h :: h :: rest ∧
              clock_reading w 2 > wrap_int32 (clock_reading w 0 + 10000))))) ∧
    update_exit.food_spawn.result = false ∧
    (∀ (s2 : snek) (w2 : World),
      (SDL_GetTicks w).1 > wrap_int32 (s.last_time + s.difficulty) →
      snek_update { s with current_time := (SDL_GetTicks w).1 } (SDL_GetTicks w).2 =
        some (.food_spawn, s2, w2) →
      ∃ s3, tick_gate s w = some (s3, w2) ∧ s3.status = GAME_OVER) ∧
    ((snek_food_entity_spawn scenario2 ⟨[], [3, 4], [2147480000, 2147480001], []⟩).1 = false ∧
      ¬ ((2147480001 : Int) - 2147480000 > 10000) ∧
      wrap_int32 (2147480000 + 10000) = -2147477296) := by
  refine ⟨food_spawn_fails_iff s w, ?_, ?_, ?_, rfl, ?_, ⟨rfl, by decide, by decide⟩⟩
  · intro hne
    cases hv : (snek_food_entity_spawn s w).1
    · exact absurd ((food_spawn_fails_iff s w).1 hv) hne
    · rfl
  · intro hr
    have hlow := (wrap_int32_range (w.ticks.getD 0 0)).1
    have he : wrap_int32 (clock_reading w 0 + 10000) = clock_reading w 0 + 10000 :=
      wrap_int32_of_range _ ⟨by unfold clock_reading; omega, hr⟩
    rw [food_spawn_fails_iff, he]
    constructor
    · rintro (h | ⟨h1, h2⟩)
      · left; omega
      · right; exact ⟨h1, by omega⟩
    · rintro (h | ⟨h1, h2⟩)
      · left; omega
      · right; exact ⟨h1, by omega⟩
  · intro h rest hs hd hb ha hf hn
    obtain ⟨w2, hr, ht, hu⟩ := update_grow s w h rest hs hd hb ha hf hn
    have hiff := food_spawn_fails_iff
      { snek_map_init s with head := moved_head s.direction h :: h :: rest } w2
    unfold clock_reading at hiff ⊢
    rw [hr, ht] at hiff
    simp only [] at hiff
    rcases hsp : snek_food_entity_spawn
      { snek_map_init s with head := moved_head s.direction h :: h :: rest } w2
      with ⟨b, s1, w1⟩
    rw [hsp] at hu hiff
    cases b with
    | false =>
      refine ⟨_, _, _, hu, Or.inl rfl, ?_⟩
      exact ⟨fun _ => hiff.1 rfl, fun _ => rfl⟩
    | true =>
      refine ⟨_, _, _, hu, Or.inr rfl, ?_⟩
      constructor
      · intro hc; cases hc
      · intro hc
        have := hiff.2 hc
        simp at this
  · intro s2 w2 hg hu
    exact ⟨_, tick_gate_failure s s2 w w2 _ hg hu rfl, rfl⟩

/-- The placement at clock readings far from the end of the `int32_t` range:
0 then 10001 fails, 0 then 10000 succeeds, and a third reading counts when the
first sample (15,26) is on the chain; a tick that meets the failure ends the
game. -/
theorem C24_placement_timeout_witness :
    (snek_food_entity_spawn scenario2 ⟨[], [3, 4], [0, 10001], []⟩).1 = false ∧
    (snek_food_entity_spawn scenario2 ⟨[], [3, 4], [0, 10000], []⟩).1 = true ∧
    (snek_food_entity_spawn scenario2 ⟨[], [13, 25, 3, 4], [0, 10000, 10001], []⟩).1 = false ∧
    (∃ s3, tick_gate scenario2 ⟨[], [3, 4], [100, 0, 20000], []⟩ = some (s3, quiet_world) ∧
      s3.status = GAME_OVER) := by
  refine ⟨?_, ?_, ?_, ?_⟩
  · exact ((C24_placement_timeout scenario2 ⟨[], [3, 4], [0, 10001], []⟩).2.2.1
      (by decide)).2 (Or.inl (by decide))
  · exact (C24_placement_timeout scenario2 ⟨[], [3, 4], [0, 10000], []⟩).2.1 (by decide)
  · exact ((C24_placement_timeout scenario2 ⟨[], [13, 25, 3, 4], [0, 10000, 10001], []⟩).2.2.1
      (by decide)).2 (Or.inr ⟨by decide, by decide⟩)
  · exact (C24_placement_timeout scenario2 ⟨[], [3, 4], [100, 0, 20000], []⟩).2.2.2.2.2.1
      _ quiet_world (by decide) rfl

/-- C25: when the chain holds no position twice and the tick returns success,
the chain the tick leaves in the game state holds no position twice either, and
it has at least one node. -/
theorem C25_chain_uniqueness (s s' : snek) (w w' : World)
    (hn : s.head.Nodup)
    (hu : snek_update s w = some (.success, s', w')) :
    s'.head.Nodup ∧ 1 ≤ s'.head.length := by
  obtain ⟨h, rest, w2, hs, -, -, hhead, -⟩ := update_success_state s s' w w' hu
  obtain ⟨st, hst, -, hhit⟩ := update_success_stamp s s' w w' hu
  have hsh : s'.head = st.head := by rw [hst]; exact (stamp_fields st).1
  rw [← hsh, hhead, Bool.eq_false_iff] at hhit
  have hnot := fun hc => hhit ((head_hits_body_iff _ _).2 hc)
  rw [hs] at hn
  rw [hhead]
  refine ⟨List.nodup_cons.2 ⟨hnot, ?_⟩, by simp⟩
  split
  · exact hn
  · exact hn.sublist (List.dropLast_sublist _)

theorem C25_chain_uniqueness_witness :
    scenario2.head.Nodup ∧
    snek_update scenario2 ⟨[], [3, 4], [], []⟩ = some (.success, scenario2_after, quiet_world) ∧
    scenario2_after.head.Nodup ∧ 1 ≤ scenario2_after.head.length :=
  ⟨by decide, rfl,
    C25_chain_uniqueness scenario2 scenario2_after ⟨[], [3, 4], [], []⟩ quiet_world
      (by decide) rfl⟩

/-- The stamping of lines 735-742 is its list of assignments, carried out in
order. -/
theorem stamp_entities_writes (s : snek) :
    stamp_entities s =
      { s with map := (stamp_writes s).foldl (fun m x => set_tile m x.1 x.2.1 x.2.2) s.map } := by
  unfold stamp_entities stamp_writes
  simp only [List.foldl_append, List.foldl_map, List.foldl_cons, List.foldl_nil]
  cases s.head <;> rfl

theorem stamp_writes_fields (s : snek) :
    stamp_writes (stamp_entities s) = stamp_writes s := by
  unfold stamp_writes
  rw [(stamp_fields s).1, (stamp_fields s).2.2.2.2.1, (stamp_fields s).2.2.2.2.2.1]

theorem interior_in_bounds (row column : Int) (h : interior row column) :
    in_bounds row column := by
  unfold interior at h
  unfold in_bounds
  unfold MAP_ROWS MAP_COLUMNS at *
  omega

/-- Where lines 735-742 write: on the nodes of the chain and on the food
position. -/
theorem stamp_writes_positions (s : snek) (x : Int × Int × Int) (hx : x ∈ stamp_writes s) :
    (⟨x.1, x.2.1⟩ : snek_entity) ∈ s.head ∨ x = (s.food_row, s.food_column, RED) := by
  unfold stamp_writes at hx
  simp only [List.mem_append, List.mem_map, List.mem_singleton] at hx
  rcases hx with (⟨t, ht, rfl⟩ | hx) | rfl
  · exact Or.inl ht
  · cases hh : s.head with
    | nil => rw [hh] at hx; simp at hx
    | cons h rest =>
      rw [hh] at hx
      simp only [List.mem_singleton] at hx
      rw [hx]
      exact Or.inl (List.mem_cons_self _ _)
  · exact Or.inr rfl

theorem food_spawn_range (s : snek) (w : World) :
    interior (snek_food_entity_spawn s w).2.1.food_row
      (snek_food_entity_spawn s w).2.1.food_column := by
  unfold interior
  rcases food_spawn_last_pass s w with h | h <;> rw [h]
  · have := spawn_pass_food_range s.head (SDL_GetTicks w).1 s (SDL_GetTicks w).2
    exact ⟨this.1.1, this.1.2, this.2.1, this.2.2⟩
  · have := spawn_pass_food_range [] (SDL_GetTicks w).1
      (spawn_pass s.head (SDL_GetTicks w).1 s (SDL_GetTicks w).2).2.2.1
      (spawn_pass s.head (SDL_GetTicks w).1 s (SDL_GetTicks w).2).2.2.2
    exact ⟨this.1.1, this.1.2, this.2.1, this.2.2⟩

/-- The boundary test of lines 644-672 lets a head in the interior move only to
a position in the interior. -/
theorem moved_interior (d : Int) (h : snek_entity) (r c : Int)
    (hi : interior h.row h.column) (hsw : switch_direction d h = .moved r c) :
    interior r c := by
  unfold switch_direction at hsw
  unfold interior at *
  unfold MAP_ROWS MAP_COLUMNS at *
  split_ifs at hsw <;> simp only [head_move.moved.injEq, reduceCtorEq] at hsw <;>
    obtain ⟨rfl, rfl⟩ := hsw <;> omega

theorem update_tail_food (fc : Bool) (s : snek) (w : World) :
    ((update_tail fc s w).2.1.food_row = s.food_row ∧
      (update_tail fc s w).2.1.food_column = s.food_column) ∨
    interior (update_tail fc s w).2.1.food_row (update_tail fc s w).2.1.food_column := by
  unfold update_tail
  have hr := food_spawn_range s w
  rcases hs : snek_food_entity_spawn s w with ⟨b, s1, w1⟩
  rw [hs] at hr
  simp only [] at hr
  split
  · exact Or.inl ⟨rfl, rfl⟩
  · split
    · right
      cases b
      · exact hr
      · simp only []
        rw [(stamp_fields _).2.2.2.2.1, (stamp_fields _).2.2.2.2.2.1]
        exact hr
    · left
      exact ⟨(stamp_fields s).2.2.2.2.1, (stamp_fields s).2.2.2.2.2.1⟩

/-- Whatever the exit of the tick: a chain in the interior stays in the
interior, and the food position is the old one or a fresh sample in the
interior. -/
theorem update_grid (s s' : snek) (w w' : World) (e : update_exit)
    (hc : ∀ p ∈ s.head, interior p.row p.column)
    (hu : snek_update s w = some (e, s', w')) :
    (∀ p ∈ s'.head, interior p.row p.column) ∧
    ((s'.food_row = s.food_row ∧ s'.food_column = s.food_column) ∨
      interior s'.food_row s'.food_column) := by
  rcases update_inv s s' w w' e hu with ⟨-, -, h3, -⟩ | ⟨h, rest, hs, hcase⟩
  · rw [h3]; exact ⟨hc, Or.inl ⟨rfl, rfl⟩⟩
  · have hinit : ∀ t : snek, t = snek_map_init s →
        (∀ p ∈ t.head, interior p.row p.column) ∧
        ((t.food_row = s.food_row ∧ t.food_column = s.food_column) ∨
          interior t.food_row t.food_column) := by
      intro t ht
      rw [ht, map_init_head, map_init_food_row, map_init_food_column]
      exact ⟨hc, Or.inl ⟨rfl, rfl⟩⟩
    rcases hcase with ⟨-, -, h3, -⟩ | ⟨r, c, hsw, hcase⟩
    · exact hinit s' h3
    · rcases hcase with ⟨-, h3⟩ | ⟨w2, hw2⟩
      · exact hinit s' h3
      · have hh : interior h.row h.column := hc h (by rw [hs]; exact List.mem_cons_self _ _)
        have hm := moved_interior s.direction h r c hh hsw
        have hf := update_tail_fields (decide (r = s.food_row ∧ c = s.food_column))
          { snek_map_init s with head := ⟨r, c⟩ ::
            (if r = s.food_row ∧ c = s.food_column then h :: rest else (h :: rest).dropLast) }
          w2
        have hfood := update_tail_food (decide (r = s.food_row ∧ c = s.food_column))
          { snek_map_init s with head := ⟨r, c⟩ ::
            (if r = s.food_row ∧ c = s.food_column then h :: rest else (h :: rest).dropLast) }
          w2
        rw [← hw2] at hf hfood
        simp only [map_init_food_row, map_init_food_column] at hf hfood
        refine ⟨?_, hfood⟩
        rw [hf.1]
        intro p hp
        rcases List.mem_cons.1 hp with rfl | hp
        · exact hm
        · apply hc p
          rw [hs]
          split at hp
          · exact hp
          · exact List.dropLast_subset _ hp

/-- A property that each block keeps, when entered with its status, is kept by
an iteration of `snek_loop`. -/
theorem snek_loop_preserves (P : snek → Prop)
    (h1 : ∀ s w, s.status = START_MENU → P s → P (loop_start_menu s w).2.1)
    (h2 : ∀ s w r, s.status = MID_GAME → P s → loop_mid_game s w = some r → P r.2.1)
    (h3 : ∀ s w, s.status = GAME_OVER → P s → P (loop_game_over s w).2.1)
    (h4 : ∀ s w, s.status = PAUSE → P s → P (loop_pause s w).2.1)
    (s s' : snek) (w w' : World) (hp : P s) (hl : snek_loop s w = some (s', w')) : P s' := by
  unfold snek_loop at hl
  simp only [] at hl
  have hq1 : P (if s.status = START_MENU then loop_start_menu s w else (false, s, w)).2.1 := by
    split
    · exact h1 s w (by assumption) hp
    · exact hp
  generalize (if s.status = START_MENU then loop_start_menu s w else (false, s, w)) = r1
    at hl hq1
  obtain ⟨b1, s1, w1⟩ := r1
  simp only [] at hl hq1
  cases b1 with
  | true =>
    simp only [if_true, Option.some.injEq, Prod.mk.injEq] at hl
    rw [← hl.1]; exact hq1
  | false =>
    simp only [Bool.false_eq_true, if_false] at hl
    have hq2 : ∀ r, (if s1.status = MID_GAME then loop_mid_game s1 w1
        else some (false, s1, w1)) = some r → P r.2.1 := by
      intro r hr
      split at hr
      · exact h2 s1 w1 r (by assumption) hq1 hr
      · simp only [Option.some.injEq] at hr
        rw [← hr]; exact hq1
    generalize (if s1.status = MID_GAME then loop_mid_game s1 w1
      else some (false, s1, w1)) = r2 at hl hq2
    cases r2 with
    | none => simp at hl
    | some r =>
      obtain ⟨b2, s2, w2⟩ := r
      have hp2 : P s2 := hq2 _ rfl
      cases b2 with
      | true =>
        simp only [Option.some.injEq, Prod.mk.injEq] at hl
        rw [← hl.1]; exact hp2
      | false =>
        simp only [] at hl
        have hq3 : P (if s2.status = GAME_OVER then loop_game_over s2 w2
            else (false, s2, w2)).2.1 := by
          split
          · exact h3 s2 w2 (by assumption) hp2
          · exact hp2
        generalize (if s2.status = GAME_OVER then loop_game_over s2 w2
          else (false, s2, w2)) = r3 at hl hq3
        obtain ⟨b3, s3, w3⟩ := r3
        simp only [] at hl hq3
        cases b3 with
        | true =>
          simp only [if_true, Option.some.injEq, Prod.mk.injEq] at hl
          rw [← hl.1]; exact hq3
        | false =>
          simp only [Bool.false_eq_true, if_false, Option.some.injEq] at hl
          rw [← Prod.mk.eta (p := (if s3.status = PAUSE then loop_pause s3 w3
            else (false, s3, w3)).2), Prod.mk.injEq] at hl
          rw [← hl.1]
          split
          · exact h4 s3 w3 (by assumption) hq3
          · exact hq3

/-- A property every iteration keeps holds all along the main loop. -/
theorem main_loop_preserves (P : snek → Prop)
    (hstep : ∀ s w s' w', P s → snek_loop s w = some (s', w') → P s')
    (ws : List World) : ∀ (s t : snek), P s → main_loop ws s = some t → P t := by
  induction ws with
  | nil =>
    intro s t hp h
    simp only [main_loop, Option.some.injEq] at h
    rw [← h]; exact hp
  | cons w ws ih =>
    intro s t hp h
    unfold main_loop at h
    split_ifs at h
    · simp only [Option.some.injEq] at h
      rw [← h]; exact hp
    · cases hl : snek_loop s w with
      | none => rw [hl] at h; simp at h
      | some r =>
        rw [hl] at h
        simp only [] at h
        exact ih r.1 t (hstep s w r.1 r.2 hp hl) h

/-- The menu block leaves the chain, the score and the food alone, and ends in
the status it was entered with, in START_MENU, in MID_GAME or in QUIT_LOOP. -/
theorem loop_start_menu_data (s : snek) (w : World) :
    (loop_start_menu s w).2.1.head = s.head ∧ (loop_start_menu s w).2.1.score = s.score ∧
    (loop_start_menu s w).2.1.food_row = s.food_row ∧
    (loop_start_menu s w).2.1.food_column = s.food_column ∧
    ((loop_start_menu s w).2.1.status = s.status ∨
      (loop_start_menu s w).2.1.status = START_MENU ∨
      (loop_start_menu s w).2.1.status = MID_GAME ∨
      (loop_start_menu s w).2.1.status = QUIT_LOOP) := by
  cases he : w.events with
  | nil =>
    have : loop_start_menu s w = (false, s, w) := by
      simp [loop_start_menu, SDL_PollEvent, he]
    rw [this]
    exact ⟨rfl, rfl, rfl, rfl, Or.inl rfl⟩
  | cons e es =>
    by_cases hk : e.type = SDL_KEYDOWN
    · rw [loop_start_menu_key s w e es he hk]
      obtain ⟨-, f2, f3, f4, f5, -⟩ := snek_input_fields { s with event := e }
      simp only []
      split_ifs <;> exact ⟨f2, f3, f4, f5, by simp⟩
    · unfold loop_start_menu SDL_PollEvent
      rw [he]
      simp only []
      rw [if_neg hk]
      split_ifs
      · exact ⟨rfl, rfl, rfl, rfl, Or.inr (Or.inr (Or.inr rfl))⟩
      · exact ⟨rfl, rfl, rfl, rfl, Or.inl rfl⟩

/-- The PAUSE block leaves the chain, the score and the food alone, and ends in
the status it was entered with, in MID_GAME or in QUIT_LOOP. -/
theorem loop_pause_data (s : snek) (w : World) :
    (loop_pause s w).2.1.head = s.head ∧ (loop_pause s w).2.1.score = s.score ∧
    (loop_pause s w).2.1.food_row = s.food_row ∧
    (loop_pause s w).2.1.food_column = s.food_column ∧
    ((loop_pause s w).2.1.status = s.status ∨ (loop_pause s w).2.1.status = MID_GAME ∨
      (loop_pause s w).2.1.status = QUIT_LOOP) := by
  rcases loop_pause_cases s w with ⟨-, h⟩ | ⟨e, es, -, ⟨-, h⟩ | ⟨-, -, h⟩ | ⟨-, -, h⟩⟩ <;>
    rw [h] <;> simp

/-- The timed update, by its two branches: the gate is closed and only the
clock reading is stored, or `snek_update` has run and its `false` return has
been answered with GAME_OVER. -/
theorem tick_gate_cases (s s' : snek) (w w' : World) (ht : tick_gate s w = some (s', w')) :
    s' = { s with current_time := (SDL_GetTicks w).1 } ∨
    ∃ e s2, snek_update { s with current_time := (SDL_GetTicks w).1 } (SDL_GetTicks w).2 =
        some (e, s2, w') ∧
      s' = { (if e.result = false then { s2 with status := GAME_OVER } else s2) with
        last_time := (SDL_GetTicks w).1 } := by
  by_cases hg : (SDL_GetTicks w).1 > wrap_int32 (s.last_time + s.difficulty)
  · right
    cases hu : snek_update { s with current_time := (SDL_GetTicks w).1 } (SDL_GetTicks w).2 with
    | none => simp [tick_gate, hg, hu] at ht
    | some r =>
      obtain ⟨e, s2, w2⟩ := r
      rw [tick_gate_open s s2 w w2 e hg hu] at ht
      simp only [Option.some.injEq, Prod.mk.injEq] at ht
      rw [← ht.2]
      exact ⟨e, s2, rfl, ht.1.symm⟩
  · left
    have hc := tick_gate_closed s w hg
    rw [hc] at ht
    simp only [Option.some.injEq, Prod.mk.injEq] at ht
    exact ht.1.symm

/-- The Playing block: it ends on a quit event, or it runs the timed update on
a struct with the chain, the score and the food it was entered with. -/
theorem loop_mid_game_cases (s s' : snek) (w w' : World) (b : Bool)
    (hm : loop_mid_game s w = some (b, s', w')) :
    (s'.head = s.head ∧ s'.score = s.score ∧ s'.food_row = s.food_row ∧
      s'.food_column = s.food_column ∧ s'.status = QUIT_LOOP) ∨
    ∃ t v, t.head = s.head ∧ t.score = s.score ∧ t.food_row = s.food_row ∧
      t.food_column = s.food_column ∧ (t.status = s.status ∨ t.status = PAUSE) ∧
      tick_gate t v = some (s', w') := by
  unfold loop_mid_game SDL_PollEvent at hm
  have key : ∀ (t : snek) (v : World),
      (tick_gate t v).map (fun r => (false, r)) = some (b, s', w') →
      tick_gate t v = some (s', w') := by
    intro t v h
    cases hg : tick_gate t v with
    | none => rw [hg] at h; simp at h
    | some r =>
      rw [hg] at h
      simp only [Option.map_some', Option.some.injEq, Prod.mk.injEq] at h
      rw [h.2]
  cases he : w.events with
  | nil =>
    rw [he] at hm
    exact Or.inr ⟨s, _, rfl, rfl, rfl, rfl, Or.inl rfl, key _ _ hm⟩
  | cons e es =>
    rw [he] at hm
    simp only [] at hm
    split_ifs at hm
    · simp only [Option.some.injEq, Prod.mk.injEq] at hm
      rw [← hm.2.1]
      exact Or.inl ⟨rfl, rfl, rfl, rfl, rfl⟩
    · have k := key _ _ hm
      refine Or.inr ⟨_, _, ?_, ?_, ?_, ?_, ?_, k⟩
      · rfl
      · rfl
      · rfl
      · rfl
      · exact Or.inr rfl
    · obtain ⟨-, f2, f3, f4, f5, -, f7, -⟩ := snek_input_fields { s with event := e }
      have k := key _ _ hm
      exact Or.inr ⟨_, _, f2, f3, f4, f5, Or.inl f7, k⟩
    · have k := key _ _ hm
      refine Or.inr ⟨_, _, ?_, ?_, ?_, ?_, ?_, k⟩
      · rfl
      · rfl
      · rfl
      · rfl
      · exact Or.inl rfl

/-- The GAME_OVER block: nothing but the stored event and the status change,
or, on a key press, the restart of lines 920-927. -/
theorem loop_game_over_cases (s : snek) (w : World) :
    ((loop_game_over s w).2.1.head = s.head ∧ (loop_game_over s w).2.1.score = s.score ∧
      (loop_game_over s w).2.1.food_row = s.food_row ∧
      (loop_game_over s w).2.1.food_column = s.food_column ∧
      ((loop_game_over s w).2.1.status = s.status ∨
        (loop_game_over s w).2.1.status = QUIT_LOOP)) ∨
    (((loop_game_over s w).2.1.head = [] ∨
        (loop_game_over s w).2.1.head = [⟨MAP_ROWS / 2, MAP_COLUMNS / 2⟩]) ∧
      (loop_game_over s w).2.1.score = 1 ∧
      (loop_game_over s w).2.1.status = START_MENU ∧
      interior (loop_game_over s w).2.1.food_row (loop_game_over s w).2.1.food_column) := by
  cases he : w.events with
  | nil =>
    left
    have : loop_game_over s w = (false, s, w) := by
      simp [loop_game_over, SDL_PollEvent, he]
    rw [this]
    exact ⟨rfl, rfl, rfl, rfl, Or.inl rfl⟩
  | cons e es =>
    by_cases hk : e.type = SDL_KEYDOWN
    · right
      rw [loop_game_over_key s w e es he hk]
      have hn : (snek_entity_new (MAP_ROWS / 2) (MAP_COLUMNS / 2) { w with events := es }).1 = [] ∨
          (snek_entity_new (MAP_ROWS / 2) (MAP_COLUMNS / 2) { w with events := es }).1 =
            [⟨MAP_ROWS / 2, MAP_COLUMNS / 2⟩] := by
        unfold snek_entity_new
        rcases malloc { w with events := es } with ⟨b, w1⟩
        cases b
        · exact Or.inl rfl
        · exact Or.inr rfl
      generalize snek_entity_new (MAP_ROWS / 2) (MAP_COLUMNS / 2) { w with events := es } = n
        at hn
      have hf := (food_spawn_fields { s with event := e, head := n.1 } n.2).1
      have hr := food_spawn_range { s with event := e, head := n.1 } n.2
      generalize snek_food_entity_spawn { s with event := e, head := n.1 } n.2 = r at hf hr
      refine ⟨?_, rfl, rfl, ?_⟩
      · show (snek_map_init r.2.1).head = [] ∨ (snek_map_init r.2.1).head = _
        rw [map_init_head, hf]
        exact hn
      · show interior (snek_map_init r.2.1).food_row (snek_map_init r.2.1).food_column
        rw [map_init_food_row, map_init_food_column]
        exact hr
    · left
      unfold loop_game_over SDL_PollEvent
      rw [he]
      simp only []
      rw [if_neg hk]
      split_ifs <;> simp

/-- What `snek_init` leaves on success: the single node in the middle of the
grid and a food position sampled by `snek_food_entity_spawn`. -/
theorem snek_init_data (fresh s0 : snek) (sdl : SDL_setup) (w w0 : World)
    (hi : snek_init fresh sdl w = (some s0, w0)) :
    s0.head = [⟨MAP_ROWS / 2, MAP_COLUMNS / 2⟩] ∧ interior s0.food_row s0.food_column := by
  unfold snek_init at hi
  rcases hm : malloc w with ⟨b, w1⟩
  rw [hm] at hi
  cases b with
  | false => simp at hi
  | true =>
    simp only [] at hi
    by_cases c1 : sdl.sdl = false
    · rw [if_pos c1] at hi; simp at hi
    rw [if_neg c1] at hi
    by_cases c2 : sdl.window = false
    · rw [if_pos c2] at hi; simp at hi
    rw [if_neg c2] at hi
    by_cases c3 : sdl.renderer = false
    · rw [if_pos c3] at hi; simp at hi
    rw [if_neg c3] at hi
    have hone : (snek_entity_new (MAP_ROWS / 2) (MAP_COLUMNS / 2) w1).1 = [] ∨
        (snek_entity_new (MAP_ROWS / 2) (MAP_COLUMNS / 2) w1).1 =
          [⟨MAP_ROWS / 2, MAP_COLUMNS / 2⟩] := by
      unfold snek_entity_new
      rcases malloc w1 with ⟨b, w1⟩
      cases b
      · exact Or.inl rfl
      · exact Or.inr rfl
    rcases hn : snek_entity_new (MAP_ROWS / 2) (MAP_COLUMNS / 2) w1 with ⟨n, w2⟩
    rw [hn] at hi hone
    simp only [] at hone
    cases n with
    | nil => simp at hi
    | cons a as =>
      simp only [] at hi
      have hf := (food_spawn_fields (snek_map_init { fresh with head := a :: as }) w2).1
      have hr := food_spawn_range (snek_map_init { fresh with head := a :: as }) w2
      rcases hsp : snek_food_entity_spawn (snek_map_init { fresh with head := a :: as }) w2
        with ⟨b2, s2, w3⟩
      rw [hsp] at hi hf hr
      simp only [map_init_head] at hf hr
      cases b2 with
      | false => simp at hi
      | true =>
        simp only [] at hi
        by_cases c4 : sdl.ttf = false
        · rw [if_pos c4] at hi; simp at hi
        rw [if_neg c4] at hi
        by_cases c5 : sdl.font = false
        · rw [if_pos c5] at hi; simp at hi
        rw [if_neg c5] at hi
        simp only [Prod.mk.injEq, Option.some.injEq] at hi
        rw [← hi.1]
        refine ⟨?_, hr⟩
        show s2.head = _
        rw [hf]
        rcases hone with h | h
        · simp at h
        · exact h

theorem tick_gate_grid (s s' : snek) (w w' : World) (hp : grid_safe s)
    (ht : tick_gate s w = some (s', w')) : grid_safe s' := by
  rcases tick_gate_cases s s' w w' ht with h | ⟨e, s2, hu, h⟩
  · rw [h]; exact hp
  · obtain ⟨g1, g2⟩ := update_grid { s with current_time := (SDL_GetTicks w).1 } s2 _ w' e
      hp.1 hu
    have g3 : interior s2.food_row s2.food_column := by
      rcases g2 with ⟨k1, k2⟩ | k
      · rw [k1, k2]; exact hp.2
      · exact k
    rw [h]
    split <;> exact ⟨g1, g3⟩

/-- An iteration of `snek_loop` keeps the chain and the food in the playable
region. -/
theorem snek_loop_grid (s s' : snek) (w w' : World) (hp : grid_safe s)
    (hl : snek_loop s w = some (s', w')) : grid_safe s' := by
  refine snek_loop_preserves grid_safe ?_ ?_ ?_ ?_ s s' w w' hp hl
  · intro s w _ hp
    obtain ⟨f1, -, f3, f4, -⟩ := loop_start_menu_data s w
    unfold grid_safe
    rw [f1, f3, f4]
    exact hp
  · intro s w r _ hp hm
    obtain ⟨b, s2, w2⟩ := r
    rcases loop_mid_game_cases s s2 w w2 b hm with ⟨f1, -, f3, f4, -⟩ |
      ⟨t, v, f1, -, f3, f4, -, ht⟩
    · unfold grid_safe
      rw [f1, f3, f4]
      exact hp
    · apply tick_gate_grid t s2 v w2 _ ht
      unfold grid_safe
      rw [f1, f3, f4]
      exact hp
  · intro s w _ hp
    rcases loop_game_over_cases s w with ⟨f1, -, f3, f4, -⟩ | ⟨f1, -, -, f4⟩
    · unfold grid_safe
      rw [f1, f3, f4]
      exact hp
    · refine ⟨?_, f4⟩
      rcases f1 with f1 | f1 <;> rw [f1]
      · intro p hp; simp at hp
      · intro p hp
        rw [List.mem_singleton] at hp
        rw [hp]
        decide
  · intro s w _ hp
    obtain ⟨f1, -, f3, f4, -⟩ := loop_pause_data s w
    unfold grid_safe
    rw [f1, f3, f4]
    exact hp

/-- Every struct met along a run of the program, from a successful `snek_init`
through any number of iterations of the main loop, has its chain and its food
in the playable region. -/
theorem run_grid (fresh s0 t : snek) (sdl : SDL_setup) (w w0 : World) (ws : List World)
    (hi : snek_init fresh sdl w = (some s0, w0)) (hm : main_loop ws s0 = some t) :
    grid_safe t := by
  apply main_loop_preserves grid_safe
    (fun s w s' w' hp hl => snek_loop_grid s s' w w' hp hl) ws s0 t _ hm
  obtain ⟨h1, h2⟩ := snek_init_data fresh s0 sdl w w0 hi
  refine ⟨?_, h2⟩
  rw [h1]
  intro p hp
  rw [List.mem_singleton] at hp
  rw [hp]
  decide

/-- The stamps of a tick whose chain starts in the interior: the chain it
leaves is in the interior, on success every stamp but the food stamp indexes
within the array, and with the food in the interior before the tick it is so
after the tick and every stamp indexes within the array. -/
theorem update_stamps (s s' : snek) (w w' : World) (e : update_exit)
    (hc : ∀ p ∈ s.head, interior p.row p.column)
    (hu : snek_update s w = some (e, s', w')) :
    (∀ p ∈ s'.head, interior p.row p.column) ∧
    (e = .success → ∃ st, s' = stamp_entities st ∧
      ∀ x ∈ stamp_writes st, x ≠ (st.food_row, st.food_column, RED) → in_bounds x.1 x.2.1) ∧
    (interior s.food_row s.food_column →
      interior s'.food_row s'.food_column ∧
      (e = .success → ∃ st, s' = stamp_entities st ∧
        ∀ x ∈ stamp_writes st, in_bounds x.1 x.2.1)) := by
  obtain ⟨g1, g2⟩ := update_grid s s' w w' e hc hu
  have hpos : ∀ st : snek, s' = stamp_entities st → ∀ x ∈ stamp_writes st,
      x ≠ (st.food_row, st.food_column, RED) → in_bounds x.1 x.2.1 := by
    intro st hst x hx hne
    rcases stamp_writes_positions st x hx with hm | hm
    · apply interior_in_bounds
      have : st.head = s'.head := by rw [hst]; exact (stamp_fields st).1.symm
      rw [this] at hm
      exact g1 _ hm
    · exact absurd hm hne
  refine ⟨g1, ?_, ?_⟩
  · intro he
    rw [he] at hu
    obtain ⟨st, hst, -, -⟩ := update_success_stamp s s' w w' hu
    exact ⟨st, hst, hpos st hst⟩
  · intro hf
    have g3 : interior s'.food_row s'.food_column := by
      rcases g2 with ⟨k1, k2⟩ | k
      · rw [k1, k2]; exact hf
      · exact k
    refine ⟨g3, ?_⟩
    intro he
    rw [he] at hu
    obtain ⟨st, hst, -, -⟩ := update_success_stamp s s' w w' hu
    refine ⟨st, hst, ?_⟩
    intro x hx
    by_cases hne : x = (st.food_row, st.food_column, RED)
    · rw [hne]
      apply interior_in_bounds
      have e1 : st.food_row = s'.food_row := by
        rw [hst]; exact (stamp_fields st).2.2.2.2.1.symm
      have e2 : st.food_column = s'.food_column := by
        rw [hst]; exact (stamp_fields st).2.2.2.2.2.1.symm
      show interior st.food_row st.food_column
      rw [e1, e2]
      exact g3
    · exact hpos st hst x hx hne

/-- C26: if every chain position has its row in [2, MAP_ROWS-2] and its column
in [1, MAP_COLUMNS-2] before a tick and the direction is one of Up, Down,
Left, Right, then the tick returns, and whatever its exit the same holds for
the chain it leaves; on success the chain and head stamps of lines 735-741
index within 0 <= row < MAP_ROWS, 0 <= column < MAP_COLUMNS, and so does the
food stamp of line 742, the food position being in that region before the
tick and after it.  The food position is written at lines 224-225 only:
every struct met along a run of the program, from `snek_init` through the
main loop, has its chain and its food in the region, so that every stamp of
every tick of a run indexes within the array. -/
theorem C26_grid_bounds (s : snek) (w : World)
    (hc : ∀ p ∈ s.head, interior p.row p.column)
    (hd : s.direction = UP ∨ s.direction = DOWN ∨ s.direction = LEFT ∨ s.direction = RIGHT) :
    (∃ e s' w', snek_update s w = some (e, s', w')) ∧
    (∀ e s' w', snek_update s w = some (e, s', w') →
      (∀ p ∈ s'.head, interior p.row p.column) ∧
      (e = .success → ∃ st, s' = stamp_entities st ∧
        ∀ x ∈ stamp_writes st, x ≠ (st.food_row, st.food_column, RED) → in_bounds x.1 x.2.1) ∧
      (interior s.food_row s.food_column →
        interior s'.food_row s'.food_column ∧
        (e = .success → ∃ st, s' = stamp_entities st ∧
          ∀ x ∈ stamp_writes st, in_bounds x.1 x.2.1))) ∧
    (∀ (fresh s0 t : snek) (sdl : SDL_setup) (v v0 : World) (ws : List World),
      snek_init fresh sdl v = (some s0, v0) → main_loop ws s0 = some t →
      (∀ p ∈ t.head, interior p.row p.column) ∧ interior t.food_row t.food_column ∧
      ∀ (u u' : World) (e : update_exit) (t' : snek),
        snek_update t u = some (e, t', u') →
        (∀ p ∈ t'.head, interior p.row p.column) ∧ interior t'.food_row t'.food_column ∧
        (e = .success → ∃ st, t' = stamp_entities st ∧
          ∀ x ∈ stamp_writes st, in_bounds x.1 x.2.1)) := by
  refine ⟨update_total s w hd, ?_, ?_⟩
  · intro e s' w' hu
    exact update_stamps s s' w w' e hc hu
  · intro fresh s0 t sdl v v0 ws hi hm
    obtain ⟨k1, k2⟩ := run_grid fresh s0 t sdl v v0 ws hi hm
    refine ⟨k1, k2, ?_⟩
    intro u u' e t' hu
    obtain ⟨g1, -, g3⟩ := update_stamps t t' u u' e k1 hu
    exact ⟨g1, (g3 k2).1, (g3 k2).2⟩

theorem C26_grid_bounds_witness :
    (∀ p ∈ scenario2.head, interior p.row p.column) ∧
    interior scenario2.food_row scenario2.food_column ∧
    snek_update scenario2 ⟨[], [3, 4], [], []⟩ = some (.success, scenario2_after, quiet_world) ∧
    (∀ p ∈ scenario2_after.head, interior p.row p.column) ∧
    interior scenario2_after.food_row scenario2_after.food_column ∧
    (∃ st, scenario2_after = stamp_entities st ∧ ∀ x ∈ stamp_writes st, in_bounds x.1 x.2.1) ∧
    snek_init (example_state [] UP 0 0) ⟨true, true, true, true, true⟩ ⟨[], [13, 26], [], []⟩ =
      (some { example_state [⟨15, 26⟩] UP 15 27 with status := START_MENU }, quiet_world) ∧
    main_loop [⟨[], [], [], [⟨SDL_KEYDOWN, SDLK_d⟩]⟩]
        { example_state [⟨15, 26⟩] UP 15 27 with status := START_MENU } =
      some { scenario2 with event := ⟨SDL_KEYDOWN, SDLK_d⟩ } ∧
    snek_update { scenario2 with event := ⟨SDL_KEYDOWN, SDLK_d⟩ } ⟨[], [3, 4], [], []⟩ =
      some (.success, { scenario2_after with event := ⟨SDL_KEYDOWN, SDLK_d⟩ }, quiet_world) ∧
    (∃ st, { scenario2_after with event := ⟨SDL_KEYDOWN, SDLK_d⟩ } = stamp_entities st ∧
      ∀ x ∈ stamp_writes st, in_bounds x.1 x.2.1) :=
  ⟨by decide, by decide, rfl,
    ((C26_grid_bounds scenario2 ⟨[], [3, 4], [], []⟩ (by decide) (Or.inr (Or.inr (Or.inr rfl)))).2.1
      .success scenario2_after quiet_world rfl).1,
    (((C26_grid_bounds scenario2 ⟨[], [3, 4], [], []⟩ (by decide)
      (Or.inr (Or.inr (Or.inr rfl)))).2.1
      .success scenario2_after quiet_world rfl).2.2 (by decide)).1,
    (((C26_grid_bounds scenario2 ⟨[], [3, 4], [], []⟩ (by decide)
      (Or.inr (Or.inr (Or.inr rfl)))).2.1
      .success scenario2_after quiet_world rfl).2.2 (by decide)).2 rfl,
    rfl, rfl, rfl,
    (((C26_grid_bounds scenario2 ⟨[], [3, 4], [], []⟩ (by decide)
      (Or.inr (Or.inr (Or.inr rfl)))).2.2
      (example_state [] UP 0 0) { example_state [⟨15, 26⟩] UP 15 27 with status := START_MENU }
      { scenario2 with event := ⟨SDL_KEYDOWN, SDLK_d⟩ } ⟨true, true, true, true, true⟩
      ⟨[], [13, 26], [], []⟩ quiet_world [⟨[], [], [], [⟨SDL_KEYDOWN, SDLK_d⟩]⟩] rfl rfl).2.2
      ⟨[], [3, 4], [], []⟩ quiet_world .success
      { scenario2_after with event := ⟨SDL_KEYDOWN, SDLK_d⟩ } rfl).2.2 rfl⟩

/-- A successful tick moves the score and the length of the chain by the same
amount: both by one when the food was consumed, neither otherwise. -/
theorem update_score (s s' : snek) (w w' : World)
    (hu : snek_update s w = some (.success, s', w')) :
    s'.score - (s'.head.length : Int) = s.score - (s.head.length : Int) := by
  obtain ⟨h, rest, w2, hs, -, -, hhead, ht⟩ := update_success_state s s' w w' hu
  obtain ⟨h1, h2⟩ := update_tail_success _ _ _ _ _ ht
  by_cases hf : moved_head s.direction h = ⟨s.food_row, s.food_column⟩
  · obtain ⟨-, k2⟩ := h1 (by simp [hf])
    have hf' := (food_spawn_fields { snek_map_init s with head := s'.head } w2).2.1
    generalize (snek_food_entity_spawn { snek_map_init s with head := s'.head } w2).2.1 = s1
      at k2 hf'
    have hsc : s'.score = s.score + 1 := by
      rw [k2, (stamp_fields _).2.1]
      show s1.score + 1 = s.score + 1
      rw [hf']
      exact congrArg (· + 1) (map_init_score s)
    rw [hsc, hhead, hs, if_pos hf]
    simp only [List.length_cons]
    push_cast
    ring
  · obtain ⟨k1, -⟩ := h2 (by simp [hf])
    have hsc : s'.score = s.score := by
      rw [k1, (stamp_fields _).2.1]; exact map_init_score s
    rw [hsc, hhead, hs, if_neg hf]
    simp only [List.length_cons, List.length_dropLast, Nat.add_sub_cancel]

theorem successful_ticks_score (l : List (Int × World)) :
    ∀ (s t : snek), s.score = (s.head.length : Int) → successful_ticks l s = some t →
      t.score = (t.head.length : Int) := by
  induction l with
  | nil =>
    intro s t hs h
    simp only [successful_ticks, Option.some.injEq] at h
    rw [← h]; exact hs
  | cons a l ih =>
    intro s t hs h
    obtain ⟨d, w⟩ := a
    unfold successful_ticks at h
    cases hu : snek_update { s with direction := d } w with
    | none => rw [hu] at h; simp at h
    | some r =>
      obtain ⟨e, s1, w1⟩ := r
      rw [hu] at h
      cases e <;> simp only [reduceCtorEq] at h
      apply ih s1 t _ h
      have := update_score _ s1 w w1 hu
      simp only [] at this
      omega

/-- Outside GAME_OVER and QUIT_LOOP the score is the length of the chain, unless
the chain is empty (the restart of lines 920-927 with `malloc` failing): an
iteration of `snek_loop` keeps this. -/
theorem snek_loop_score (s s' : snek) (w w' : World)
    (hp : s.status = GAME_OVER ∨ s.status = QUIT_LOOP ∨ s.head = [] ∨
      s.score = (s.head.length : Int))
    (hl : snek_loop s w = some (s', w')) :
    s'.status = GAME_OVER ∨ s'.status = QUIT_LOOP ∨ s'.head = [] ∨
      s'.score = (s'.head.length : Int) := by
  refine snek_loop_preserves
    (fun t => t.status = GAME_OVER ∨ t.status = QUIT_LOOP ∨ t.head = [] ∨
      t.score = (t.head.length : Int)) ?_ ?_ ?_ ?_ s s' w w' hp hl
  · intro s w hst hp
    have hp' : s.head = [] ∨ s.score = (s.head.length : Int) := by
      rcases hp with h | h | h
      · rw [hst] at h; exact absurd h (by decide)
      · rw [hst] at h; exact absurd h (by decide)
      · exact h
    obtain ⟨f1, f2, -, -, -⟩ := loop_start_menu_data s w
    show _ ∨ _ ∨ (loop_start_menu s w).2.1.head = [] ∨
      (loop_start_menu s w).2.1.score = ((loop_start_menu s w).2.1.head.length : Int)
    rw [f1, f2]
    exact Or.inr (Or.inr hp')
  · intro s w r hst hp hm
    have hp' : s.head = [] ∨ s.score = (s.head.length : Int) := by
      rcases hp with h | h | h
      · rw [hst] at h; exact absurd h (by decide)
      · rw [hst] at h; exact absurd h (by decide)
      · exact h
    obtain ⟨b, s2, w2⟩ := r
    show _ ∨ _ ∨ s2.head = [] ∨ s2.score = (s2.head.length : Int)
    rcases loop_mid_game_cases s s2 w w2 b hm with ⟨-, -, -, -, f5⟩ |
      ⟨t, v, f1, f2, -, -, -, ht⟩
    · exact Or.inr (Or.inl f5)
    · rw [← f1, ← f2] at hp'
      rcases tick_gate_cases t s2 v w2 ht with h | ⟨e, s3, hu, h⟩
      · rw [h]
        exact Or.inr (Or.inr hp')
      · cases he : e.result with
        | false =>
          left
          rw [h, he]
          rfl
        | true =>
          have hes : e = .success := by
            cases e <;> first | rfl | (simp [update_exit.result] at he)
          rw [hes] at hu
          right; right; right
          have hsc := update_score _ s3 _ w2 hu
          obtain ⟨hh, rest, -, hs, -⟩ := update_success_state _ s3 _ w2 hu
          simp only [] at hsc hs
          rw [h, he]
          simp only [Bool.true_eq_false, if_false]
          rcases hp' with k | k
          · rw [k] at hs; simp at hs
          · omega
  · intro s w hst hp
    show _ ∨ _ ∨ (loop_game_over s w).2.1.head = [] ∨
      (loop_game_over s w).2.1.score = ((loop_game_over s w).2.1.head.length : Int)
    rcases loop_game_over_cases s w with ⟨-, -, -, -, f5⟩ | ⟨f1, f2, -, -⟩
    · rcases f5 with f5 | f5
      · exact Or.inl (f5.trans hst)
      · exact Or.inr (Or.inl f5)
    · rcases f1 with f1 | f1
      · exact Or.inr (Or.inr (Or.inl f1))
      · right; right; right
        rw [f1, f2]
        rfl
  · intro s w hst hp
    have hp' : s.head = [] ∨ s.score = (s.head.length : Int) := by
      rcases hp with h | h | h
      · rw [hst] at h; exact absurd h (by decide)
      · rw [hst] at h; exact absurd h (by decide)
      · exact h
    obtain ⟨f1, f2, -, -, -⟩ := loop_pause_data s w
    show _ ∨ _ ∨ (loop_pause s w).2.1.head = [] ∨
      (loop_pause s w).2.1.score = ((loop_pause s w).2.1.head.length : Int)
    rw [f1, f2]
    exact Or.inr (Or.inr hp')

/-- Along a run of the program, from a successful `snek_init` through any
number of iterations of the main loop: outside GAME_OVER and QUIT_LOOP the
score is the length of the chain, unless the chain is empty. -/
theorem run_score (fresh s0 t : snek) (sdl : SDL_setup) (w w0 : World) (ws : List World)
    (hi : snek_init fresh sdl w = (some s0, w0)) (hm : main_loop ws s0 = some t) :
    t.status = GAME_OVER ∨ t.status = QUIT_LOOP ∨ t.head = [] ∨
      t.score = (t.head.length : Int) := by
  apply main_loop_preserves
    (fun t => t.status = GAME_OVER ∨ t.status = QUIT_LOOP ∨ t.head = [] ∨
      t.score = (t.head.length : Int))
    (fun s w s' w' hp hl => snek_loop_score s s' w w' hp hl) ws s0 t _ hm
  obtain ⟨h1, -⟩ := snek_init_data fresh s0 sdl w w0 hi
  obtain ⟨-, -, h2, -⟩ := snek_init_difficulty fresh s0 sdl w w0 hi
  right; right; right
  rw [h1, h2]
  rfl

/-- The restart of lines 920-927 with the allocation of the new node
succeeding: a chain of one node and score 1. -/
theorem snek_loop_restart (s : snek) (w : World) (e : SDL_Event) (es : List SDL_Event)
    (hst : s.status = GAME_OVER) (hw : w.events = e :: es) (hk : e.type = SDL_KEYDOWN)
    (ha : mallocs_succeed 1 w) :
    ∃ s' w', snek_loop s w = some (s', w') ∧
      s'.head = [⟨MAP_ROWS / 2, MAP_COLUMNS / 2⟩] ∧ s'.score = 1 ∧ s'.status = START_MENU := by
  have ha' : mallocs_succeed (0 + 1) { w with events := es } := ha
  obtain ⟨hn, -⟩ := entity_new_of_succeed (MAP_ROWS / 2) (MAP_COLUMNS / 2) ha'
  have hg := loop_game_over_key s w e es hw hk
  rw [hn] at hg
  simp only [] at hg
  have hf := food_spawn_fields
    { s with event := e, head := [⟨MAP_ROWS / 2, MAP_COLUMNS / 2⟩] }
    (malloc { w with events := es }).2
  generalize snek_food_entity_spawn
    { s with event := e, head := [⟨MAP_ROWS / 2, MAP_COLUMNS / 2⟩] }
    (malloc { w with events := es }).2 = r at hg hf
  have h4 : ¬ (START_MENU = PAUSE) := by decide
  refine ⟨{ snek_map_init r.2.1 with score := 1, status := START_MENU }, r.2.2, ?_, ?_,
    rfl, rfl⟩
  · rw [snek_loop_game_over s w hst, hg]
    simp only [Bool.false_eq_true, if_false, h4]
  · show (snek_map_init r.2.1).head = _
    rw [map_init_head, hf.1]

/-- C27, as stated, fails: restart does not always set the chain length to 1.
The iteration starts in GAME_OVER with a key press pending and `malloc`
returns `NULL`; line 922 stores that `NULL` in `snek->head` unchecked and line
925 sets the score to 1: the iteration ends in START_MENU with score 1 and a
chain of length 0, a state reached from restart through no tick at all. -/
theorem C27_counterexample :
    snek_loop { example_state [⟨15, 51⟩, ⟨15, 50⟩] RIGHT 5 5 with status := GAME_OVER, score := 2 }
        ⟨[false], [7, 9], [], [⟨SDL_KEYDOWN, SDLK_w⟩]⟩ =
      some ({ example_state [] RIGHT 9 10 with
          status := START_MENU, score := 1, event := ⟨SDL_KEYDOWN, SDLK_w⟩ }, quiet_world) ∧
    successful_ticks []
        { example_state [] RIGHT 9 10 with
          status := START_MENU, score := 1, event := ⟨SDL_KEYDOWN, SDLK_w⟩ } =
      some { example_state [] RIGHT 9 10 with
          status := START_MENU, score := 1, event := ⟨SDL_KEYDOWN, SDLK_w⟩ } ∧
    ({ example_state [] RIGHT 9 10 with
        status := START_MENU, score := 1, event := ⟨SDL_KEYDOWN, SDLK_w⟩ } : snek).score = 1 ∧
    ({ example_state [] RIGHT 9 10 with
        status := START_MENU, score := 1, event := ⟨SDL_KEYDOWN, SDLK_w⟩ } :
      snek).head.length = 0 := by
  refine ⟨rfl, rfl, rfl, rfl⟩

/-- C27, amended: for every state with score = length of the chain and every
tick that returns success, score = length of the chain holds after the tick,
and so it does in every state reached from there through successful ticks;
start (`snek_init`) sets chain length 1 and score 1, and so does restart when
the allocation of its new node succeeds.  Along a run of the program the score
is the length of the chain in every state outside GAME_OVER and QUIT_LOOP,
unless the chain is empty. -/
theorem C27_score_is_length (s s' : snek) (w w' : World)
    (hsc : s.score = (s.head.length : Int))
    (hu : snek_update s w = some (.success, s', w')) :
    s'.score = (s'.head.length : Int) ∧
    (∀ (l : List (Int × World)) (t : snek), successful_ticks l s = some t →
      t.score = (t.head.length : Int)) ∧
    (∀ (fresh s0 : snek) (sdl : SDL_setup) (v v0 : World),
      snek_init fresh sdl v = (some s0, v0) → s0.head.length = 1 ∧ s0.score = 1) ∧
    (∀ (g : snek) (v : World) (e : SDL_Event) (es : List SDL_Event),
      g.status = GAME_OVER → v.events = e :: es → e.type = SDL_KEYDOWN →
      mallocs_succeed 1 v →
      ∃ g' v', snek_loop g v = some (g', v') ∧ g'.head.length = 1 ∧ g'.score = 1) ∧
    (∀ (fresh s0 t : snek) (sdl : SDL_setup) (v v0 : World) (ws : List World),
      snek_init fresh sdl v = (some s0, v0) → main_loop ws s0 = some t →
      t.status ≠ GAME_OVER → t.status ≠ QUIT_LOOP →
      t.head = [] ∨ t.score = (t.head.length : Int)) := by
  refine ⟨?_, ?_, ?_, ?_, ?_⟩
  · have := update_score s s' w w' hu
    omega
  · intro l t ht
    exact successful_ticks_score l s t hsc ht
  · intro fresh s0 sdl v v0 hi
    obtain ⟨h1, -⟩ := snek_init_data fresh s0 sdl v v0 hi
    obtain ⟨-, -, h2, -⟩ := snek_init_difficulty fresh s0 sdl v v0 hi
    rw [h1]
    exact ⟨rfl, h2⟩
  · intro g v e es hst hw hk ha
    obtain ⟨g', v', h1, h2, h3, -⟩ := snek_loop_restart g v e es hst hw hk ha
    refine ⟨g', v', h1, ?_, h3⟩
    rw [h2]
    rfl
  · intro fresh s0 t sdl v v0 ws hi hm h1 h2
    rcases run_score fresh s0 t sdl v v0 ws hi hm with h | h | h
    · exact absurd h h1
    · exact absurd h h2
    · exact h

theorem C27_score_is_length_witness :
    scenario2.score = (scenario2.head.length : Int) ∧
    snek_update scenario2 ⟨[], [3, 4], [], []⟩ = some (.success, scenario2_after, quiet_world) ∧
    scenario2_after.score = 2 ∧ scenario2_after.head.length = 2 ∧
    scenario2_after.score = (scenario2_after.head.length : Int) :=
  ⟨rfl, rfl, rfl, rfl,
    (C27_score_is_length scenario2 scenario2_after ⟨[], [3, 4], [], []⟩ quiet_world rfl rfl).1⟩

/-- A Playing iteration whose first pending event is a direction key the
no-reversal test accepts, the clock not past the gate: the direction is the
one asked for, a clock reading is stored, and `snek_update` is not called. -/
theorem snek_loop_direction_key (s : snek) (w : World) (e : SDL_Event) (es : List SDL_Event)
    (d : Int) (hst : s.status = MID_GAME) (hw : w.events = e :: es)
    (hk : e.type = SDL_KEYDOWN) (hd : key_direction e.sym = some d)
    (hno : ¬ opposite d s.direction)
    (hg : ¬ ((SDL_GetTicks w).1 > wrap_int32 (s.last_time + s.difficulty))) :
    snek_loop s w =
      some ({ s with event := e, direction := d, current_time := (SDL_GetTicks w).1 },
        { (SDL_GetTicks w).2 with events := es }) := by
  have hq : ¬ (e.type = SDL_QUIT) := by rw [hk]; decide
  have hp : ¬ (e.sym = SDLK_p) := by
    intro hc
    have hnone : key_direction SDLK_p = none := by decide
    rw [hc, hnone] at hd
    simp at hd
  have hin : (snek_input { s with event := e }).2 = { s with event := e, direction := d } := by
    rw [snek_input_direction_key { s with event := e } d hd]
    exact if_neg (fun hc => hno hc.1)
  have hm : loop_mid_game s w =
      some (false, { s with event := e, direction := d, current_time := (SDL_GetTicks w).1 },
        { (SDL_GetTicks w).2 with events := es }) := by
    unfold loop_mid_game SDL_PollEvent
    rw [hw]
    simp only []
    have hg' : ¬ ((SDL_GetTicks { w with events := es }).1 >
        wrap_int32 (({ s with event := e, direction := d } : snek).last_time +
          ({ s with event := e, direction := d } : snek).difficulty)) := hg
    rw [if_neg hq, if_pos hk, if_neg hp, hin, tick_gate_closed _ _ hg']
    rfl
  rw [snek_loop_mid_game s w hst, hm]
  simp only []
  rw [if_pos (Or.inr hst)]

/-- Stepping in the opposite direction undoes a step. -/
theorem moved_head_back (d d0 : Int) (n : snek_entity) (ho : opposite d d0) :
    moved_head d (moved_head d0 n) = n := by
  unfold opposite at ho
  unfold moved_head
  cases n with
  | mk r c =>
    rcases ho with ⟨rfl, rfl⟩ | ⟨rfl, rfl⟩ | ⟨rfl, rfl⟩ | ⟨rfl, rfl⟩ <;> simp

/-- A chain of at least three nodes whose head is moved onto its second node:
the tick never returns success, and with the boundary test passed and
allocation succeeding it returns at the self-collision check. -/
theorem update_reversed (s : snek) (w : World) (h n : snek_entity) (rest : List snek_entity)
    (hs : s.head = h :: n :: rest) (hr : rest ≠ [])
    (hm : moved_head s.direction h = n) :
    (∀ e s' w', snek_update s w = some (e, s', w') → e.result = false) ∧
    ((s.direction = UP ∨ s.direction = DOWN ∨ s.direction = LEFT ∨ s.direction = RIGHT) →
      switch_direction s.direction h ≠ .out_of_bounds →
      mallocs_succeed (s.head.length + 1) w →
      ∃ s' w', snek_update s w = some (.self_collision, s', w')) := by
  have hdrop : n ∈ (h :: n :: rest).dropLast := by
    cases rest with
    | nil => exact absurd rfl hr
    | cons a as => simp [List.dropLast]
  refine ⟨?_, ?_⟩
  · intro e s' w' hu
    exact update_fails_of_hit s s' w w' e h (n :: rest) hs (by rw [hm]; exact hdrop) hu
  · intro hd hb ha
    have hsw := switch_of_valid hd hb
    have ha' : mallocs_succeed
        (if (moved_head s.direction h).row = s.food_row ∧
          (moved_head s.direction h).column = s.food_column then s.head.length + 1
         else s.head.length) w := by
      apply mallocs_succeed_mono _ ha
      split <;> omega
    rw [update_self_collision_iff s w h (n :: rest) _ _ hs hsw ha']
    rw [hm]
    split
    · exact List.mem_cons_of_mem _ (List.mem_cons_self _ _)
    · exact hdrop

/-- C28: there is a Playing state, the straight chain [(10,12),(10,11),(10,10)]
heading Right, and two key presses, W and then A, handled in two consecutive
iterations of `snek_loop` in which the clock is not past the gate, so that no
tick runs in between; each is accepted by the no-reversal test (Up is not the
opposite of Right, Left is not the opposite of Up), and afterwards the
direction is Left, the exact opposite of the direction Right of the last move
made.  The next tick then ends at the self-collision check with the head on
the old second node, and the iteration ends in GAME_OVER.  In general, any two
accepted direction keys in two consecutive Playing iterations with the gate
closed leave the direction at the second key and the chain, score, tile map
and tick timer untouched; and for every chain of at least three nodes whose
head was last moved in the direction opposite to the present one, the tick
never returns success, and with the boundary test passed and allocation
succeeding it returns at the self-collision check. -/
theorem C28_reversal_through_two_inputs :
    reversal_start.status = MID_GAME ∧ reversal_start.direction = RIGHT ∧
    reversal_start.head = [⟨10, 12⟩, ⟨10, 11⟩, ⟨10, 10⟩] ∧
    moved_head RIGHT ⟨10, 11⟩ = ⟨10, 12⟩ ∧ moved_head RIGHT ⟨10, 10⟩ = ⟨10, 11⟩ ∧
    key_direction SDLK_w = some UP ∧ ¬ opposite UP RIGHT ∧
    snek_loop reversal_start ⟨[], [], [10], [⟨SDL_KEYDOWN, SDLK_w⟩]⟩ =
      some ({ reversal_start with
        event := ⟨SDL_KEYDOWN, SDLK_w⟩, direction := UP, current_time := 10 }, quiet_world) ∧
    key_direction SDLK_a = some LEFT ∧ ¬ opposite LEFT UP ∧
    snek_loop
        { reversal_start with
          event := ⟨SDL_KEYDOWN, SDLK_w⟩, direction := UP, current_time := 10 }
        ⟨[], [], [20], [⟨SDL_KEYDOWN, SDLK_a⟩]⟩ =
      some ({ reversal_start with
        event := ⟨SDL_KEYDOWN, SDLK_a⟩, direction := LEFT, current_time := 20 }, quiet_world) ∧
    opposite LEFT RIGHT ∧
    snek_update
        { reversal_start with
          event := ⟨SDL_KEYDOWN, SDLK_a⟩, direction := LEFT, current_time := 100 }
        quiet_world =
      some (.self_collision,
        { reversal_start with
          event := ⟨SDL_KEYDOWN, SDLK_a⟩, direction := LEFT, current_time := 100,
          head := [⟨10, 11⟩, ⟨10, 12⟩, ⟨10, 11⟩] }, quiet_world) ∧
    snek_loop
        { reversal_start with
          event := ⟨SDL_KEYDOWN, SDLK_a⟩, direction := LEFT, current_time := 20 }
        ⟨[], [], [100], []⟩ =
      some ({ reversal_start with
        event := ⟨SDL_KEYDOWN, SDLK_a⟩, direction := LEFT, current_time := 100,
        head := [⟨10, 11⟩, ⟨10, 12⟩, ⟨10, 11⟩], status := GAME_OVER, last_time := 100 },
        quiet_world) ∧
    (∀ (s : snek) (w1 w2 : World) (e1 e2 : SDL_Event) (es1 es2 : List SDL_Event) (d1 d2 : Int),
      s.status = MID_GAME →
      w1.events = e1 :: es1 → e1.type = SDL_KEYDOWN → key_direction e1.sym = some d1 →
      ¬ opposite d1 s.direction → ¬ ((SDL_GetTicks w1).1 > wrap_int32 (s.last_time + s.difficulty)) →
      w2.events = e2 :: es2 → e2.type = SDL_KEYDOWN → key_direction e2.sym = some d2 →
      ¬ opposite d2 d1 → ¬ ((SDL_GetTicks w2).1 > wrap_int32 (s.last_time + s.difficulty)) →
      ∃ s1 v1 s2 v2, snek_loop s w1 = some (s1, v1) ∧ snek_loop s1 w2 = some (s2, v2) ∧
        s1.direction = d1 ∧ s2.direction = d2 ∧ s2.status = MID_GAME ∧ s2.head = s.head ∧
        s2.score = s.score ∧ s2.food_row = s.food_row ∧ s2.food_column = s.food_column ∧
        s2.map = s.map ∧ s2.last_time = s.last_time) ∧
    (∀ (s : snek) (w : World) (h n : snek_entity) (rest : List snek_entity) (d0 : Int),
      s.head = h :: n :: rest → rest ≠ [] → h = moved_head d0 n → opposite s.direction d0 →
      (∀ e s' w', snek_update s w = some (e, s', w') → e.result = false) ∧
      (switch_direction s.direction h ≠ .out_of_bounds →
        mallocs_succeed (s.head.length + 1) w →
        ∃ s' w', snek_update s w = some (.self_collision, s', w'))) := by
  refine ⟨rfl, rfl, rfl, rfl, rfl, by decide, by decide, rfl, by decide, by decide, rfl,
    by decide, rfl, rfl, ?_, ?_⟩
  · intro s w1 w2 e1 e2 es1 es2 d1 d2 hst hw1 hk1 hd1 hn1 hg1 hw2 hk2 hd2 hn2 hg2
    have h1 := snek_loop_direction_key s w1 e1 es1 d1 hst hw1 hk1 hd1 hn1 hg1
    have h2 := snek_loop_direction_key
      { s with event := e1, direction := d1, current_time := (SDL_GetTicks w1).1 }
      w2 e2 es2 d2 hst hw2 hk2 hd2 hn2 hg2
    exact ⟨_, _, _, _, h1, h2, rfl, rfl, hst, rfl, rfl, rfl, rfl, rfl, rfl⟩
  · intro s w h n rest d0 hs hr hh ho
    have hm : moved_head s.direction h = n := by
      rw [hh]; exact moved_head_back s.direction d0 n ho
    obtain ⟨k1, k2⟩ := update_reversed s w h n rest hs hr hm
    refine ⟨k1, fun hb ha => k2 ?_ hb ha⟩
    unfold opposite at ho
    rcases ho with ⟨h1, -⟩ | ⟨h1, -⟩ | ⟨h1, -⟩ | ⟨h1, -⟩
    · exact Or.inl h1
    · exact Or.inr (Or.inl h1)
    · exact Or.inr (Or.inr (Or.inl h1))
    · exact Or.inr (Or.inr (Or.inr h1))

/-- The general statements at the chain [(10,12),(10,11),(10,10)]: the keys W
and A in two iterations with the clock at 10 and 20 turn Right into Left, and
the tick that follows ends at the self-collision check. -/
theorem C28_reversal_through_two_inputs_witness :
    (∃ s1 v1 s2 v2,
      snek_loop reversal_start ⟨[], [], [10], [⟨SDL_KEYDOWN, SDLK_w⟩]⟩ = some (s1, v1) ∧
      snek_loop s1 ⟨[], [], [20], [⟨SDL_KEYDOWN, SDLK_a⟩]⟩ = some (s2, v2) ∧
      s1.direction = UP ∧ s2.direction = LEFT ∧ s2.status = MID_GAME ∧
      s2.head = reversal_start.head ∧ s2.score = reversal_start.score ∧
      s2.food_row = reversal_start.food_row ∧ s2.food_column = reversal_start.food_column ∧
      s2.map = reversal_start.map ∧ s2.last_time = reversal_start.last_time) ∧
    (∃ s' w', snek_update { reversal_start with direction := LEFT } quiet_world =
      some (.self_collision, s', w')) :=
  ⟨C28_reversal_through_two_inputs.2.2.2.2.2.2.2.2.2.2.2.2.2.2.1 reversal_start
      ⟨[], [], [10], [⟨SDL_KEYDOWN, SDLK_w⟩]⟩ ⟨[], [], [20], [⟨SDL_KEYDOWN, SDLK_a⟩]⟩
      ⟨SDL_KEYDOWN, SDLK_w⟩ ⟨SDL_KEYDOWN, SDLK_a⟩ [] [] UP LEFT rfl rfl rfl (by decide)
      (by decide) (by decide) rfl rfl (by decide) (by decide) (by decide),
    (C28_reversal_through_two_inputs.2.2.2.2.2.2.2.2.2.2.2.2.2.2.2
      { reversal_start with direction := LEFT } quiet_world ⟨10, 12⟩ ⟨10, 11⟩ [⟨10, 10⟩] RIGHT
      rfl (by decide) (by decide) (by decide)).2 (by decide) (by decide)⟩

end Snek
